import Mathlib

/-!
Project discovery-go: the discovery providers (nats, dnssd, kubernetes,
static), the discovery engine and the wire forms.

Shallow embedding of `src/discovery`, `src/internal/validation`,
`src/internal/errorschain`, `src/engine.go`, `src/delegate.go` and
`src/option.go`.

* Go strings are modelled by `String`; the byte-indexed standard-library
  helpers (`strings.HasPrefix`, `strings.SplitN`, `net.SplitHostPort`,
  `strconv.Atoi`) work on the character list, which agrees with the byte
  view because every delimiter they look for is ASCII. Where bytes that are
  not valid UTF-8 matter (the JSON wire forms), a Go string is a
  `json.GoString`.
* A Go `int` is an `Int`; where its 64-bit range matters it is a hypothesis.
* A Go `error` result is a `Ret`: `nil`, an error value, or a run-time panic.
* The nats client, the memberlist library, the provider behind the engine
  and the retrier are not part of the repository. They are parameters (`Env`,
  `EngineEnv`): every answer is a function of the calls made so far, and
  every call is appended to a log, so that "nothing was published" or "`Join`
  was not called" is a statement about that log.
* A `goset` set is a list without repetition in the order of insertion; the
  order of `ToSlice` is not fixed by the library, so results that come out of
  a set are stated by membership.
-/

namespace discovery

/-! ## `src/internal/validation` -/

namespace validation

/-- Reason carried by the `%w` part of `invalid address=(%s): %w`. -/
inductive AddrCause where
  | missingPort
  | tooManyColons
  | missingBracket
  | unexpectedOpen
  | unexpectedClose
  /-- Error of `strconv.Atoi`: invalid syntax, or value out of range. -/
  | atoi
  | invalidAddress
  deriving DecidableEq, Repr

/-- Error values built by the validators. -/
inductive VError where
  /-- Text `the [fieldName] is required`. -/
  | required (fieldName : String)
  /-- Value of `errors.New(errMessage)` of the boolean validator. -/
  | assertion (errMessage : String)
  /-- Text `invalid nats server address: server`. -/
  | invalidServer (server : String)
  /-- Text `invalid address=(address): cause`. -/
  | invalidAddress (address : String) (cause : AddrCause)
  deriving DecidableEq, Repr

/-- Result of one `Validator.Validate()` call. -/
inductive VRet where
  | ok
  | fail (e : VError)
  | panicked
  deriving DecidableEq, Repr

/-- Index of the first occurrence of `c` (`bytealg.IndexByteString`). -/
def indexByte (s : List Char) (c : Char) : Option Nat :=
  match s with
  | [] => none
  | x :: rest => if x = c then some 0 else (indexByte rest c).map (· + 1)

/-- Index of the last occurrence of `c` (`bytealg.LastIndexByteString`). -/
def lastIndexByte (s : List Char) (c : Char) : Option Nat :=
  match s with
  | [] => none
  | x :: rest =>
    match lastIndexByte rest c with
    | some i => some (i + 1)
    | none => if x = c then some 0 else none

/-- Characters for which `unicode.IsSpace` holds. -/
def isSpace (c : Char) : Bool :=
  let n := c.toNat
  n = 0x09 || n = 0x0A || n = 0x0B || n = 0x0C || n = 0x0D || n = 0x20 ||
  n = 0x85 || n = 0xA0 || n = 0x1680 || (0x2000 ≤ n && n ≤ 0x200A) ||
  n = 0x2028 || n = 0x2029 || n = 0x202F || n = 0x205F || n = 0x3000

/-- Model of `strings.TrimSpace`. -/
def TrimSpace (s : List Char) : List Char :=
  ((s.dropWhile isSpace).reverse.dropWhile isSpace).reverse

/-- Model of `net.SplitHostPort`. -/
def SplitHostPort (hostport : List Char) : Except AddrCause (List Char × List Char) :=
  match lastIndexByte hostport ':' with
  | none => .error .missingPort
  | some i =>
    let tail (host : List Char) (j k : Nat) : Except AddrCause (List Char × List Char) :=
      if (indexByte (hostport.drop j) '[').isSome then .error .unexpectedOpen
      else if (indexByte (hostport.drop k) ']').isSome then .error .unexpectedClose
      else .ok (host, hostport.drop (i + 1))
    if hostport.head? = some '[' then
      match indexByte hostport ']' with
      | none => .error .missingBracket
      | some close =>
        if close + 1 = hostport.length then .error .missingPort
        else if close + 1 = i then tail ((hostport.take close).drop 1) 1 (close + 1)
        else if hostport.get? (close + 1) = some ':' then .error .tooManyColons
        else .error .missingPort
    else
      let host := hostport.take i
      if (indexByte host ':').isSome then .error .tooManyColons
      else tail host 0 0

/-- Value of a run of decimal digits, `none` when a character is not a digit. -/
def parseDigits (acc : Nat) (s : List Char) : Option Nat :=
  match s with
  | [] => some acc
  | c :: rest =>
    if '0' ≤ c ∧ c ≤ '9' then parseDigits (acc * 10 + (c.toNat - '0'.toNat)) rest
    else none

/-- Model of `strconv.Atoi` for a 64-bit `int`: an optional sign, then at
least one decimal digit and nothing else, with a value that fits. -/
def Atoi (s : List Char) : Except AddrCause Int :=
  let signed (neg : Bool) (digits : List Char) : Except AddrCause Int :=
    if digits = [] then .error .atoi
    else
      match parseDigits 0 digits with
      | none => .error .atoi
      | some n =>
        let v : Int := if neg then - (n : Int) else (n : Int)
        if v < -(2 ^ 63 : Int) ∨ (2 ^ 63 : Int) - 1 < v then .error .atoi else .ok v
  match s with
  | [] => .error .atoi
  | '-' :: rest => signed true rest
  | '+' :: rest => signed false rest
  | _ => signed false s

/-- Method `TCPAddressValidator.Validate` of `tcp_address.go`. -/
def TCPAddressValidator.Validate (address : String) : VRet :=
  match SplitHostPort (TrimSpace address.data) with
  | .error cause => .fail (.invalidAddress address cause)
  | .ok (host, port) =>
    match Atoi port with
    | .error cause => .fail (.invalidAddress address cause)
    | .ok portNum =>
      if host = [] ∨ portNum > 65535 ∨ portNum < 0 then
        .fail (.invalidAddress address .invalidAddress)
      else .ok

/-- Whether `p` is an initial segment of `s` (`strings.HasPrefix`). -/
def HasPrefix (s p : List Char) : Bool :=
  match p, s with
  | [], _ => true
  | _ :: _, [] => false
  | a :: p', b :: s' => a = b && HasPrefix s' p'

/-- The part of `s` after the first occurrence of `sep`, if `sep` occurs:
element `[1]` of `strings.SplitN(s, sep, 2)`. -/
def afterFirst (sep : List Char) (s : List Char) : Option (List Char) :=
  if HasPrefix s sep then some (s.drop sep.length)
  else
    match s with
    | [] => none
    | _ :: rest => afterFirst sep rest

/-- The validators of the package that the providers use, together with the
`ServerAddrValidator` of `nats/config.go`. -/
inductive Validator where
  | emptyString (fieldName fieldValue : String)
  | boolean (boolCheck : Bool) (errMessage : String)
  | tcpAddress (address : String)
  | serverAddr (server : String)
  | conditional (c : Bool) (v : Validator)
  deriving Repr

/-- The `Validate()` method of each validator. -/
def Validator.Validate : Validator → VRet
  | .emptyString fieldName fieldValue =>
    if fieldValue = "" then .fail (.required fieldName) else .ok
  | .boolean boolCheck errMessage =>
    if !boolCheck then .fail (.assertion errMessage) else .ok
  | .tcpAddress address => TCPAddressValidator.Validate address
  | .serverAddr server =>
    if !HasPrefix server.data "nats".data then .fail (.invalidServer server)
    else
      match afterFirst "nats://".data server.data with
      | none => .panicked
      | some hostAndPort => TCPAddressValidator.Validate (String.mk hostAndPort)
  | .conditional c v => if c then v.Validate else .ok

/-- Result of `Chain.Validate()`: `nil`, the violations (one error, or
several combined by `multierr` in this order), or a panic of a validator. -/
inductive ChainRet where
  | ok
  | fail (violations : List VError)
  | panicked
  deriving DecidableEq, Repr

/-- Struct `Chain` of `validation.go`; `violations` is `[]` for a nil error. -/
structure Chain where
  failFast : Bool
  validators : List Validator
  violations : List VError
  deriving Repr

/-- Constructor `New` followed by its options: `FailFast()` sets `failFast`. -/
def New (failFast : Bool) : Chain :=
  { failFast := failFast, validators := [], violations := [] }

/-- Method `Chain.AddValidator`. -/
def Chain.AddValidator (c : Chain) (v : Validator) : Chain :=
  { c with validators := c.validators ++ [v] }

/-- Method `Chain.AddAssertion`. -/
def Chain.AddAssertion (c : Chain) (isTrue : Bool) (message : String) : Chain :=
  { c with validators := c.validators ++ [.boolean isTrue message] }

/-- The loop of `Chain.Validate` over the remaining validators. -/
def Chain.run (failFast : Bool) : List Validator → List VError → ChainRet × List VError
  | [], violations => (if violations = [] then .ok else .fail violations, violations)
  | v :: rest, violations =>
    match v.Validate with
    | .panicked => (.panicked, violations)
    | .ok => Chain.run failFast rest violations
    | .fail e =>
      if failFast then (.fail [e], violations)
      else Chain.run failFast rest (violations ++ [e])

/-- Method `Chain.Validate`: the returned error and the chain afterwards. -/
def Chain.Validate (c : Chain) : ChainRet × Chain :=
  let r := Chain.run c.failFast c.validators c.violations
  (r.1, { c with violations := r.2 })

/-- The error that a validator returned; a nil error is `none`. -/
def VRet.error : VRet → Option VError
  | .fail e => some e
  | _ => none

/-- Method `Error()` of the error values. `library` is the text of the error
of `net.SplitHostPort` or of `strconv.Atoi` that `%w` wraps. -/
def VError.Error (library : AddrCause → String) : VError → String
  | .required fieldName => "the [" ++ fieldName ++ "] is required"
  | .assertion errMessage => errMessage
  | .invalidServer server => "invalid nats server address: " ++ server
  | .invalidAddress address .invalidAddress =>
    "invalid address=(" ++ address ++ "): invalid address"
  | .invalidAddress address cause => "invalid address=(" ++ address ++ "): " ++ library cause

/-- Method `Error()` of the error that `Chain.Validate` returns: the message
of the one error, and for errors combined by `multierr.Append` their messages
joined by `; `. A nil error has no message. -/
def ChainRet.Error (library : AddrCause → String) : ChainRet → Option String
  | .fail violations => some ("; ".intercalate (violations.map (VError.Error library)))
  | _ => none

end validation

/-! ## `src/discovery/error.go` and the error values the providers return -/

/-- Error reported by the nats client library (`nats.ErrInvalidConnection`,
`nats.ErrNoServers`, ...); the library is not part of the repository, so its
errors are identified by a code. -/
structure NatsError where
  code : Nat
  deriving DecidableEq, Repr

/-- Error reported by `json.Unmarshal`. -/
structure JsonError where
  code : Nat
  deriving DecidableEq, Repr

/-- Error values: the four lifecycle errors of `error.go`, a configuration
validation error, an error of the nats client, an error of the JSON decoder
and an error of a directory query (DNS resolver, kubernetes API). -/
inductive Err where
  | ErrAlreadyInitialized
  | ErrNotInitialized
  | ErrAlreadyRegistered
  | ErrNotRegistered
  | validation (violations : List validation.VError)
  | nats (e : NatsError)
  | json (e : JsonError)
  | directory (e : String)
  deriving DecidableEq, Repr

/-- Outcome of a Go function whose result type is `error`. -/
inductive Ret where
  | nil
  | err (e : Err)
  | panicked
  deriving DecidableEq, Repr

/-- An optional library error as a Go `error` result. -/
def Ret.ofNats : Option NatsError → Ret
  | none => .nil
  | some e => .err (.nats e)

/-- The result of `Config.Validate` as a Go `error` result. -/
def Ret.ofValidation : validation.ChainRet → Ret
  | .ok => .nil
  | .fail violations => .err (.validation violations)
  | .panicked => .panicked

/-- Model of `net.JoinHostPort`: a host with a colon is put in brackets. -/
def JoinHostPort (host port : String) : String :=
  if (validation.indexByte host.data ':').isSome then "[" ++ host ++ "]:" ++ port
  else host ++ ":" ++ port

/-- Model of `strconv.Itoa`. -/
def Itoa (n : Int) : String := toString n

/-! ## The wire form of `encoding/json` for flat structs -/

namespace json

/-- One step of `utf8.DecodeRuneInString` through a Go string: a validly
encoded rune, or one byte that starts no valid encoding. -/
inductive Segment where
  | rune (c : Char)
  | invalid (byte : Nat)
  deriving DecidableEq, Repr

/-- A Go string, which may hold bytes that are not valid UTF-8. -/
abbrev GoString := List Segment

/-- A Go string that is valid UTF-8. -/
def GoString.ofString (s : String) : GoString := s.data.map .rune

/-- The hexadecimal digit of `n < 16` (constant `hex` of the encoder). -/
def hexDigit (n : Nat) : Char :=
  if n < 10 then Char.ofNat (48 + n) else Char.ofNat (87 + n)

/-- The escape `\uXXXX` of a code unit; for `n < 256` this is what the encoder
writes as `\u00` and two digits, and for U+2028 and U+2029 as `\u202` and one
digit. -/
def escapeU (n : Nat) : List Char :=
  ['\\', 'u', hexDigit (n / 4096 % 16), hexDigit (n / 256 % 16), hexDigit (n / 16 % 16),
    hexDigit (n % 16)]

/-- Table `htmlSafeSet`: the ASCII characters written as they are. -/
def htmlSafe (c : Char) : Bool :=
  decide (0x20 ≤ c.toNat) && decide (c.toNat < 0x80) && c != '"' && c != '\\' && c != '<' &&
    c != '>' && c != '&'

/-- What the encoder (with HTML escaping, as `json.Marshal` has it) writes for
one step through the string: an invalid byte becomes the escape of U+FFFD. -/
def encodeSegment : Segment → List Char
  | .invalid _ => ['\\', 'u', 'f', 'f', 'f', 'd']
  | .rune c =>
    if c.toNat < 0x80 then
      if htmlSafe c then [c]
      else if c = '\\' then ['\\', '\\']
      else if c = '"' then ['\\', '"']
      else if c.toNat = 0x08 then ['\\', 'b']
      else if c.toNat = 0x0C then ['\\', 'f']
      else if c = '\n' then ['\\', 'n']
      else if c = '\r' then ['\\', 'r']
      else if c = '\t' then ['\\', 't']
      else escapeU c.toNat
    else if c.toNat = 0x2028 ∨ c.toNat = 0x2029 then escapeU c.toNat
    else [c]

/-- The characters between the quotes of an encoded string. -/
def encodeBody : GoString → List Char
  | [] => []
  | seg :: rest => encodeSegment seg ++ encodeBody rest

/-- A Go string as a JSON string literal. -/
def encodeString (s : GoString) : List Char :=
  '"' :: (encodeBody s ++ ['"'])

/-- Value of a hexadecimal digit. -/
def hexVal (c : Char) : Option Nat :=
  if '0' ≤ c ∧ c ≤ '9' then some (c.toNat - 48)
  else if 'a' ≤ c ∧ c ≤ 'f' then some (c.toNat - 87)
  else if 'A' ≤ c ∧ c ≤ 'F' then some (c.toNat - 55)
  else none

/-- Value of four hexadecimal digits (`getu4`). -/
def hex4 (a b c d : Char) : Option Nat :=
  match hexVal a, hexVal b, hexVal c, hexVal d with
  | some a, some b, some c, some d => some (a * 4096 + b * 256 + c * 16 + d)
  | _, _, _, _ => none

/-- Puts a decoded character in front of the decoded rest. -/
def consChar (c : Char) : Option (List Char × List Char) → Option (List Char × List Char)
  | none => none
  | some (s, rest) => some (c :: s, rest)

/-- The decoder on a string literal after its opening quote: the decoded
string and the text after the closing quote. `none` when the literal is not
terminated, holds a control character or an unknown escape, or holds the
escape of a surrogate (which this model leaves out). -/
def unquote : List Char → Option (List Char × List Char)
  | [] => none
  | c :: rest =>
    if c = '"' then some ([], rest)
    else if c = '\\' then
      match rest with
      | [] => none
      | e :: rest1 =>
        if e = 'u' then
          match rest1 with
          | h1 :: h2 :: h3 :: h4 :: rest2 =>
            match hex4 h1 h2 h3 h4 with
            | none => none
            | some n =>
              if 0xD800 ≤ n ∧ n < 0xE000 then none
              else consChar (Char.ofNat n) (unquote rest2)
          | _ => none
        else if e = '"' ∨ e = '\\' ∨ e = '/' then consChar e (unquote rest1)
        else if e = 'b' then consChar (Char.ofNat 0x08) (unquote rest1)
        else if e = 'f' then consChar (Char.ofNat 0x0C) (unquote rest1)
        else if e = 'n' then consChar '\n' (unquote rest1)
        else if e = 'r' then consChar '\r' (unquote rest1)
        else if e = 't' then consChar '\t' (unquote rest1)
        else none
    else if c.toNat < 0x20 then none
    else consChar c (unquote rest)

/-- Whether a character is a decimal digit. -/
def isDigit (c : Char) : Bool := decide ('0' ≤ c ∧ c ≤ '9')

/-- The decoder on an integer literal, for a field of type `int`: an optional
minus sign and decimal digits without a leading zero, with a value that fits
64 bits. `none` for any other text; a fraction or an exponent makes
`json.Unmarshal` fail for an `int` field. -/
def parseInt (s : List Char) : Option (Int × List Char) :=
  let body (neg : Bool) (t : List Char) : Option (Int × List Char) :=
    let digits := t.takeWhile isDigit
    let rest := t.dropWhile isDigit
    if digits = [] then none
    else if digits.head? = some '0' ∧ digits.length > 1 then none
    else if rest.head? = some '.' ∨ rest.head? = some 'e' ∨ rest.head? = some 'E' then none
    else
      match validation.parseDigits 0 digits with
      | none => none
      | some n =>
        let v : Int := if neg then - (n : Int) else (n : Int)
        if v < -(2 ^ 63 : Int) ∨ (2 ^ 63 : Int) - 1 < v then none else some (v, rest)
  match s with
  | [] => none
  | c :: t => if c = '-' then body true t else body false s

/-- The values of the members of a flat object. -/
inductive Value where
  | str (s : List Char)
  | int (n : Int)
  | bool (b : Bool)
  deriving DecidableEq, Repr

/-- The decoder on one value: a string, `true`, `false` or an integer. -/
def parseValue (s : List Char) : Option (Value × List Char) :=
  match s with
  | [] => none
  | c :: rest =>
    if c = '"' then
      match unquote rest with
      | none => none
      | some (str, rest) => some (.str str, rest)
    else if c = 't' then
      if rest.take 3 = ['r', 'u', 'e'] then some (.bool true, rest.drop 3) else none
    else if c = 'f' then
      if rest.take 4 = ['a', 'l', 's', 'e'] then some (.bool false, rest.drop 4) else none
    else
      match parseInt s with
      | none => none
      | some (n, rest) => some (.int n, rest)

/-- The decoder on the members of an object after `{` or `,`: key, colon,
value, and then `,` and more members, or `}` and the end of the text. -/
def parseMembers : (fuel : Nat) → List Char → Option (List (List Char × Value))
  | 0, _ => none
  | fuel + 1, '"' :: s =>
    match unquote s with
    | some (key, ':' :: afterColon) =>
      match parseValue afterColon with
      | some (v, ['}']) => some [(key, v)]
      | some (v, ',' :: more) =>
        match parseMembers fuel more with
        | none => none
        | some members => some ((key, v) :: members)
      | _ => none
    | _ => none
  | _ + 1, _ => none

/-- The decoder on a compact flat object: the keys and values of its members
in order. `none` when the text is not valid JSON, and also when it is an
object with white space, nested values, `null` or numbers that are not
integers: those forms are outside this model. -/
def parseObject (text : List Char) : Option (List (List Char × Value)) :=
  match text with
  | ['{', '}'] => some []
  | '{' :: s => parseMembers s.length s
  | _ => none

/-- The text after a number in the output of the encoder starts with a comma
or a closing brace. -/
def endsNumber (rest : List Char) : Prop :=
  ∃ tail, rest = ',' :: tail ∨ rest = '}' :: tail

end json

/-! ## `src/discovery/nats` -/

namespace nats

/-- One second as a `time.Duration` (nanoseconds). -/
def Second : Int := 1000000000

/-- Struct `Config` of `nats/config.go`. -/
structure Config where
  Server : String
  Subject : String
  Timeout : Int
  MaxJoinAttempts : Int
  ReconnectWait : Int
  Host : String
  DiscoveryPort : Int
  deriving DecidableEq, Repr

/-- The chain that `Config.Validate` builds. -/
def Config.chain (config : Config) : validation.Chain :=
  ((((((validation.New true).AddValidator (.emptyString "Server" config.Server)).AddValidator
    (.serverAddr config.Server)).AddValidator
    (.emptyString "Subject" config.Subject)).AddValidator
    (.emptyString "Host" config.Host)).AddAssertion
    (decide (config.DiscoveryPort > 0)) "DiscoveryPort is invalid")

/-- Method `Config.Validate`. -/
def Config.Validate (config : Config) : Ret :=
  match config.chain.Validate.1 with
  | .ok => .nil
  | .fail violations => .err (.validation violations)
  | .panicked => .panicked

/-- Type `MessageType` of `message.go`, an `int`. -/
abbrev MessageType := Int

/-- Constant `Register` (`iota` 0). -/
def Register : MessageType := 0

/-- Constant `Deregister` (`iota` 1). -/
def Deregister : MessageType := 1

/-- Constant `Request` (`iota` 2). -/
def Request : MessageType := 2

/-- Constant `Response` (`iota` 3). -/
def Response : MessageType := 3

/-- Struct `Message` of `message.go`. -/
structure Message where
  Host : String
  Port : Int
  Name : String
  /-- Field `Type` of the Go struct. -/
  Type_ : MessageType
  deriving DecidableEq, Repr

/-- A `*nats.Conn` that is not nil. -/
structure Conn where
  id : Nat
  deriving DecidableEq, Repr

/-- A `*nats.Subscription` that is not nil. -/
structure Subscription where
  id : Nat
  deriving DecidableEq, Repr

/-- The fields of `nats.Options` that `Initialize` sets. -/
structure Options where
  Url : String
  Name : String
  ReconnectWait : Int
  MaxReconnect : Int
  deriving DecidableEq, Repr

/-- An inbound `*nats.Msg`. -/
structure Msg where
  Subject : String
  Reply : String
  Data : String
  deriving DecidableEq, Repr

/-- A call into the nats client library. A nil `*nats.Conn` receiver is `none`. -/
inductive Call where
  | connect (opts : Options)
  | subscribe (conn : Option Conn) (subject : String)
  | chanSubscribe (conn : Option Conn) (subject : String)
  | isValid (sub : Subscription)
  | unsubscribe (sub : Subscription)
  | publish (conn : Option Conn) (subject : String) (data : String)
  | publishRequest (conn : Option Conn) (subject reply : String) (data : String)
  | flush (conn : Conn)
  | close (conn : Conn)
  | newInbox
  | asyncError (conn : Conn) (e : JsonError)
  deriving DecidableEq, Repr

/-- The collaborators that are not part of the repository. Each answer of the
nats client is a function of the calls made before (`past`) and of the
arguments of the call. -/
structure Env where
  /-- Answer of `opts.Connect()`. -/
  connect : (past : List Call) → Options → Except NatsError Conn
  /-- Answer of `conn.Subscribe(subject, handler)`. -/
  subscribe : (past : List Call) → Option Conn → String → Except NatsError Subscription
  /-- Answer of `conn.ChanSubscribe(subject, ch)`. -/
  chanSubscribe : (past : List Call) → Option Conn → String → Except NatsError Subscription
  /-- Answer of `sub.IsValid()`. -/
  isValid : (past : List Call) → Subscription → Bool
  /-- Answer of `sub.Unsubscribe()`. -/
  unsubscribe : (past : List Call) → Subscription → Option NatsError
  /-- Answer of `conn.Publish(subject, data)`. -/
  publish : (past : List Call) → Option Conn → String → String → Option NatsError
  /-- Answer of `conn.PublishRequest(subject, reply, data)`. -/
  publishRequest : (past : List Call) → Option Conn → String → String → String → Option NatsError
  /-- Answer of `conn.Flush()`. -/
  flush : (past : List Call) → Conn → Option NatsError
  /-- Answer of `nats.NewInbox()`. -/
  newInbox : (past : List Call) → String
  /-- The function `json.Marshal` on a `Message`. -/
  marshal : Message → String
  /-- The function `json.Unmarshal` into a `Message`. -/
  unmarshal : String → Except JsonError Message
  /-- Number of tries of a retrier built with a `maxTries` that is not
  positive (`retry.NewRetrier` then uses its default). -/
  defaultMaxTries : Nat

/-- Struct `Discovery` of `nats/discovery.go` (without the mutex). -/
structure Discovery where
  config : Config
  initialized : Bool
  registered : Bool
  connection : Option Conn
  subscriptions : List (Option Subscription)
  address : String
  deriving DecidableEq, Repr

/-- The address `net.JoinHostPort(config.Host, strconv.Itoa(config.DiscoveryPort))`. -/
def hostPort (config : Config) : String :=
  JoinHostPort config.Host (Itoa config.DiscoveryPort)

/-- Constructor `NewDiscovery`. -/
def NewDiscovery (config : Config) : Discovery :=
  { config := config
    initialized := false
    registered := false
    connection := none
    subscriptions := []
    address := hostPort config }

/-- Method `ID`. -/
def Discovery.ID (_d : Discovery) : String := "nats"

/-- What a provider method leaves behind: its result, the provider and the
calls made to the nats client so far. -/
structure Outcome (α : Type) where
  ret : α
  d : Discovery
  log : List Call

/-- The retrier of `Initialize` running the connection closure: one try, and
`extra` more tries as long as the previous one failed. Returns the variables
`connection` and `err` of `Initialize` and the log. -/
def connectWithRetry (env : Env) (opts : Options) :
    (extra : Nat) → List Call → Option Conn × Option NatsError × List Call
  | 0, log =>
    match env.connect log opts with
    | .ok c => (some c, none, log ++ [.connect opts])
    | .error e => (none, some e, log ++ [.connect opts])
  | extra + 1, log =>
    match env.connect log opts with
    | .ok c => (some c, none, log ++ [.connect opts])
    | .error _ => connectWithRetry env opts extra (log ++ [.connect opts])

/-- Number of tries of `retry.NewRetrier(maxTries, ...)`. -/
def retrierTries (env : Env) (maxTries : Int) : Nat :=
  if maxTries ≤ 0 then env.defaultMaxTries else maxTries.toNat

/-- The defaults that `Initialize` writes into the configuration. -/
def applyDefaults (config : Config) : Config :=
  let c1 := if config.Timeout ≤ 0 then { config with Timeout := Second } else config
  let c2 := if c1.MaxJoinAttempts = 0 then { c1 with MaxJoinAttempts := 5 } else c1
  if c2.ReconnectWait ≤ 0 then { c2 with ReconnectWait := 2 * Second } else c2

/-- Method `Discovery.Initialize`. -/
def Discovery.Initialize (env : Env) (d : Discovery) (log : List Call) : Outcome Ret :=
  if d.initialized then ⟨.err .ErrAlreadyInitialized, d, log⟩
  else
    match d.config.Validate with
    | .err e => ⟨.err e, d, log⟩
    | .panicked => ⟨.panicked, d, log⟩
    | .nil =>
      let config := applyDefaults d.config
      let opts : Options :=
        { Url := config.Server
          Name := hostPort config
          ReconnectWait := config.ReconnectWait
          MaxReconnect := -1 }
      let r := connectWithRetry env opts (retrierTries env config.MaxJoinAttempts - 1) log
      ⟨.nil, { d with config := config, connection := r.1, initialized := true }, r.2.2⟩

/-- The message about this node that `Register` (handler), `Deregister` and
`DiscoverPeers` build, with the given type. -/
def selfMessage (config : Config) (type : MessageType) : Message :=
  { Host := config.Host
    Port := config.DiscoveryPort
    Name := hostPort config
    Type_ := type }

/-- The subscription handler that `Register` installs, run on one inbound
message while the provider is `d`. It returns no value; the result is the
log, and `panicked` when it dereferences a nil connection. -/
def Discovery.handler (env : Env) (d : Discovery) (msg : Msg) (log : List Call) :
    Ret × List Call :=
  match env.unmarshal msg.Data with
  | .error e =>
    match d.connection with
    | none => (.panicked, log)
    | some c => (.nil, log ++ [.asyncError c e])
  | .ok message =>
    if message.Type_ = nats.Deregister then (.nil, log)
    else if message.Type_ = nats.Register then (.nil, log)
    else if message.Type_ = nats.Request then
      let bytea := env.marshal (selfMessage d.config nats.Response)
      (.nil, log ++ [.publish d.connection msg.Reply bytea])
    else (.nil, log)

/-- Method `Discovery.Register`. -/
def Discovery.Register (env : Env) (d : Discovery) (log : List Call) : Outcome Ret :=
  if d.registered then ⟨.err .ErrAlreadyRegistered, d, log⟩
  else
    match env.subscribe log d.connection d.config.Subject with
    | .error e => ⟨.err (.nats e), d, log ++ [.subscribe d.connection d.config.Subject]⟩
    | .ok subscription =>
      ⟨.nil,
        { d with subscriptions := d.subscriptions ++ [some subscription], registered := true },
        log ++ [.subscribe d.connection d.config.Subject]⟩

/-- The loop over `d.subscriptions` shared by `Deregister` and `Close`: every
subscription that is not nil and is valid is unsubscribed; the first error of
`Unsubscribe` ends the loop. -/
def unsubscribeAll (env : Env) :
    List (Option Subscription) → List Call → Option NatsError × List Call
  | [], log => (none, log)
  | none :: rest, log => unsubscribeAll env rest log
  | some subscription :: rest, log =>
    if env.isValid log subscription then
      match env.unsubscribe (log ++ [.isValid subscription]) subscription with
      | some e => (some e, log ++ [.isValid subscription, .unsubscribe subscription])
      | none =>
        unsubscribeAll env rest (log ++ [.isValid subscription, .unsubscribe subscription])
    else unsubscribeAll env rest (log ++ [.isValid subscription])

/-- Method `Discovery.Deregister`. -/
def Discovery.Deregister (env : Env) (d : Discovery) (log : List Call) : Outcome Ret :=
  if !d.registered then ⟨.err .ErrNotRegistered, d, log⟩
  else
    match unsubscribeAll env d.subscriptions log with
    | (some e, log1) => ⟨.err (.nats e), d, log1⟩
    | (none, log1) =>
      match d.connection with
      | some c =>
        let bytea := env.marshal (selfMessage d.config nats.Deregister)
        ⟨Ret.ofNats (env.publish log1 (some c) d.config.Subject bytea), d,
          log1 ++ [.publish (some c) d.config.Subject bytea]⟩
      | none => ⟨.nil, { d with registered := false }, log1⟩

/-- What the receive loop of `DiscoverPeers` is given by the bus in one round:
the payloads taken from `msgCh` before the `timeout` case fires, and the
payload (the channel has capacity 1) still buffered in `msgCh` when the
`timeout` case closes it. -/
structure Round where
  received : List String
  buffered : Option String
  deriving DecidableEq, Repr

/-- The `case msg, ok := <-msgCh` branch run over the payloads in arrival
order, starting from `peers`: an error of `json.Unmarshal` ends the call,
the own address is skipped, any other address is appended. -/
def collect (env : Env) (me : String) : List String → List String → Except JsonError (List String)
  | peers, [] => .ok peers
  | peers, data :: rest =>
    match env.unmarshal data with
    | .error e => .error e
    | .ok message =>
      let addr := JoinHostPort message.Host (Itoa message.Port)
      if addr = me then collect env me peers rest
      else collect env me (peers ++ [addr]) rest

/-- Method `Discovery.DiscoverPeers`, for the round `round` of the bus. -/
def Discovery.DiscoverPeers (env : Env) (round : Round) (d : Discovery) (log : List Call) :
    Outcome (List String × Ret) :=
  if !d.initialized then ⟨([], .err .ErrNotInitialized), d, log⟩
  else if !d.registered then ⟨([], .err .ErrNotRegistered), d, log⟩
  else
    let inbox := env.newInbox log
    let log1 := log ++ [.newInbox]
    match env.chanSubscribe log1 d.connection inbox with
    | .error e => ⟨([], .err (.nats e)), d, log1 ++ [.chanSubscribe d.connection inbox]⟩
    | .ok sub =>
      let log2 := log1 ++ [.chanSubscribe d.connection inbox]
      let bytea := env.marshal (selfMessage d.config nats.Request)
      let log3 := log2 ++ [.publishRequest d.connection d.config.Subject inbox bytea]
      match env.publishRequest log2 d.connection d.config.Subject inbox bytea with
      | some e => ⟨([], .err (.nats e)), d, log3⟩
      | none =>
        let me := hostPort d.config
        match collect env me [] round.received with
        | .error e => ⟨([], .err (.json e)), d, log3⟩
        | .ok peers =>
          let log4 := log3 ++ [.unsubscribe sub]
          match collect env me peers round.buffered.toList with
          | .error e => ⟨([], .err (.json e)), d, log4⟩
          | .ok peers => ⟨(peers, .nil), d, log4⟩

/-- Method `Discovery.Close`. The deferred function closes the connection and
sets it to nil on every path on which it was not nil. -/
def Discovery.Close (env : Env) (d : Discovery) (log : List Call) : Outcome Ret :=
  let d1 := { d with initialized := false, registered := false }
  match d.connection with
  | some c =>
    match unsubscribeAll env d.subscriptions log with
    | (some e, log1) => ⟨.err (.nats e), { d1 with connection := none }, log1 ++ [.close c]⟩
    | (none, log1) =>
      ⟨Ret.ofNats (env.flush log1 c), { d1 with connection := none },
        log1 ++ [.flush c, .close c]⟩
  | none => ⟨.nil, d1, log⟩

/-- The receive loop of `DiscoverPeers`, one `select` per unit of `fuel`.
While `msgCh` is open (`closed = none`) iteration `i` takes what the `select`
picks: `picks i = some data` is a payload from `msgCh`, `picks i = none` is
the `timeout` case, which unsubscribes and closes `msgCh` with `buffered`
still in it. Once `msgCh` is closed (`closed = some rest`) only `msgCh` can be
picked: the payload left in it, then `ok = false`, which returns. The result
is `none` while the loop is still running when the fuel is used up. -/
def receiveLoop (env : Env) (me : String) (picks : Nat → Option String)
    (buffered : Option String) :
    (fuel : Nat) → (i : Nat) → (closed : Option (Option String)) → (peers : List String) →
    Option (Except JsonError (List String))
  | 0, _, _, _ => none
  | _ + 1, _, some none, peers => some (.ok peers)
  | fuel + 1, i, some (some data), peers =>
    match env.unmarshal data with
    | .error e => some (.error e)
    | .ok message =>
      let addr := JoinHostPort message.Host (Itoa message.Port)
      if addr = me then receiveLoop env me picks buffered fuel (i + 1) (some none) peers
      else receiveLoop env me picks buffered fuel (i + 1) (some none) (peers ++ [addr])
  | fuel + 1, i, none, peers =>
    match picks i with
    | none => receiveLoop env me picks buffered fuel (i + 1) (some buffered) peers
    | some data =>
      match env.unmarshal data with
      | .error e => some (.error e)
      | .ok message =>
        let addr := JoinHostPort message.Host (Itoa message.Port)
        if addr = me then receiveLoop env me picks buffered fuel (i + 1) none peers
        else receiveLoop env me picks buffered fuel (i + 1) none (peers ++ [addr])

/-- The payloads picked in the iterations before iteration `k`. -/
def picked (picks : Nat → Option String) (k : Nat) : List String :=
  (List.range k).filterMap picks

/-- The addresses that a list of payloads reports, in order, one per payload
that decodes to an address other than `me`. -/
def reportedAddresses (env : Env) (me : String) (msgs : List String) : List String :=
  msgs.filterMap fun data =>
    match env.unmarshal data with
    | .error _ => none
    | .ok message =>
      if JoinHostPort message.Host (Itoa message.Port) = me then none
      else some (JoinHostPort message.Host (Itoa message.Port))

/-- What the receive loop of `DiscoverPeers` returns for the payloads
`received` before the `timeout` case and `buffered` after it: the two runs of
`collect` inside `Discovery.DiscoverPeers`. -/
def collectRound (env : Env) (me : String) (peers : List String) (received : List String)
    (buffered : Option String) : Except JsonError (List String) :=
  match collect env me peers received with
  | .error e => .error e
  | .ok peers => collect env me peers buffered.toList

/-! ### The wire form of a `Message` -/

/-- Struct `Message` as Go holds it: `Host` and `Name` are Go strings, which
may hold bytes that are not valid UTF-8. -/
structure RawMessage where
  Host : json.GoString
  Port : Int
  Name : json.GoString
  Type_ : MessageType
  deriving DecidableEq, Repr

/-- A `Message` whose strings are valid UTF-8, as Go holds it. -/
def Message.raw (m : Message) : RawMessage :=
  { Host := json.GoString.ofString m.Host
    Port := m.Port
    Name := json.GoString.ofString m.Name
    Type_ := m.Type_ }

/-- The function `json.Marshal` on a `Message`: the members `host`, `port`,
`name`, `type` of the struct tags, in the order of the fields. -/
def jsonMarshal (m : RawMessage) : String :=
  String.mk ("\x7b\"host\":".data ++ json.encodeString m.Host ++
    ",\"port\":".data ++ (Itoa m.Port).data ++
    ",\"name\":".data ++ json.encodeString m.Name ++
    ",\"type\":".data ++ (Itoa m.Type_).data ++ "\x7d".data)

/-- The decoder storing one member into the `Message`. `none` when the value
has not the type of the field (an error of `json.Unmarshal`) or the key is
not exactly the tag of a field (outside this model). -/
def setMember (m : Message) : List Char × json.Value → Option Message
  | (key, .str s) =>
    if key = "host".data then some { m with Host := String.mk s }
    else if key = "name".data then some { m with Name := String.mk s }
    else none
  | (key, .int n) =>
    if key = "port".data then some { m with Port := n }
    else if key = "type".data then some { m with Type_ := n }
    else none
  | (_, .bool _) => none

/-- The decoder storing the members in order. -/
def setMembers : Message → List (List Char × json.Value) → Option Message
  | m, [] => some m
  | m, member :: rest =>
    match setMember m member with
    | none => none
    | some m1 => setMembers m1 rest

/-- The function `json.Unmarshal` into a `new(Message)`, for a compact flat
object whose keys are tags of the struct. `none` when `json.Unmarshal` fails
and when the text is outside this model. -/
def jsonUnmarshal (data : String) : Option Message :=
  match json.parseObject data.data with
  | none => none
  | some members => setMembers { Host := "", Port := 0, Name := "", Type_ := 0 } members

/-! ### Concrete collaborators, to run the definitions on inputs -/

/-- The fields of a message one per line: host, port, name, type number. -/
def lineMarshal (m : Message) : String :=
  m.Host ++ "\n" ++ Itoa m.Port ++ "\n" ++ m.Name ++ "\n" ++ Itoa m.Type_

/-- The lines of a text. -/
def splitLines (cur : List Char) : List Char → List (List Char)
  | [] => [cur.reverse]
  | c :: rest => if c = '\n' then cur.reverse :: splitLines [] rest else splitLines (c :: cur) rest

/-- Decoder of `lineMarshal`; any other text is an error. -/
def lineUnmarshal (data : String) : Except JsonError Message :=
  match splitLines [] data.data with
  | [host, port, name, type] =>
    match validation.Atoi port, validation.Atoi type with
    | .ok p, .ok t => .ok ⟨String.mk host, p, String.mk name, t⟩
    | _, _ => .error ⟨2⟩
  | _ => .error ⟨1⟩

/-- A bus that is up: every connection attempt succeeds, a call on a nil
connection is refused with error 1, a subscription is valid until it is
unsubscribed, and every other call succeeds. -/
def reachableBus : Env where
  connect := fun past _ => .ok ⟨past.length⟩
  subscribe := fun past conn _ =>
    match conn with
    | none => .error ⟨1⟩
    | some _ => .ok ⟨past.length⟩
  chanSubscribe := fun past conn _ =>
    match conn with
    | none => .error ⟨1⟩
    | some _ => .ok ⟨past.length⟩
  isValid := fun past sub => !(past.contains (.unsubscribe sub))
  unsubscribe := fun _ _ => none
  publish := fun _ conn _ _ =>
    match conn with
    | none => some ⟨1⟩
    | some _ => none
  publishRequest := fun _ conn _ _ _ =>
    match conn with
    | none => some ⟨1⟩
    | some _ => none
  flush := fun _ _ => none
  newInbox := fun past => "_INBOX." ++ toString past.length
  marshal := lineMarshal
  unmarshal := lineUnmarshal
  defaultMaxTries := 3

/-- A bus that is down: every connection attempt fails with error 2; the
rest is as in `reachableBus`. -/
def unreachableBus : Env :=
  { reachableBus with connect := fun _ _ => .error ⟨2⟩ }

/-- Node A of the scenario of the specification: host 127.0.0.1, port 9001,
subject "cluster", every optional setting left at zero. -/
def nodeA : Config :=
  { Server := "nats://127.0.0.1:4222"
    Subject := "cluster"
    Timeout := 0
    MaxJoinAttempts := 0
    ReconnectWait := 0
    Host := "127.0.0.1"
    DiscoveryPort := 9001 }

/-- Node B of the scenario of the specification: port 9002. -/
def nodeB : Config := { nodeA with DiscoveryPort := 9002 }

/-- Node A after `Initialize` on the reachable bus. -/
def initializedA : Outcome Ret :=
  (NewDiscovery nodeA).Initialize reachableBus []

/-- Node A after `Initialize` and `Register` on the reachable bus. -/
def registeredA : Outcome Ret :=
  initializedA.d.Register reachableBus initializedA.log

/-- Node A after `Initialize`, `Register` and `Deregister` on the reachable bus. -/
def deregisteredA : Outcome Ret :=
  registeredA.d.Deregister reachableBus registeredA.log

/-- A schedule of the receive loop: the response of node B, then the own
response of node A, then the `timeout` case; had the loop gone on, it would
have found the response of node B again and again. -/
def floodPicks (i : Nat) : Option String :=
  if i = 0 then some (lineMarshal (selfMessage nodeB Response))
  else if i = 1 then some (lineMarshal (selfMessage nodeA Response))
  else if i = 2 then none
  else some (lineMarshal (selfMessage nodeB Response))

/-- Whether the `select` of the receive loop may take what the schedule
`picks` says in its first `n` iterations, when the channel of
`time.After(d.config.Timeout)` becomes ready at iteration `fired`: the
`timeout` case can be taken only from then on, a payload whenever the bus has
put one into `msgCh`. Among the cases that are ready Go chooses at random. -/
def timerAllows (fired : Nat) (picks : Nat → Option String) (n : Nat) : Bool :=
  (List.range n).all fun i => (picks i).isSome || decide (fired ≤ i)

/-- A schedule of the receive loop under a stream of responses: the `select`
takes the responses of three other nodes (ports 9002, 9003, 9004) in its
first three iterations and the `timeout` case in the fourth. -/
def overrunPicks (i : Nat) : Option String :=
  if i = 3 then none
  else some (lineMarshal (selfMessage { nodeA with DiscoveryPort := 9002 + i } Response))

/-- Node A after `Initialize` on the unreachable bus. -/
def unreachableA : Outcome Ret :=
  (NewDiscovery nodeA).Initialize unreachableBus []

end nats

/-! ## `src/discovery/dnssd` -/

namespace dnssd

/-- Struct `Config` of `dnssd/config.go`; a nil `IPv6` pointer is `none`. -/
structure Config where
  DomainName : String
  IPv6 : Option Bool
  deriving DecidableEq, Repr

/-- Method `Config.Validate`. -/
def Config.Validate (x : Config) : validation.ChainRet :=
  (((validation.New true).AddValidator (.emptyString "Namespace" x.DomainName)).Validate).1

/-- Struct `Discovery` of `dnssd/discovery.go` (without the mutex). -/
structure Discovery where
  config : Config
  initialized : Bool
  deriving DecidableEq, Repr

/-- Constructor `NewDiscovery`. -/
def NewDiscovery (config : Config) : Discovery :=
  { config := config, initialized := false }

/-- The default resolver: the answer of `LookupIP(ctx, "ip6", name)` and of
`LookupIPAddr(ctx, name)`, each address already rendered by `IP.String()`. -/
structure Resolver where
  LookupIP : String → Except String (List String)
  LookupIPAddr : String → Except String (List String)

/-- Method `Discovery.DiscoverPeers`. The set built by `goset.NewSet` is
returned as a list without repetition (`ToSlice` fixes no order; the model
takes the one of `List.dedup`). -/
def Discovery.DiscoverPeers (resolver : Resolver) (d : Discovery) : List String × Ret :=
  if !d.initialized then ([], .err .ErrNotInitialized)
  else
    let v6 := match d.config.IPv6 with
      | some b => b
      | none => false
    if v6 then
      match resolver.LookupIP d.config.DomainName with
      | .error e => ([], .err (.directory e))
      | .ok ips => (ips.dedup, .nil)
    else
      match resolver.LookupIPAddr d.config.DomainName with
      | .error e => ([], .err (.directory e))
      | .ok addrs => (addrs.dedup, .nil)

/-- Method `Discovery.Initialize`: the provider afterwards and the error. -/
def Discovery.Initialize (d : Discovery) : Discovery × Ret :=
  if d.initialized then (d, .err .ErrAlreadyInitialized)
  else (d, Ret.ofValidation d.config.Validate)

/-- Method `Discovery.Register`. -/
def Discovery.Register (d : Discovery) : Discovery × Ret :=
  if d.initialized then (d, .err .ErrAlreadyRegistered)
  else ({ d with initialized := true }, .nil)

/-- Method `Discovery.Deregister`. -/
def Discovery.Deregister (d : Discovery) : Discovery × Ret :=
  if !d.initialized then (d, .err .ErrNotInitialized)
  else ({ d with initialized := false }, .nil)

/-- Method `Discovery.Close`. -/
def Discovery.Close (d : Discovery) : Discovery × Ret :=
  (d, .nil)

end dnssd

/-! ## `src/discovery/kubernetes` -/

namespace kubernetes

/-- Struct `Config` of `kubernetes/config.go`; the label map is a list of
key and value pairs. -/
structure Config where
  Namespace : String
  DiscoveryPortName : String
  PortName : String
  PodLabels : List (String × String)
  deriving DecidableEq, Repr

set_option linter.dupNamespace false in
/-- The fields of `corev1.ContainerPort` that are read. -/
structure ContainerPort where
  Name : String
  ContainerPort : Int
  deriving DecidableEq, Repr

/-- The fields of `corev1.Container` that are read. -/
structure Container where
  Ports : List ContainerPort
  deriving DecidableEq, Repr

/-- The fields of `corev1.PodCondition` that are read. -/
structure PodCondition where
  Type_ : String
  Status : String
  deriving DecidableEq, Repr

/-- The fields of `corev1.Pod` that are read. -/
structure Pod where
  Phase : String
  Conditions : List PodCondition
  PodIP : String
  Containers : List Container
  deriving DecidableEq, Repr

/-- Constant `corev1.PodRunning`. -/
def PodRunning : String := "Running"

/-- Constant `corev1.PodReady`. -/
def PodReady : String := "Ready"

/-- Constant `corev1.ConditionTrue`. -/
def ConditionTrue : String := "True"

/-- A `kubernetes.Interface` that is not nil: the answer of
`CoreV1().Pods(namespace).List` for the selector built from the labels. -/
structure Client where
  List : String → List (String × String) → Except String (List Pod)

/-- Struct `Discovery` of `kubernetes/discovery.go` (without the mutex and
the stop channel). -/
structure Discovery where
  config : Config
  client : Option Client
  initialized : Bool

/-- Constructor `NewDiscovery`. -/
def NewDiscovery (config : Config) : Discovery :=
  { config := config, client := none, initialized := false }

/-- Method `Add` of the address set: an address already present is not added. -/
def addAddress (addresses : List String) (a : String) : List String :=
  if a ∈ addresses then addresses else addresses ++ [a]

/-- The loops over the containers and the ports of one accepted pod. -/
def podAddresses (config : Config) (pod : Pod) (addresses : List String) : List String :=
  pod.Containers.foldl
    (fun acc container =>
      container.Ports.foldl
        (fun acc port =>
          if !([config.DiscoveryPortName, config.PortName].contains port.Name) then acc
          else if port.Name = config.DiscoveryPortName then
            addAddress acc (JoinHostPort pod.PodIP (Itoa port.ContainerPort))
          else acc)
        acc)
    addresses

/-- The body of `MainLoop` for one pod. -/
def mainLoopStep (config : Config) (addresses : List String) (pod : Pod) : List String :=
  if pod.Phase ≠ PodRunning then addresses
  else if pod.Conditions.any (fun condition =>
      condition.Type_ = PodReady && condition.Status ≠ ConditionTrue) then addresses
  else podAddresses config pod addresses

/-- Method `Discovery.DiscoverPeers`; calling `List` on a nil client panics. -/
def Discovery.DiscoverPeers (d : Discovery) : List String × Ret :=
  if !d.initialized then ([], .err .ErrNotInitialized)
  else
    match d.client with
    | none => ([], .panicked)
    | some client =>
      match client.List d.config.Namespace d.config.PodLabels with
      | .error e => ([], .err (.directory e))
      | .ok pods => (pods.foldl (mainLoopStep d.config) [], .nil)

/-- Method `Config.Validate`. -/
def Config.Validate (x : Config) : validation.ChainRet :=
  ((((((validation.New true).AddValidator (.emptyString "Namespace" x.Namespace)).AddValidator
    (.emptyString "DiscoveryPortName" x.DiscoveryPortName)).AddValidator
    (.emptyString "PortName" x.PortName)).AddAssertion
    (decide (x.PodLabels.length > 0)) "PodLabels are required").Validate).1

/-- Method `Discovery.Initialize`: the provider afterwards and the error. -/
def Discovery.Initialize (d : Discovery) : Discovery × Ret :=
  if d.initialized then (d, .err .ErrAlreadyInitialized)
  else (d, Ret.ofValidation d.config.Validate)

/-- Method `Discovery.Register`. `inCluster` is the answer of
`rest.InClusterConfig()` followed by `kubernetes.NewForConfig(config)`. -/
def Discovery.Register (inCluster : Except String Client) (d : Discovery) : Discovery × Ret :=
  if d.initialized then (d, .err .ErrAlreadyRegistered)
  else
    match inCluster with
    | .error e => (d, .err (.directory e))
    | .ok client => ({ d with client := some client, initialized := true }, .nil)

/-- Method `Discovery.Deregister` (the stop channel is left out). -/
def Discovery.Deregister (d : Discovery) : Discovery × Ret :=
  if !d.initialized then (d, .err .ErrNotInitialized)
  else ({ d with initialized := false }, .nil)

/-- The configuration of the test `With DiscoverPeers`. -/
def testConfig : Config :=
  { Namespace := "test"
    DiscoveryPortName := "discovery-port"
    PortName := "port"
    PodLabels := [("app.kubernetes.io/name", "test")] }

/-- A pod as in the test `With DiscoverPeers`: one container with the
discovery port 3379 and the client port 3380. -/
def testPod (phase : String) (conditions : List PodCondition) (ip : String) : Pod :=
  { Phase := phase
    Conditions := conditions
    PodIP := ip
    Containers := [{ Ports := [⟨"discovery-port", 3379⟩, ⟨"port", 3380⟩] }] }

/-- The two pods of the test, then a running pod that is not ready, a pending
pod and a running pod without any condition. -/
def testPods : List Pod :=
  [testPod PodRunning [⟨PodReady, ConditionTrue⟩] "10.0.0.23",
   testPod PodRunning [⟨PodReady, ConditionTrue⟩] "10.0.0.24",
   testPod PodRunning [⟨PodReady, "False"⟩] "10.0.0.25",
   testPod "Pending" [] "10.0.0.26",
   testPod PodRunning [] "10.0.0.27"]

/-- The provider of the test: initialized, with a client that lists `testPods`. -/
def testProvider : Discovery :=
  { config := testConfig
    client := some { List := fun _ _ => .ok testPods }
    initialized := true }

end kubernetes

/-! ## `src/discovery/static` -/

namespace static

/-- Struct `Config` of `static/config.go`. -/
structure Config where
  Hosts : List String
  deriving DecidableEq, Repr

/-- Struct `Discovery` of `static/discovery.go`. -/
structure Discovery where
  config : Config
  deriving DecidableEq, Repr

/-- Constructor `NewDiscovery`. -/
def NewDiscovery (config : Config) : Discovery :=
  { config := config }

/-- Method `Discovery.DiscoverPeers`. -/
def Discovery.DiscoverPeers (d : Discovery) : List String × Ret :=
  (d.config.Hosts, .nil)

/-- Method `Config.Validate`. -/
def Config.Validate (x : Config) : validation.ChainRet :=
  ((x.Hosts.foldl (fun chain host => chain.AddValidator (.tcpAddress host))
    ((validation.New true).AddAssertion (decide (x.Hosts.length ≠ 0))
      "hosts are required")).Validate).1

/-- Method `Discovery.Initialize`. -/
def Discovery.Initialize (d : Discovery) : Ret :=
  Ret.ofValidation d.config.Validate

/-- Method `Discovery.Register`. -/
def Discovery.Register (_d : Discovery) : Ret := .nil

/-- Method `Discovery.Deregister`. -/
def Discovery.Deregister (_d : Discovery) : Ret := .nil

/-- Method `Discovery.Close`. -/
def Discovery.Close (_d : Discovery) : Ret := .nil

/-- The methods of the interface `discovery.Provider` that take part in the
lifecycle. -/
inductive Method where
  | Initialize
  | Register
  | Deregister
  | Close
  | DiscoverPeers
  deriving DecidableEq, Repr

/-- One call of a method on the provider: the provider afterwards, the
returned addresses and the error. No method of the static provider assigns to
a field of the receiver or of its configuration. -/
def Discovery.call (d : Discovery) : Method → Discovery × List String × Ret
  | .Initialize => (d, [], d.Initialize)
  | .Register => (d, [], d.Register)
  | .Deregister => (d, [], d.Deregister)
  | .Close => (d, [], d.Close)
  | .DiscoverPeers => (d, d.DiscoverPeers)

/-- The provider after the calls `methods`, made in order. -/
def Discovery.after (d : Discovery) (methods : List Method) : Discovery :=
  methods.foldl (fun d method => (d.call method).1) d

end static

end discovery

/-! ## `src/internal/errorschain` -/

namespace errorschain

/-- Result of `Chain.Error()`: nil, one of the added errors itself (mode
`ReturnFirst`), or the `MultiError` of the added errors. -/
inductive ChainError (ε : Type) where
  | nil
  | first (e : ε)
  | multi (es : List ε)
  deriving DecidableEq, Repr

/-- Struct `Chain` of `errorschain.go`; a nil `error` in `errs` is `none`. -/
structure Chain (ε : Type) where
  returnFirst : Bool
  errs : List (Option ε)
  deriving Repr

/-- Constructor `New` followed by its options: `ReturnFirst()` sets
`returnFirst`, `ReturnAll()` and no option leave it false. -/
def New {ε : Type} (returnFirst : Bool) : Chain ε :=
  { returnFirst := returnFirst, errs := [] }

/-- Method `Chain.AddError`. -/
def Chain.AddError {ε : Type} (c : Chain ε) (err : Option ε) : Chain ε :=
  { c with errs := c.errs ++ [err] }

/-- The loop of `Chain.Error` over the remaining errors, `merr` being the
errors added to the `MultiError` so far; `NilOrError` at the end. -/
def Chain.loop {ε : Type} (returnFirst : Bool) : List (Option ε) → List ε → ChainError ε
  | [], merr => if merr.isEmpty then .nil else .multi merr
  | none :: rest, merr => Chain.loop returnFirst rest merr
  | some v :: rest, merr =>
    if returnFirst then .first v else Chain.loop returnFirst rest (merr ++ [v])

/-- Method `Chain.Error`. -/
def Chain.Error {ε : Type} (c : Chain ε) : ChainError ε :=
  Chain.loop c.returnFirst c.errs []

end errorschain

/-! ## `src/engine.go`, `src/delegate.go`, `src/option.go` -/

namespace discoverygo

open discovery

/-- Modelled from the spec: the declaration of `Peer` is not among the
sources. The specification gives it a network address, an is-self flag and a
discovery port; `example/example_nats.go` builds it from
`peer.Info{Address, IsSelf}` and `DiscoveryPort`, and `engine.go` reads
`Address`, `IsSelf` and `DiscoveryPort`. -/
structure Peer where
  Address : String
  IsSelf : Bool
  DiscoveryPort : Int
  deriving DecidableEq, Repr

/-- A `*memberlist.Memberlist` that is not nil. -/
structure Memberlist where
  id : Nat
  deriving DecidableEq, Repr

/-- The fields of `memberlist.Config` that `Start` sets; `Delegate` holds the
metadata of the delegate, `Events` says whether the event channel is wired. -/
structure MConfig where
  BindAddr : String
  BindPort : Int
  AdvertisePort : Int
  Name : String
  Delegate : Option String
  Events : Bool
  deriving DecidableEq, Repr

/-- Error values that the engine returns. `ErrClusterQuorum` is modelled from
the spec (its declaration is not among the sources): the dedicated "quorum
not met" error. -/
inductive EError where
  /-- An error returned by a method of the provider. -/
  | provider (e : Err)
  /-- An error returned by the memberlist library. -/
  | transport (e : String)
  | ErrClusterQuorum
  /-- Text `invalid host address: cause`. -/
  | invalidHostAddress (cause : String)
  /-- Text `failed to create the discovery engine delegate: cause`. -/
  | delegate (cause : JsonError)
  /-- The error of a context whose deadline has passed. -/
  | context
  deriving DecidableEq, Repr

/-- Outcome of `Start`, `Stop` and `joinCluster`. -/
inductive ERet where
  | nil
  | err (e : EError)
  | multi (es : List EError)
  | panicked
  deriving DecidableEq, Repr

/-- The result of an errors chain as the result of the engine method. -/
def ERet.ofChain : errorschain.ChainError EError → ERet
  | .nil => .nil
  | .first e => .err e
  | .multi es => .multi es

/-- A call that the engine makes on its collaborators. -/
inductive ECall where
  | providerInitialize
  | providerRegister
  | providerDeregister
  | providerClose
  | providerDiscoverPeers
  | create (config : Option MConfig)
  | join (mlist : Memberlist) (peers : List String)
  | leave (mlist : Memberlist) (timeout : Int)
  | shutdown (mlist : Memberlist)
  /-- Statement `close(g.stopEventsListenerSig)`. -/
  | closeStopSig
  /-- Statement `go g.eventsListener(eventsCh)`. -/
  | goEventsListener
  deriving DecidableEq, Repr

/-- The collaborators of the engine: the provider behind the
`discovery.Provider` interface, the memberlist library, the resolver, the
JSON encoder and the retrier. Each answer is a function of the calls made
before (`past`). -/
structure EngineEnv where
  /-- Answer of `getHostPort`, that is of `net.ResolveTCPAddr`. -/
  getHostPort : String → Except String (String × Int)
  /-- Answer of `json.Marshal(g.hostNode)`. -/
  marshalPeer : Peer → Except JsonError String
  Initialize : (past : List ECall) → Option Err
  Register : (past : List ECall) → Option Err
  Deregister : (past : List ECall) → Option Err
  Close : (past : List ECall) → Option Err
  DiscoverPeers : (past : List ECall) → Except Err (List String)
  /-- Answer of `memberlist.Create`. -/
  Create : (past : List ECall) → Option MConfig → Except String Memberlist
  /-- Answer of `mlist.Join`: its error. -/
  Join : (past : List ECall) → Memberlist → List String → Option String
  /-- Answer of `mlist.Leave`. -/
  Leave : (past : List ECall) → Memberlist → Int → Option String
  /-- Answer of `mlist.Shutdown`. -/
  Shutdown : (past : List ECall) → Memberlist → Option String
  /-- Whether the context of a retrier is done when the retrier, after a
  failed try, waits for the next one. -/
  deadline : (past : List ECall) → Bool
  /-- Number of tries of a retrier built with a `maxTries` that is not
  positive. -/
  defaultMaxTries : Nat

/-- Struct `Engine` of `engine.go` (without the locks, the logger and the
daemon). A nil `*atomic.Bool` is `none`; `stopSigClosed` says whether
`stopEventsListenerSig` has been closed. -/
structure Engine where
  mconfig : Option MConfig
  mlist : Option Memberlist
  started : Option Bool
  maxJoinAttempts : Int
  shutdownTimeout : Int
  maxJoinTimeout : Int
  maxJoinRetryInterval : Int
  minimumPeersQuorum : Nat
  stopSigClosed : Bool
  hostNode : Peer
  logger : Option Nat
  deriving DecidableEq, Repr

/-- The options of `option.go` (type `Option` there). -/
inductive EngineOption where
  | WithLogger (logger : Nat)
  | WithShutdownTimeout (timeout : Int)
  | WithMinimumPeersQuorum (minimumQuorum : Nat)
  | WithMaxJoinTimeout (timeout : Int)
  | WithMaxJoinAttempts (attempts : Int)
  | WithMaxJoinRetryInterval (retryInterval : Int)
  deriving DecidableEq, Repr

/-- Method `Apply` of an option. -/
def EngineOption.Apply : EngineOption → Engine → Engine
  | .WithLogger logger, node => { node with logger := some logger }
  | .WithShutdownTimeout timeout, node => { node with shutdownTimeout := timeout }
  | .WithMinimumPeersQuorum minimumQuorum, node =>
    { node with minimumPeersQuorum := minimumQuorum }
  | .WithMaxJoinTimeout timeout, node => { node with maxJoinTimeout := timeout }
  | .WithMaxJoinAttempts attempts, node => { node with maxJoinAttempts := attempts }
  | .WithMaxJoinRetryInterval retryInterval, node =>
    { node with maxJoinRetryInterval := retryInterval }

/-- Constructor `NewEngine`: the struct literal leaves `mconfig`, `mlist`,
`started` and `logger` nil; then the options are applied in order. -/
def NewEngine (host : Peer) (opts : List EngineOption) : Engine :=
  opts.foldl (fun engine opt => opt.Apply engine)
    { mconfig := none
      mlist := none
      started := none
      maxJoinAttempts := 10
      shutdownTimeout := 3 * nats.Second
      maxJoinTimeout := nats.Second
      maxJoinRetryInterval := nats.Second
      minimumPeersQuorum := 1
      stopSigClosed := false
      hostNode := host
      logger := none }

/-- What an engine method leaves behind: its result, the engine and the
calls made so far. -/
structure EOutcome (α : Type) where
  ret : α
  g : Engine
  log : List ECall
  deriving DecidableEq, Repr

/-- Number of tries of `retry.NewRetrier(maxTries, ...)`. -/
def retrierTries (env : EngineEnv) (maxTries : Int) : Nat :=
  if maxTries ≤ 0 then env.defaultMaxTries else maxTries.toNat

/-- The first retrier of `joinCluster` running `g.provider.DiscoverPeers`:
one try, and `extra` more tries as long as the previous one failed and the
context is not done. Returns the variable `peers` or the error of the
retrier, and the log. -/
def discoverWithRetry (env : EngineEnv) :
    (extra : Nat) → List ECall → Except EError (List String) × List ECall
  | 0, log =>
    match env.DiscoverPeers log with
    | .ok peers => (.ok peers, log ++ [.providerDiscoverPeers])
    | .error e => (.error (.provider e), log ++ [.providerDiscoverPeers])
  | extra + 1, log =>
    match env.DiscoverPeers log with
    | .ok peers => (.ok peers, log ++ [.providerDiscoverPeers])
    | .error _ =>
      if env.deadline (log ++ [.providerDiscoverPeers]) then
        (.error .context, log ++ [.providerDiscoverPeers])
      else discoverWithRetry env extra (log ++ [.providerDiscoverPeers])

/-- The second retrier of `joinCluster` running `g.mlist.Join(peers)`. -/
def joinWithRetry (env : EngineEnv) (mlist : Memberlist) (peers : List String) :
    (extra : Nat) → List ECall → Option EError × List ECall
  | 0, log =>
    match env.Join log mlist peers with
    | none => (none, log ++ [.join mlist peers])
    | some e => (some (.transport e), log ++ [.join mlist peers])
  | extra + 1, log =>
    match env.Join log mlist peers with
    | none => (none, log ++ [.join mlist peers])
    | some _ =>
      if env.deadline (log ++ [.join mlist peers]) then
        (some .context, log ++ [.join mlist peers])
      else joinWithRetry env mlist peers extra (log ++ [.join mlist peers])

/-- Method `Engine.joinCluster`; its result is the returned error, if any. -/
def Engine.joinCluster (env : EngineEnv) (g : Engine) (log : List ECall) :
    EOutcome (Option EError) :=
  match env.Create log g.mconfig with
  | .error e => ⟨some (.transport e), { g with mlist := none }, log ++ [.create g.mconfig]⟩
  | .ok mlist =>
    let g1 := { g with mlist := some mlist }
    let tries := retrierTries env g.maxJoinAttempts
    match discoverWithRetry env (tries - 1) (log ++ [.create g.mconfig]) with
    | (.error e, log1) => ⟨some e, g1, log1⟩
    | (.ok peers, log1) =>
      if peers.length > 0 then
        if g.minimumPeersQuorum < peers.length then ⟨some .ErrClusterQuorum, g1, log1⟩
        else
          let r := joinWithRetry env mlist peers (tries - 1) log1
          ⟨r.1, g1, r.2⟩
      else ⟨none, g1, log1⟩

/-- The engine once `Start` has built the memberlist configuration for the
resolved `host` and has set the delegate with metadata `meta`. -/
def Engine.configure (g : Engine) (host : String) (meta : Option String) : Engine :=
  let mconfig : MConfig :=
    { BindAddr := host
      BindPort := g.hostNode.DiscoveryPort
      AdvertisePort := g.hostNode.DiscoveryPort
      Name := JoinHostPort host (Itoa g.hostNode.DiscoveryPort)
      Delegate := meta
      Events := false }
  { g with mconfig := some mconfig }

/-- Method `Engine.Start`. The three arguments of the `AddError` calls are
evaluated in order before `Error()` is called. -/
def Engine.Start (env : EngineEnv) (g : Engine) (log : List ECall) : EOutcome ERet :=
  match env.getHostPort g.hostNode.Address with
  | .error e => ⟨.err (.invalidHostAddress e), g, log⟩
  | .ok (host, _) =>
    match env.marshalPeer g.hostNode with
    | .error e => ⟨.err (.delegate e), g.configure host none, log⟩
    | .ok meta =>
      let e1 := (env.Initialize log).map EError.provider
      let e2 := (env.Register (log ++ [.providerInitialize])).map EError.provider
      let joined := (g.configure host (some meta)).joinCluster env
        (log ++ [.providerInitialize, .providerRegister])
      let chain := (((errorschain.New true).AddError e1).AddError e2).AddError joined.ret
      match chain.Error with
      | .first e => ⟨.err e, joined.g, joined.log⟩
      | .multi es => ⟨.multi es, joined.g, joined.log⟩
      | .nil =>
        let g2 := { joined.g with
          mconfig := joined.g.mconfig.map fun (c : MConfig) => { c with Events := true } }
        match g2.started with
        | none => ⟨.panicked, g2, joined.log⟩
        | some _ => ⟨.nil, { g2 with started := some true }, joined.log ++ [.goEventsListener]⟩

/-- Method `Engine.Stop`. -/
def Engine.Stop (env : EngineEnv) (g : Engine) (log : List ECall) : EOutcome ERet :=
  match g.started with
  | none => ⟨.panicked, g, log⟩
  | some false => ⟨.nil, g, log⟩
  | some true =>
    if g.stopSigClosed then ⟨.panicked, g, log⟩
    else
      let g1 := { g with stopSigClosed := true }
      let log1 := log ++ [.closeStopSig]
      match g.mlist with
      | none => ⟨.panicked, g1, log1⟩
      | some mlist =>
        let e1 := (env.Leave log1 mlist g.shutdownTimeout).map EError.transport
        let log2 := log1 ++ [.leave mlist g.shutdownTimeout]
        let e2 := (env.Deregister log2).map EError.provider
        let log3 := log2 ++ [.providerDeregister]
        let e3 := (env.Close log3).map EError.provider
        let log4 := log3 ++ [.providerClose]
        let e4 := (env.Shutdown log4 mlist).map EError.transport
        let log5 := log4 ++ [.shutdown mlist]
        let chain := ((((errorschain.New true).AddError e1).AddError e2).AddError e3).AddError e4
        ⟨ERet.ofChain chain.Error, g1, log5⟩

/-! ### `Peers` and the events listener -/

/-- The field of `memberlist.Node` that the engine reads: the metadata that
the delegate of the node published. -/
structure Node where
  Meta : String
  deriving DecidableEq, Repr

/-- Type `memberlist.NodeEventType` with its three constants. -/
inductive NodeEventType where
  | NodeJoin
  | NodeLeave
  | NodeUpdate
  deriving DecidableEq, Repr

set_option linter.dupNamespace false in
/-- Struct `memberlist.NodeEvent`. -/
structure NodeEvent where
  Event : NodeEventType
  Node : Node
  deriving DecidableEq, Repr

/-- Struct `peer.Info` of groupcache: what the consumer is given for a peer. -/
structure Info where
  Address : String
  IsSelf : Bool
  deriving DecidableEq, Repr

/-- Answer of `json.Unmarshal(data, &peer)` for a `peer` of type `*Peer`: the
error, or the pointer afterwards, which is nil (`none`) for the text `null`. -/
abbrev Unmarshal := String → Except JsonError (Option Peer)

/-- The loop of `Peers` over the remaining members; `peers` holds the peers
appended so far. On an error the result is `nil, err`. -/
def peersLoop (unmarshal : Unmarshal) : List Node → List Peer → List Peer × Option JsonError
  | [], peers => (peers, none)
  | member :: rest, peers =>
    match unmarshal member.Meta with
    | .error err => ([], some err)
    | .ok none => peersLoop unmarshal rest peers
    | .ok (some peer) =>
      if !peer.IsSelf then peersLoop unmarshal rest (peers ++ [peer])
      else peersLoop unmarshal rest peers

/-- Method `Engine.Peers`. `members` is the answer of `g.mlist.Members()`;
with a nil `mlist` that call panics (`none`). -/
def Engine.Peers (unmarshal : Unmarshal) (members : List Node) (g : Engine) :
    Option (List Peer × Option JsonError) :=
  match g.mlist with
  | none => none
  | some _ => some (peersLoop unmarshal members [])

/-- Method `Add` of the `goset` set of `peer.Info`: an element already
present is not added. The set is held as a list without repetition, in the
order of insertion (`ToSlice` fixes no order). -/
def setAdd (set : List Info) (x : Info) : List Info :=
  if x ∈ set then set else set ++ [x]

/-- Method `Remove` of the `goset` set of `peer.Info`. -/
def setRemove (set : List Info) (x : Info) : List Info :=
  set.filter (fun y => decide (y ≠ x))

/-- The `peer.Info` built from the address and the flag of a `Peer`. -/
def Peer.info (p : Peer) : Info :=
  { Address := p.Address, IsSelf := p.IsSelf }

/-- What the events listener does with one event. -/
inductive Handled where
  /-- Nothing is passed to the consumer (`continue`, or no case applies). -/
  | skipped
  /-- The slice `peersSet.ToSlice()` passed to `g.deamon.SetPeers`. -/
  | pushed (peers : List Info)
  | panicked
  deriving DecidableEq, Repr

/-- The set that the events listener builds before the `switch`: the host node
flagged self, then the current peers. -/
def peersSet (g : Engine) (currentPeers : List Peer) : List Info :=
  currentPeers.foldl (fun set xpeer => setAdd set xpeer.info)
    (setAdd [] { Address := g.hostNode.Address, IsSelf := true })

/-- The body of the loop of `eventsListener` for one event taken from the
events channel; `members` is the answer of `g.mlist.Members()` at that time.
The error of `g.Peers` is dropped. -/
def Engine.handleEvent (unmarshal : Unmarshal) (members : List Node) (g : Engine)
    (event : NodeEvent) : Handled :=
  match unmarshal event.Node.Meta with
  | .error _ => .skipped
  | .ok none => .panicked
  | .ok (some peerInfo) =>
    if peerInfo.IsSelf then .skipped
    else
      match g.Peers unmarshal members with
      | none => .panicked
      | some (currentPeers, _) =>
        match event.Event with
        | .NodeJoin => .pushed (setAdd (peersSet g currentPeers) peerInfo.info)
        | .NodeLeave => .pushed (setRemove (peersSet g currentPeers) peerInfo.info)
        | .NodeUpdate => .skipped

/-- The case that one `select` of `eventsListener` takes. -/
inductive Select where
  /-- Case `<-g.stopEventsListenerSig`. -/
  | stop
  /-- Case `event := <-eventsChan`, with the members of the cluster then. -/
  | event (event : NodeEvent) (members : List Node)
  deriving DecidableEq, Repr

/-- How a run of the events listener over finitely many selects ends. -/
inductive ListenerEnd where
  /-- The listener returned on the stop signal. -/
  | returned
  /-- The listener waits in `select`. -/
  | waiting
  | panicked
  deriving DecidableEq, Repr

/-- Method `Engine.eventsListener` over the cases that its `select` takes, in
order: how the run ends and the slices passed to `SetPeers` so far. -/
def Engine.eventsListener (unmarshal : Unmarshal) (g : Engine) :
    List Select → List (List Info) → ListenerEnd × List (List Info)
  | [], pushes => (.waiting, pushes)
  | .stop :: _, pushes => (.returned, pushes)
  | .event event members :: rest, pushes =>
    match g.handleEvent unmarshal members event with
    | .skipped => Engine.eventsListener unmarshal g rest pushes
    | .pushed peers => Engine.eventsListener unmarshal g rest (pushes ++ [peers])
    | .panicked => (.panicked, pushes)

/-! ### The wire form of a `Peer` -/

/-- Modelled from the spec: struct `Peer` as Go holds it, with an address
that may hold bytes that are not valid UTF-8. -/
structure RawPeer where
  Address : json.GoString
  IsSelf : Bool
  DiscoveryPort : Int
  deriving DecidableEq, Repr

/-- A `Peer` whose address is valid UTF-8, as Go holds it. -/
def Peer.raw (p : Peer) : RawPeer :=
  { Address := json.GoString.ofString p.Address
    IsSelf := p.IsSelf
    DiscoveryPort := p.DiscoveryPort }

/-- Modelled from the spec: the function `json.Marshal` on a `Peer`, as
`newEngineDelegate` calls it. The declaration of `Peer` and its struct tags
are not among the sources; the members are the three fields that the
specification names, under their Go field names, which is what
`encoding/json` writes for fields without a tag. -/
def jsonMarshalPeer (p : RawPeer) : String :=
  String.mk ("\x7b\"Address\":".data ++ json.encodeString p.Address ++
    ",\"IsSelf\":".data ++ (if p.IsSelf then "true".data else "false".data) ++
    ",\"DiscoveryPort\":".data ++ (Itoa p.DiscoveryPort).data ++ "\x7d".data)

/-- The decoder storing one member into the `Peer`. `none` when the value has
not the type of the field or the key is not exactly the name of a field. -/
def setPeerMember (p : Peer) : List Char × json.Value → Option Peer
  | (key, .str s) => if key = "Address".data then some { p with Address := String.mk s } else none
  | (key, .bool b) => if key = "IsSelf".data then some { p with IsSelf := b } else none
  | (key, .int n) =>
    if key = "DiscoveryPort".data then some { p with DiscoveryPort := n } else none

/-- The decoder storing the members in order. -/
def setPeerMembers : Peer → List (List Char × json.Value) → Option Peer
  | p, [] => some p
  | p, member :: rest =>
    match setPeerMember p member with
    | none => none
    | some p1 => setPeerMembers p1 rest

/-- Modelled from the spec: the function `json.Unmarshal` into a `Peer`, as
`Peers` and `eventsListener` call it on the metadata of a member, for a
compact flat object whose keys are names of the fields. `none` when
`json.Unmarshal` fails and when the text is outside this model. -/
def jsonUnmarshalPeer (data : String) : Option Peer :=
  match json.parseObject data.data with
  | none => none
  | some members =>
    setPeerMembers { Address := "", IsSelf := false, DiscoveryPort := 0 } members

/-! ### Concrete collaborators, to run the engine on inputs -/

/-- The host node of `example/example_nats.go`. -/
def exampleHost : Peer :=
  { Address := "192.168.1.1:8080", IsSelf := true, DiscoveryPort := 8081 }

/-- Collaborators with which every step succeeds and the provider discovers
`peers`: the address is split without a lookup, the metadata is the address,
and no retrier context is ever done. -/
def calm (peers : List String) : EngineEnv where
  getHostPort := fun address =>
    match validation.SplitHostPort address.data with
    | .error _ => .error "missing port in address"
    | .ok (host, port) =>
      match validation.Atoi port with
      | .error _ => .error "invalid port"
      | .ok p => .ok (String.mk host, p)
  marshalPeer := fun peer => .ok peer.Address
  Initialize := fun _ => none
  Register := fun _ => none
  Deregister := fun _ => none
  Close := fun _ => none
  DiscoverPeers := fun _ => .ok peers
  Create := fun past _ => .ok ⟨past.length⟩
  Join := fun _ _ _ => none
  Leave := fun _ _ _ => none
  Shutdown := fun _ _ => none
  deadline := fun _ => false
  defaultMaxTries := 3

/-- Collaborators with which `Register` of the provider, `Join` and `Close`
of the provider fail, and everything else is as in `calm`. -/
def stormy (peers : List String) : EngineEnv :=
  { calm peers with
    Register := fun _ => some .ErrAlreadyRegistered
    Join := fun _ _ _ => some "no known peers"
    Close := fun _ => some (.nats ⟨7⟩) }

/-- An engine that is marked started, as `Start` would leave the engine of
`exampleHost` if `started` had been allocated. -/
def startedEngine : Engine :=
  { (NewEngine exampleHost []).configure "192.168.1.1" (some "192.168.1.1:8080") with
    mlist := some ⟨2⟩
    started := some true }

/-- The engine of `exampleHost` with a minimum peers quorum of 3, configured
as `Start` does before it calls `joinCluster`. -/
def quorumThree : Engine :=
  (NewEngine exampleHost [.WithMinimumPeersQuorum 3]).configure "192.168.1.1"
    (some "192.168.1.1:8080")

/-- The engine of `exampleHost` with the default quorum, configured as `Start`
does before it calls `joinCluster`. -/
def quorumDefault : Engine :=
  (NewEngine exampleHost []).configure "192.168.1.1" (some "192.168.1.1:8080")

/-- Collaborators with which `Initialize` of the provider and `Leave` of the
memberlist fail, and everything else is as in `calm`. -/
def faulty (peers : List String) : EngineEnv :=
  { calm peers with
    Initialize := fun _ => some .ErrAlreadyInitialized
    Leave := fun _ _ _ => some "leave timed out" }

/-- Two peers of the example cluster and the host as another node sees it. -/
def peerB : Peer :=
  { Address := "192.168.1.2:8080", IsSelf := false, DiscoveryPort := 8081 }

/-- The second peer of the example cluster. -/
def peerC : Peer :=
  { Address := "192.168.1.3:8080", IsSelf := false, DiscoveryPort := 8081 }

/-- A decoder for a handful of metadata texts: `B` and `C` are the two peers,
`self` is the host node, `null` is the JSON null and every other text is
malformed. -/
def tableUnmarshal : Unmarshal := fun data =>
  if data = "B" then .ok (some peerB)
  else if data = "C" then .ok (some peerC)
  else if data = "self" then .ok (some exampleHost)
  else if data = "null" then .ok none
  else .error { code := 3 }

/-- The members of the example cluster: the host and the two peers. -/
def exampleMembers : List Node :=
  [{ Meta := "self" }, { Meta := "B" }, { Meta := "C" }]

end discoverygo

/-! ## Lifecycle of the nats provider -/

section NatsLifecycle

open discovery discovery.nats

/-- C1: for every valid nats Config (whatever the bus answers, so in
particular with a reachable bus), `Initialize` on a fresh provider followed
by a second `Initialize` without `Close` returns `ErrAlreadyInitialized` on
the second call, and the second call leaves the whole provider (flags,
connection, subscriptions, Config) and the log of bus calls as they were
after the first call. -/
theorem nats_initialize_twice_rejected (env : Env) (config : Config) (log : List Call)
    (hvalid : config.Validate = .nil) :
    ((NewDiscovery config).Initialize env log).d.Initialize env
        ((NewDiscovery config).Initialize env log).log
      = ⟨.err .ErrAlreadyInitialized, ((NewDiscovery config).Initialize env log).d,
          ((NewDiscovery config).Initialize env log).log⟩ := by
  have hinit : ((NewDiscovery config).Initialize env log).d.initialized = true := by
    simp [Discovery.Initialize, NewDiscovery, hvalid]
  generalize (NewDiscovery config).Initialize env log = first at hinit
  simp [Discovery.Initialize, hinit]

/-- Witness of C1: node A on the reachable bus. -/
theorem nats_initialize_twice_rejected_witness :
    nodeA.Validate = .nil ∧
    initializedA.d.Initialize reachableBus initializedA.log
      = ⟨.err .ErrAlreadyInitialized, initializedA.d, initializedA.log⟩ :=
  ⟨by decide, nats_initialize_twice_rejected reachableBus nodeA [] (by decide)⟩

/-- C2: nats `DiscoverPeers` returns no address and `ErrNotInitialized` when
the provider is not initialized, and no address and `ErrNotRegistered` when it
is initialized but not registered; in both cases no call reaches the bus (the
log is unchanged) and the provider is unchanged. -/
theorem nats_discoverPeers_state_rejected (env : Env) (round : Round) (d : Discovery)
    (log : List Call) :
    (d.initialized = false →
      d.DiscoverPeers env round log = ⟨([], .err .ErrNotInitialized), d, log⟩) ∧
    (d.initialized = true → d.registered = false →
      d.DiscoverPeers env round log = ⟨([], .err .ErrNotRegistered), d, log⟩) := by
  constructor
  · intro h
    simp [Discovery.DiscoverPeers, h]
  · intro h1 h2
    simp [Discovery.DiscoverPeers, h1, h2]

/-- Witness of C2: node A fresh, and node A after `Initialize`. -/
theorem nats_discoverPeers_state_rejected_witness :
    (NewDiscovery nodeA).DiscoverPeers reachableBus ⟨[], none⟩ []
      = ⟨([], .err .ErrNotInitialized), NewDiscovery nodeA, []⟩ ∧
    initializedA.d.DiscoverPeers reachableBus ⟨[], none⟩ initializedA.log
      = ⟨([], .err .ErrNotRegistered), initializedA.d, initializedA.log⟩ :=
  ⟨(nats_discoverPeers_state_rejected reachableBus ⟨[], none⟩ (NewDiscovery nodeA) []).1 rfl,
   (nats_discoverPeers_state_rejected reachableBus ⟨[], none⟩ initializedA.d
      initializedA.log).2 (by decide) (by decide)⟩

/-- C3, as stated, fails for the static backend: `DiscoverPeers` on a freshly
constructed static provider returns the configured hosts and a nil error, not
`ErrNotInitialized`. -/
theorem static_discoverPeers_before_initialize :
    (static.NewDiscovery { Hosts := ["10.0.0.1:9000", "10.0.0.2:9000"] }).DiscoverPeers
        = (["10.0.0.1:9000", "10.0.0.2:9000"], .nil) ∧
    (static.NewDiscovery { Hosts := ["10.0.0.1:9000", "10.0.0.2:9000"] }).DiscoverPeers
        ≠ ([], .err .ErrNotInitialized) := by
  constructor
  · rfl
  · decide

/-- C3, amended: for the nats, dnssd and kubernetes backends `DiscoverPeers`
on a freshly constructed provider returns `ErrNotInitialized` and an empty
address list; the static backend has no lifecycle state and returns its
configured hosts with a nil error. -/
theorem discoverPeers_before_initialize (env : Env) (round : Round) (log : List Call)
    (natsConfig : nats.Config) (resolver : dnssd.Resolver) (dnsConfig : dnssd.Config)
    (k8sConfig : kubernetes.Config) (staticConfig : static.Config) :
    ((nats.NewDiscovery natsConfig).DiscoverPeers env round log).ret
        = ([], .err .ErrNotInitialized) ∧
    (dnssd.NewDiscovery dnsConfig).DiscoverPeers resolver = ([], .err .ErrNotInitialized) ∧
    (kubernetes.NewDiscovery k8sConfig).DiscoverPeers = ([], .err .ErrNotInitialized) ∧
    (static.NewDiscovery staticConfig).DiscoverPeers = (staticConfig.Hosts, .nil) := by
  refine ⟨?_, ?_, ?_, ?_⟩
  · simp [nats.Discovery.DiscoverPeers, nats.NewDiscovery]
  · simp [dnssd.Discovery.DiscoverPeers, dnssd.NewDiscovery]
  · simp [kubernetes.Discovery.DiscoverPeers, kubernetes.NewDiscovery]
  · rfl

/-- C4: nats `Register` on a registered provider returns
`ErrAlreadyRegistered`, and `Deregister` on a provider that is not registered
returns `ErrNotRegistered`; in both cases the provider (flags, connection,
subscription list) is unchanged and no call reaches the bus. -/
theorem nats_repeated_transition_rejected (env : Env) (d : Discovery) (log : List Call) :
    (d.registered = true → d.Register env log = ⟨.err .ErrAlreadyRegistered, d, log⟩) ∧
    (d.registered = false → d.Deregister env log = ⟨.err .ErrNotRegistered, d, log⟩) := by
  constructor
  · intro h
    simp [Discovery.Register, h]
  · intro h
    simp [Discovery.Deregister, h]

/-- Witness of C4: node A after `Initialize` and `Register`, and node A fresh. -/
theorem nats_repeated_transition_rejected_witness :
    registeredA.d.Register reachableBus registeredA.log
      = ⟨.err .ErrAlreadyRegistered, registeredA.d, registeredA.log⟩ ∧
    (NewDiscovery nodeA).Deregister reachableBus []
      = ⟨.err .ErrNotRegistered, NewDiscovery nodeA, []⟩ :=
  ⟨(nats_repeated_transition_rejected reachableBus registeredA.d registeredA.log).1
      (by decide),
   (nats_repeated_transition_rejected reachableBus (NewDiscovery nodeA) []).2 rfl⟩

/-- On a provider with a live connection, `Deregister` returns the result of
the final `Publish` and never reaches `d.registered.Store(false)`: the
provider and its `registered` flag are as before the call. -/
theorem nats_deregister_live_keeps_provider (env : Env) (d : Discovery) (log : List Call)
    (c : Conn) (hconn : d.connection = some c) :
    (d.Deregister env log).d = d := by
  unfold Discovery.Deregister
  split
  · rfl
  · split
    · rfl
    · simp [hconn]

/-- C5 (code defect): node A on the reachable bus, after `Initialize` and a
successful `Register` (`registeredA`), then `Deregister` (`deregisteredA`).
`Deregister` returns nil, yet the provider is still registered: the
following `DiscoverPeers` runs a discovery round and returns nil instead of
`ErrNotRegistered`, and the following `Register` is rejected with
`ErrAlreadyRegistered`. -/
theorem nats_deregister_live_stays_registered :
    registeredA.ret = .nil ∧ registeredA.d.connection = some ⟨0⟩ ∧
    deregisteredA.ret = .nil ∧ deregisteredA.d.registered = true ∧
    (deregisteredA.d.DiscoverPeers reachableBus ⟨[], none⟩ deregisteredA.log).ret
      = ([], .nil) ∧
    (deregisteredA.d.Register reachableBus deregisteredA.log).ret
      = .err .ErrAlreadyRegistered := by
  decide

/-- C6: nats `Close` leaves both flags false whatever it returns; on a
provider that was never initialized or registered it returns nil; and a
second `Close` right after a first one returns nil and changes neither the
provider nor the log of bus calls. -/
theorem nats_close_idempotent (env : Env) (d : Discovery) (log : List Call) (config : Config) :
    (d.Close env log).d.initialized = false ∧
    (d.Close env log).d.registered = false ∧
    ((NewDiscovery config).Close env log).ret = .nil ∧
    (d.Close env log).d.Close env (d.Close env log).log
      = ⟨.nil, (d.Close env log).d, (d.Close env log).log⟩ := by
  have hconn : (d.Close env log).d.connection = none := by
    unfold Discovery.Close
    split
    · split <;> rfl
    · next h => simpa using h
  have hi : (d.Close env log).d.initialized = false := by
    unfold Discovery.Close
    split
    · split <;> rfl
    · rfl
  have hr : (d.Close env log).d.registered = false := by
    unfold Discovery.Close
    split
    · split <;> rfl
    · rfl
  refine ⟨hi, hr, ?_, ?_⟩
  · simp [Discovery.Close, NewDiscovery]
  · generalize d.Close env log = first at hconn hi hr
    obtain ⟨ret, d1, log1⟩ := first
    obtain ⟨cfg, i, r, conn, subs, addr⟩ := d1
    simp only at hconn hi hr
    subst hconn hi hr
    simp [Discovery.Close]

/-- C7 (code defect): node A has a valid Config and every connection attempt
of `Initialize` on the unreachable bus (`unreachableA`) fails (five attempts are made, and the retrier hands
back the error of the last one), yet `Initialize` returns nil and marks the
provider initialized with a nil connection, so that a later `Initialize` is
rejected with `ErrAlreadyInitialized`. -/
theorem nats_initialize_drops_connect_error :
    nodeA.Validate = .nil ∧
    unreachableA.log.length = 5 ∧
    (∀ past opts, unreachableBus.connect past opts = .error ⟨2⟩) ∧
    (connectWithRetry unreachableBus
      ⟨"nats://127.0.0.1:4222", "127.0.0.1:9001", 2 * Second, -1⟩ 4 []).2.1 = some ⟨2⟩ ∧
    unreachableA.ret = .nil ∧ unreachableA.d.initialized = true ∧
    unreachableA.d.connection = none ∧
    (unreachableA.d.Initialize unreachableBus unreachableA.log).ret
      = .err .ErrAlreadyInitialized := by
  refine ⟨by decide, by decide, fun _ _ => rfl, by decide, by decide, by decide, by decide,
    by decide⟩

/-- C8: for every nats Config that `Config.Validate` rejects with an error,
`Initialize` on a fresh provider returns exactly that error, makes no call to
the bus (the log is unchanged) and leaves the provider as constructed:
uninitialized, with its Config (Timeout, MaxJoinAttempts and ReconnectWait
included) unmodified. -/
theorem nats_initialize_invalid_config (env : Env) (config : Config) (log : List Call)
    (e : Err) (hinvalid : config.Validate = .err e) :
    (NewDiscovery config).Initialize env log = ⟨.err e, NewDiscovery config, log⟩ := by
  have h : (NewDiscovery config).config.Validate = .err e := hinvalid
  simp [Discovery.Initialize, h]
  simp [NewDiscovery]

/-- Witness of C8: the empty Config of the test `With Initialize: invalid
config`, whose first violation is the missing Server. -/
theorem nats_initialize_invalid_config_witness :
    (⟨"", "", 0, 0, 0, "", 0⟩ : Config).Validate
        = .err (.validation [.required "Server"]) ∧
    (NewDiscovery ⟨"", "", 0, 0, 0, "", 0⟩).Initialize reachableBus []
        = ⟨.err (.validation [.required "Server"]), NewDiscovery ⟨"", "", 0, 0, 0, "", 0⟩, []⟩ :=
  ⟨by decide,
   nats_initialize_invalid_config reachableBus ⟨"", "", 0, 0, 0, "", 0⟩ []
     (.validation [.required "Server"]) (by decide)⟩

end NatsLifecycle

/-! ## The discovery protocol of the nats provider -/

section NatsProtocol

open discovery discovery.nats

/-- C9: for an inbound message whose payload decodes to a discovery Message,
the handler installed by `Register` does the following. On a Request it makes
exactly one call to the bus: a `Publish`, on the reply address of the inbound
message (the configured shared subject is not used), of the encoding of a
Response that carries this node's configured host, discovery port and name
`JoinHostPort(host, port)`. On a Register or Deregister it makes no call. The
handler has no access to the provider other than reading it. -/
theorem nats_handler_replies_to_requester (env : Env) (d : Discovery) (msg : Msg)
    (log : List Call) (message : Message) (hdecode : env.unmarshal msg.Data = .ok message) :
    (message.Type_ = Request →
      d.handler env msg log =
        (.nil, log ++ [.publish d.connection msg.Reply
          (env.marshal
            { Host := d.config.Host
              Port := d.config.DiscoveryPort
              Name := JoinHostPort d.config.Host (Itoa d.config.DiscoveryPort)
              Type_ := Response })])) ∧
    (message.Type_ = Register ∨ message.Type_ = Deregister →
      d.handler env msg log = (.nil, log)) := by
  constructor
  · intro h
    simp [Discovery.handler, hdecode, h, selfMessage, hostPort, Request, Deregister, Register]
  · rintro (h | h) <;> simp [Discovery.handler, hdecode, h]

/-- Witness of C9: node A, registered with connection 0, receives the Request
of node B with reply address `_INBOX.7`, and the Deregister announcement of
node B. -/
theorem nats_handler_replies_to_requester_witness :
    registeredA.d.handler reachableBus
        ⟨"cluster", "_INBOX.7", lineMarshal (selfMessage nodeB Request)⟩ []
      = (.nil, [.publish (some ⟨0⟩) "_INBOX.7" "127.0.0.1\n9001\n127.0.0.1:9001\n3"]) ∧
    registeredA.d.handler reachableBus
        ⟨"cluster", "", lineMarshal (selfMessage nodeB Deregister)⟩ []
      = (.nil, []) :=
  ⟨(nats_handler_replies_to_requester reachableBus registeredA.d
      ⟨"cluster", "_INBOX.7", lineMarshal (selfMessage nodeB Request)⟩ []
      (selfMessage nodeB Request) rfl).1 rfl,
   (nats_handler_replies_to_requester reachableBus registeredA.d
      ⟨"cluster", "", lineMarshal (selfMessage nodeB Deregister)⟩ []
      (selfMessage nodeB Deregister) rfl).2 (Or.inr rfl)⟩

/-- When every payload decodes, the receive loop returns a list whose members
are the addresses it started with and the addresses, other than the own one,
of the decoded messages. -/
theorem collect_spec (env : Env) (me : String) (msgs : List String) :
    ∀ peers : List String,
    (∀ data ∈ msgs, ∃ m, env.unmarshal data = .ok m) →
    ∃ out, collect env me peers msgs = .ok out ∧
      ∀ a, a ∈ out ↔ a ∈ peers ∨
        (a ≠ me ∧ ∃ data ∈ msgs, ∃ m, env.unmarshal data = .ok m ∧
          JoinHostPort m.Host (Itoa m.Port) = a) := by
  induction msgs with
  | nil =>
    intro peers _
    exact ⟨peers, rfl, fun a => by simp⟩
  | cons data rest ih =>
    intro peers hall
    obtain ⟨m, hm⟩ := hall data (List.mem_cons_self _ _)
    have hrest : ∀ x ∈ rest, ∃ m, env.unmarshal x = .ok m :=
      fun x hx => hall x (List.mem_cons_of_mem _ hx)
    by_cases hme : JoinHostPort m.Host (Itoa m.Port) = me
    · obtain ⟨out, hout, hmem⟩ := ih peers hrest
      refine ⟨out, by simp [collect, hm, hme, hout], fun a => ?_⟩
      rw [hmem a]
      constructor
      · rintro (h | ⟨hne, x, hx, m', hm', ha⟩)
        · exact Or.inl h
        · exact Or.inr ⟨hne, x, List.mem_cons_of_mem _ hx, m', hm', ha⟩
      · rintro (h | ⟨hne, x, hx, m', hm', ha⟩)
        · exact Or.inl h
        · rcases List.mem_cons.mp hx with rfl | hx
          · rw [hm] at hm'
            cases hm'
            exact absurd (ha.symm.trans hme) hne
          · exact Or.inr ⟨hne, x, hx, m', hm', ha⟩
    · obtain ⟨out, hout, hmem⟩ := ih (peers ++ [JoinHostPort m.Host (Itoa m.Port)]) hrest
      refine ⟨out, by simp [collect, hm, hme, hout], fun a => ?_⟩
      rw [hmem a]
      constructor
      · rintro (h | ⟨hne, x, hx, m', hm', ha⟩)
        · rcases List.mem_append.mp h with h | h
          · exact Or.inl h
          · have ha : a = JoinHostPort m.Host (Itoa m.Port) := by simpa using h
            exact Or.inr ⟨ha ▸ hme, data, List.mem_cons_self _ _, m, hm, ha.symm⟩
        · exact Or.inr ⟨hne, x, List.mem_cons_of_mem _ hx, m', hm', ha⟩
      · rintro (h | ⟨hne, x, hx, m', hm', ha⟩)
        · exact Or.inl (List.mem_append.mpr (Or.inl h))
        · rcases List.mem_cons.mp hx with rfl | hx
          · rw [hm] at hm'
            cases hm'
            exact Or.inl (List.mem_append.mpr (Or.inr (by simp [ha])))
          · exact Or.inr ⟨hne, x, hx, m', hm', ha⟩

/-- C10: in a nats `DiscoverPeers` round on an initialized and registered
provider whose reply subscription and Request publication the bus accepts, if
every payload received in the round decodes to a Response message, then the
call returns a nil error, the returned list does not contain the requester's
own address `JoinHostPort(host, port)`, and it contains the address of every
received response whose address differs from the requester's; with no
response at all the returned list is empty. -/
theorem nats_discoverPeers_excludes_self (env : Env) (round : Round) (d : Discovery)
    (log : List Call) (sub : Subscription)
    (hinit : d.initialized = true) (hreg : d.registered = true)
    (hsub : env.chanSubscribe (log ++ [.newInbox]) d.connection (env.newInbox log) = .ok sub)
    (hpub : env.publishRequest
        (log ++ [.newInbox, .chanSubscribe d.connection (env.newInbox log)])
        d.connection d.config.Subject (env.newInbox log)
        (env.marshal (selfMessage d.config Request)) = none)
    (hresp : ∀ data ∈ round.received ++ round.buffered.toList,
      ∃ m, env.unmarshal data = .ok m ∧ m.Type_ = Response) :
    (d.DiscoverPeers env round log).ret.2 = .nil ∧
    hostPort d.config ∉ (d.DiscoverPeers env round log).ret.1 ∧
    (∀ data ∈ round.received ++ round.buffered.toList, ∀ m, env.unmarshal data = .ok m →
      JoinHostPort m.Host (Itoa m.Port) ≠ hostPort d.config →
      JoinHostPort m.Host (Itoa m.Port) ∈ (d.DiscoverPeers env round log).ret.1) ∧
    (round.received = [] → round.buffered = none →
      (d.DiscoverPeers env round log).ret.1 = []) := by
  have h1 : ∀ data ∈ round.received, ∃ m, env.unmarshal data = .ok m := fun data hd =>
    (hresp data (List.mem_append.mpr (Or.inl hd))).imp fun _ h => h.1
  have h2 : ∀ data ∈ round.buffered.toList, ∃ m, env.unmarshal data = .ok m := fun data hd =>
    (hresp data (List.mem_append.mpr (Or.inr hd))).imp fun _ h => h.1
  obtain ⟨p1, hp1, hmem1⟩ := collect_spec env (hostPort d.config) round.received [] h1
  obtain ⟨p2, hp2, hmem2⟩ := collect_spec env (hostPort d.config) round.buffered.toList p1 h2
  have hret : (d.DiscoverPeers env round log).ret = (p2, .nil) := by
    simp [Discovery.DiscoverPeers, hinit, hreg, hsub, hpub, hp1, hp2]
  rw [hret]
  refine ⟨rfl, ?_, ?_, ?_⟩
  · intro hin
    rcases (hmem2 _).mp hin with h | ⟨hne, _⟩
    · rcases (hmem1 _).mp h with h | ⟨hne, _⟩
      · simp at h
      · exact hne rfl
    · exact hne rfl
  · intro data hdata m hm hne
    rcases List.mem_append.mp hdata with hd | hd
    · exact (hmem2 _).mpr (Or.inl ((hmem1 _).mpr (Or.inr ⟨hne, data, hd, m, hm, rfl⟩)))
    · exact (hmem2 _).mpr (Or.inr ⟨hne, data, hd, m, hm, rfl⟩)
  · intro hr hb
    simp [hr, hb, collect] at hp1 hp2
    subst hp1
    exact hp2.symm

/-- Witness of C10: registered node A receives its own response and the
response of node B, and returns the address of node B only. -/
theorem nats_discoverPeers_excludes_self_witness :
    (registeredA.d.DiscoverPeers reachableBus
        ⟨[lineMarshal (selfMessage nodeA Response), lineMarshal (selfMessage nodeB Response)],
          none⟩ registeredA.log).ret.2 = .nil ∧
    hostPort registeredA.d.config ∉
      (registeredA.d.DiscoverPeers reachableBus
        ⟨[lineMarshal (selfMessage nodeA Response), lineMarshal (selfMessage nodeB Response)],
          none⟩ registeredA.log).ret.1 ∧
    (registeredA.d.DiscoverPeers reachableBus
        ⟨[lineMarshal (selfMessage nodeA Response), lineMarshal (selfMessage nodeB Response)],
          none⟩ registeredA.log).ret.1 = ["127.0.0.1:9002"] :=
  have h := nats_discoverPeers_excludes_self reachableBus
    ⟨[lineMarshal (selfMessage nodeA Response), lineMarshal (selfMessage nodeB Response)], none⟩
    registeredA.d registeredA.log ⟨3⟩ (by decide) (by decide) (by rfl) (by rfl)
    (by
      intro data hd
      simp only [Option.toList, List.append_nil, List.mem_cons, List.mem_singleton,
        List.not_mem_nil, or_false] at hd
      rcases hd with rfl | rfl
      · exact ⟨selfMessage nodeA Response, rfl, rfl⟩
      · exact ⟨selfMessage nodeB Response, rfl, rfl⟩)
  ⟨h.1, h.2.1, by decide⟩

end NatsProtocol

/-! ## The receive loop of the nats provider: repetitions and termination -/

section NatsReceiveLoop

open discovery discovery.nats

/-- When every payload decodes, the receive loop appends the reported
addresses to the list it started with. -/
theorem collect_eq_reported (env : Env) (me : String) (msgs : List String) :
    ∀ peers : List String,
    (∀ data ∈ msgs, ∃ m, env.unmarshal data = .ok m) →
    collect env me peers msgs = .ok (peers ++ reportedAddresses env me msgs) := by
  induction msgs with
  | nil =>
    intro peers _
    simp [collect, reportedAddresses]
  | cons data rest ih =>
    intro peers hall
    obtain ⟨m, hm⟩ := hall data (List.mem_cons_self _ _)
    have hrest : ∀ x ∈ rest, ∃ m, env.unmarshal x = .ok m :=
      fun x hx => hall x (List.mem_cons_of_mem _ hx)
    by_cases hme : JoinHostPort m.Host (Itoa m.Port) = me
    · have h := ih peers hrest
      simp only [reportedAddresses] at h ⊢
      simp [collect, hm, hme, h]
    · have h := ih (peers ++ [JoinHostPort m.Host (Itoa m.Port)]) hrest
      simp only [reportedAddresses] at h ⊢
      simp [collect, hm, hme, h]

/-- Once `msgCh` is closed the loop returns within two iterations: it
processes the payload left in the channel, if any, and returns. -/
theorem receiveLoop_closed (env : Env) (me : String) (picks : Nat → Option String)
    (buffered : Option String) (fuel i : Nat) (rest : Option String) (peers : List String) :
    receiveLoop env me picks buffered (fuel + 2) i (some rest) peers
      = some (collect env me peers rest.toList) := by
  cases rest with
  | none => simp [receiveLoop, collect]
  | some data =>
    cases hm : env.unmarshal data with
    | error e => simp [receiveLoop, collect, hm]
    | ok m =>
      by_cases hme : JoinHostPort m.Host (Itoa m.Port) = me
      · simp [receiveLoop, collect, hm, hme]
      · simp [receiveLoop, collect, hm, hme]

/-- One iteration of the open loop that picks the `timeout` case. -/
theorem receiveLoop_timeout (env : Env) (me : String) (picks : Nat → Option String)
    (buffered : Option String) (fuel i : Nat) (peers : List String) (h : picks i = none) :
    receiveLoop env me picks buffered (fuel + 1) i none peers
      = receiveLoop env me picks buffered fuel (i + 1) (some buffered) peers := by
  simp [receiveLoop, h]

/-- One iteration of the open loop that picks a payload. -/
theorem receiveLoop_payload (env : Env) (me : String) (picks : Nat → Option String)
    (buffered : Option String) (fuel i : Nat) (peers : List String) (data : String)
    (h : picks i = some data) :
    receiveLoop env me picks buffered (fuel + 1) i none peers
      = match env.unmarshal data with
        | .error e => some (.error e)
        | .ok message =>
          if JoinHostPort message.Host (Itoa message.Port) = me then
            receiveLoop env me picks buffered fuel (i + 1) none peers
          else
            receiveLoop env me picks buffered fuel (i + 1) none
              (peers ++ [JoinHostPort message.Host (Itoa message.Port)]) := by
  simp [receiveLoop, h]

/-- If the `select` takes the `timeout` case `k` iterations after iteration
`i`, the loop started at iteration `i` returns within `k + 3` iterations what
`collectRound` computes from the payloads picked in between. -/
theorem receiveLoop_open (env : Env) (me : String) (picks : Nat → Option String)
    (buffered : Option String) :
    ∀ (k i fuel : Nat) (peers : List String),
    picks (i + k) = none → (∀ j, j < k → (picks (i + j)).isSome) →
    receiveLoop env me picks buffered (fuel + k + 3) i none peers
      = some (collectRound env me peers
          ((List.range k).filterMap fun j => picks (i + j)) buffered) := by
  intro k
  induction k with
  | zero =>
    intro i fuel peers hk _
    have hk' : picks i = none := by simpa using hk
    rw [show fuel + 0 + 3 = (fuel + 2) + 1 by omega, receiveLoop_timeout _ _ _ _ _ _ _ hk',
      receiveLoop_closed]
    simp [collectRound, collect]
  | succ k ih =>
    intro i fuel peers hk hbefore
    obtain ⟨data, hdata⟩ := Option.isSome_iff_exists.mp (hbefore 0 (Nat.succ_pos k))
    have hdata' : picks i = some data := by simpa using hdata
    have hk1 : picks (i + 1 + k) = none := by
      rw [show i + 1 + k = i + (k + 1) by omega]
      exact hk
    have hb1 : ∀ j, j < k → (picks (i + 1 + j)).isSome := by
      intro j hj
      rw [show i + 1 + j = i + (j + 1) by omega]
      exact hbefore (j + 1) (by omega)
    have hlist : ((List.range (k + 1)).filterMap fun j => picks (i + j))
        = data :: ((List.range k).filterMap fun j => picks (i + 1 + j)) := by
      rw [List.range_succ_eq_map, List.filterMap_cons]
      simp only [Nat.add_zero, hdata', List.filterMap_map]
      congr 1
      apply List.filterMap_congr
      intro j _
      simp only [Function.comp, Nat.succ_eq_add_one]
      rw [show i + (j + 1) = i + 1 + j by omega]
    rw [hlist, show fuel + (k + 1) + 3 = (fuel + k + 3) + 1 by omega,
      receiveLoop_payload _ _ _ _ _ _ _ _ hdata']
    cases hm : env.unmarshal data with
    | error e => simp [collectRound, collect, hm]
    | ok m =>
      by_cases hme : JoinHostPort m.Host (Itoa m.Port) = me
      · have h := ih (i + 1) fuel peers hk1 hb1
        simp [hme, h, collectRound, collect, hm]
      · have h := ih (i + 1) fuel (peers ++ [JoinHostPort m.Host (Itoa m.Port)]) hk1 hb1
        simp [hme, h, collectRound, collect, hm]

/-- On an initialized and registered provider whose reply subscription and
Request publication the bus accepts, `DiscoverPeers` returns what the receive
loop returns. -/
theorem discoverPeers_ret_eq_collectRound (env : Env) (round : Round) (d : Discovery)
    (log : List Call) (sub : Subscription)
    (hinit : d.initialized = true) (hreg : d.registered = true)
    (hsub : env.chanSubscribe (log ++ [.newInbox]) d.connection (env.newInbox log) = .ok sub)
    (hpub : env.publishRequest
        (log ++ [.newInbox, .chanSubscribe d.connection (env.newInbox log)])
        d.connection d.config.Subject (env.newInbox log)
        (env.marshal (selfMessage d.config Request)) = none) :
    (d.DiscoverPeers env round log).ret
      = match collectRound env (hostPort d.config) [] round.received round.buffered with
        | .ok peers => (peers, .nil)
        | .error e => ([], .err (.json e)) := by
  cases h1 : collect env (hostPort d.config) [] round.received with
  | error e => simp [Discovery.DiscoverPeers, hinit, hreg, hsub, hpub, collectRound, h1]
  | ok p1 =>
    cases h2 : collect env (hostPort d.config) p1 round.buffered.toList with
    | error e => simp [Discovery.DiscoverPeers, hinit, hreg, hsub, hpub, collectRound, h1, h2]
    | ok p2 => simp [Discovery.DiscoverPeers, hinit, hreg, hsub, hpub, collectRound, h1, h2]

/-- When every payload of a round decodes, the receive loop returns the
reported addresses of the payloads in arrival order. -/
theorem collectRound_eq_reported (env : Env) (me : String) (received : List String)
    (buffered : Option String)
    (hall : ∀ data ∈ received ++ buffered.toList, ∃ m, env.unmarshal data = .ok m) :
    collectRound env me [] received buffered
      = .ok (reportedAddresses env me (received ++ buffered.toList)) := by
  have h1 : ∀ data ∈ received, ∃ m, env.unmarshal data = .ok m := fun data hd =>
    hall data (List.mem_append.mpr (Or.inl hd))
  have h2 : ∀ data ∈ buffered.toList, ∃ m, env.unmarshal data = .ok m := fun data hd =>
    hall data (List.mem_append.mpr (Or.inr hd))
  simp only [collectRound, collect_eq_reported env me received [] h1, List.nil_append,
    collect_eq_reported env me buffered.toList _ h2]
  simp [reportedAddresses]

/-- C11 fails on the code: the receive loop appends every address to a plain
slice. Registered node A receives the response of node B twice in one round,
and `DiscoverPeers` returns the address of node B twice: the list is not
deduplicated. -/
theorem nats_discoverPeers_repeats_address :
    (registeredA.d.DiscoverPeers reachableBus
        ⟨[lineMarshal (selfMessage nodeB Response), lineMarshal (selfMessage nodeB Response)],
          none⟩ registeredA.log).ret
      = (["127.0.0.1:9002", "127.0.0.1:9002"], .nil) ∧
    ¬ (registeredA.d.DiscoverPeers reachableBus
        ⟨[lineMarshal (selfMessage nodeB Response), lineMarshal (selfMessage nodeB Response)],
          none⟩ registeredA.log).ret.1.Nodup := by
  constructor <;> decide

/-- What the receive loop returns in place of a deduplicated list: in a nats
`DiscoverPeers` round on an initialized and registered provider whose reply
subscription and Request publication the bus accepts, if every received
payload decodes to a Response message, the returned list holds, in arrival
order, one entry for each received response whose address differs from the
requester's own, so an address reported by several responses occurs as many
times. -/
theorem nats_discoverPeers_lists_every_response (env : Env) (round : Round) (d : Discovery)
    (log : List Call) (sub : Subscription)
    (hinit : d.initialized = true) (hreg : d.registered = true)
    (hsub : env.chanSubscribe (log ++ [.newInbox]) d.connection (env.newInbox log) = .ok sub)
    (hpub : env.publishRequest
        (log ++ [.newInbox, .chanSubscribe d.connection (env.newInbox log)])
        d.connection d.config.Subject (env.newInbox log)
        (env.marshal (selfMessage d.config Request)) = none)
    (hresp : ∀ data ∈ round.received ++ round.buffered.toList,
      ∃ m, env.unmarshal data = .ok m ∧ m.Type_ = Response) :
    (d.DiscoverPeers env round log).ret
      = (reportedAddresses env (hostPort d.config)
          (round.received ++ round.buffered.toList), .nil) := by
  have hall : ∀ data ∈ round.received ++ round.buffered.toList,
      ∃ m, env.unmarshal data = .ok m := fun data hd => (hresp data hd).imp fun _ h => h.1
  rw [discoverPeers_ret_eq_collectRound env round d log sub hinit hreg hsub hpub,
    collectRound_eq_reported env _ _ _ hall]

/-- The round in which node B answers twice, as an instance of the above. -/
theorem nats_discoverPeers_lists_every_response_witness :
    (registeredA.d.DiscoverPeers reachableBus
        ⟨[lineMarshal (selfMessage nodeB Response), lineMarshal (selfMessage nodeB Response)],
          none⟩ registeredA.log).ret
      = (reportedAddresses reachableBus (hostPort registeredA.d.config)
          ([lineMarshal (selfMessage nodeB Response),
            lineMarshal (selfMessage nodeB Response)] ++ (none : Option String).toList), .nil) :=
  nats_discoverPeers_lists_every_response reachableBus
    ⟨[lineMarshal (selfMessage nodeB Response), lineMarshal (selfMessage nodeB Response)], none⟩
    registeredA.d registeredA.log ⟨3⟩ (by decide) (by decide) (by rfl) (by rfl)
    (by
      intro data hd
      simp only [Option.toList, List.append_nil, List.mem_cons, List.mem_singleton,
        List.not_mem_nil, or_false, or_self] at hd
      subst hd
      exact ⟨selfMessage nodeB Response, rfl, rfl⟩)

/-- While the `select` keeps taking payloads that decode, the receive loop
does not return, whatever the fuel: nothing in the loop prefers the `timeout`
case to a payload that is ready. -/
theorem receiveLoop_payloads_only (env : Env) (me : String) (picks : Nat → Option String)
    (buffered : Option String)
    (hpay : ∀ i, ∃ data m, picks i = some data ∧ env.unmarshal data = .ok m) :
    ∀ (fuel i : Nat) (peers : List String),
    receiveLoop env me picks buffered fuel i none peers = none := by
  intro fuel
  induction fuel with
  | zero => intro i peers; rfl
  | succ fuel ih =>
    intro i peers
    obtain ⟨data, m, hpick, hm⟩ := hpay i
    rw [receiveLoop, hpick]
    simp only [hm]
    split_ifs
    · exact ih (i + 1) peers
    · exact ih (i + 1) _

/-- C12, as stated, fails. On registered node A let the timer fire before the
first `select` (`fired = 0`) while responses keep arriving: the schedule
`overrunPicks`, in which the `select` takes three responses before it takes
the `timeout` case, is one that the timer allows. Three iterations after the
timer fired the loop is still running, and what `DiscoverPeers` returns are
the three addresses collected after the timer fired, not the (empty) list
collected up to that point. -/
theorem nats_discoverPeers_runs_past_timeout :
    timerAllows 0 overrunPicks 4 = true ∧
    receiveLoop reachableBus (hostPort registeredA.d.config) overrunPicks none 3 0 none []
      = none ∧
    receiveLoop reachableBus (hostPort registeredA.d.config) overrunPicks none 5 0 none []
      = some (.ok ["127.0.0.1:9002", "127.0.0.1:9003", "127.0.0.1:9004"]) ∧
    (registeredA.d.DiscoverPeers reachableBus ⟨picked overrunPicks 3, none⟩
      registeredA.log).ret
      = (["127.0.0.1:9002", "127.0.0.1:9003", "127.0.0.1:9004"], .nil) := by
  refine ⟨by decide, by rfl, by rfl, by decide⟩

/-- C12, amended: on an initialized and registered nats provider whose reply
subscription and Request publication the bus accepts, let the `select` of the
receive loop take the `timeout` case at iteration `k`, after `k` payloads.
Then the loop returns within `k + 3` iterations, whatever the payloads are and
whatever would have arrived afterwards (`picks` beyond `k` is never read), and
`DiscoverPeers` returns the result of the loop; when the payloads decode, this
result is a nil error with the addresses collected from the `k` payloads and
from the payload still buffered in the channel when it was closed. -/
theorem nats_discoverPeers_returns_after_timeout (env : Env) (d : Discovery)
    (log : List Call) (sub : Subscription) (picks : Nat → Option String)
    (buffered : Option String) (k fuel : Nat)
    (hinit : d.initialized = true) (hreg : d.registered = true)
    (hsub : env.chanSubscribe (log ++ [.newInbox]) d.connection (env.newInbox log) = .ok sub)
    (hpub : env.publishRequest
        (log ++ [.newInbox, .chanSubscribe d.connection (env.newInbox log)])
        d.connection d.config.Subject (env.newInbox log)
        (env.marshal (selfMessage d.config Request)) = none)
    (htimeout : picks k = none) (hbefore : ∀ j, j < k → (picks j).isSome) :
    receiveLoop env (hostPort d.config) picks buffered (fuel + k + 3) 0 none []
      = some (collectRound env (hostPort d.config) [] (picked picks k) buffered) ∧
    (d.DiscoverPeers env ⟨picked picks k, buffered⟩ log).ret
      = (match collectRound env (hostPort d.config) [] (picked picks k) buffered with
        | .ok peers => (peers, .nil)
        | .error e => ([], .err (.json e))) ∧
    ((∀ data ∈ picked picks k ++ buffered.toList, ∃ m, env.unmarshal data = .ok m) →
      (d.DiscoverPeers env ⟨picked picks k, buffered⟩ log).ret
        = (reportedAddresses env (hostPort d.config)
            (picked picks k ++ buffered.toList), .nil)) := by
  have hloop := receiveLoop_open env (hostPort d.config) picks buffered k 0 fuel []
    (by simpa using htimeout) (by simpa using hbefore)
  have hret := discoverPeers_ret_eq_collectRound env ⟨picked picks k, buffered⟩ d log sub
    hinit hreg hsub hpub
  refine ⟨?_, hret, ?_⟩
  · simpa [picked] using hloop
  · intro hall
    rw [hret]
    simp only [collectRound_eq_reported env _ _ _ hall]

/-- Witness of C12 amended: registered node A, the schedule `floodPicks` with the
`timeout` case at iteration 2 and nothing buffered: the loop returns within
five iterations, and the result is the address of node B. -/
theorem nats_discoverPeers_returns_after_timeout_witness :
    receiveLoop reachableBus (hostPort registeredA.d.config) floodPicks none (0 + 2 + 3) 0 none []
      = some (collectRound reachableBus (hostPort registeredA.d.config) []
          (picked floodPicks 2) none) ∧
    (registeredA.d.DiscoverPeers reachableBus ⟨picked floodPicks 2, none⟩ registeredA.log).ret
      = (["127.0.0.1:9002"], .nil) :=
  have h := nats_discoverPeers_returns_after_timeout reachableBus registeredA.d
    registeredA.log ⟨3⟩ floodPicks none 2 0 (by decide) (by decide) (by rfl) (by rfl)
    (by decide) (by decide)
  ⟨h.1, by decide⟩

end NatsReceiveLoop

/-! ## The discovery engine -/

section EngineLifecycle

open discovery discoverygo

/-- No option touches the `started` field. -/
theorem foldl_apply_started (opts : List EngineOption) :
    ∀ engine : Engine,
    (opts.foldl (fun engine opt => opt.Apply engine) engine).started = engine.started := by
  induction opts with
  | nil => intro engine; rfl
  | cons opt rest ih =>
    intro engine
    rw [List.foldl_cons, ih]
    cases opt <;> rfl

/-- The constructor `NewEngine` leaves `started` nil, whatever the options. -/
theorem NewEngine_started (host : Peer) (opts : List EngineOption) :
    (NewEngine host opts).started = none := by
  unfold NewEngine
  rw [foldl_apply_started]

/-- The method `joinCluster` does not touch the `started` field. -/
theorem joinCluster_started (env : EngineEnv) (g : Engine) (log : List ECall) :
    (g.joinCluster env log).g.started = g.started := by
  unfold Engine.joinCluster
  cases env.Create log g.mconfig with
  | error e => rfl
  | ok mlist =>
    dsimp only
    rcases discoverWithRetry env (retrierTries env g.maxJoinAttempts - 1)
      (log ++ [ECall.create g.mconfig]) with ⟨r, log1⟩
    cases r with
    | error e => rfl
    | ok peers =>
      dsimp only
      split_ifs <;> rfl

/-- The discovery retrier calls nothing but `DiscoverPeers`, at least once. -/
theorem discoverWithRetry_log (env : EngineEnv) :
    ∀ (extra : Nat) (log : List ECall),
    ∃ n, (discoverWithRetry env extra log).2
      = log ++ List.replicate (n + 1) ECall.providerDiscoverPeers := by
  intro extra
  induction extra with
  | zero =>
    intro log
    refine ⟨0, ?_⟩
    unfold discoverWithRetry
    split <;> rfl
  | succ extra ih =>
    intro log
    unfold discoverWithRetry
    split
    · exact ⟨0, rfl⟩
    · split
      · exact ⟨0, rfl⟩
      · obtain ⟨n, hn⟩ := ih (log ++ [ECall.providerDiscoverPeers])
        refine ⟨n + 1, ?_⟩
        rw [hn, List.append_assoc]
        rfl

/-- The join retrier calls `Join` on the discovered peers at least once, and
its error, if any, is an error of the transport or of the context. -/
theorem joinWithRetry_spec (env : EngineEnv) (mlist : Memberlist) (peers : List String) :
    ∀ (extra : Nat) (log : List ECall),
    (joinWithRetry env mlist peers extra log).1 ≠ some .ErrClusterQuorum ∧
    ∃ n, (joinWithRetry env mlist peers extra log).2
      = log ++ List.replicate (n + 1) (ECall.join mlist peers) := by
  intro extra
  induction extra with
  | zero =>
    intro log
    unfold joinWithRetry
    split
    · exact ⟨by simp, 0, rfl⟩
    · exact ⟨by simp, 0, rfl⟩
  | succ extra ih =>
    intro log
    unfold joinWithRetry
    split
    · exact ⟨by simp, 0, rfl⟩
    · split
      · exact ⟨by simp, 0, rfl⟩
      · obtain ⟨h1, n, hn⟩ := ih (log ++ [ECall.join mlist peers])
        refine ⟨h1, n + 1, ?_⟩
        rw [hn, List.append_assoc]
        rfl

/-- C15: in `joinCluster`, when `memberlist.Create` succeeds and the retried
`DiscoverPeers` of the provider ends with an empty list and no error,
`joinCluster` returns nil for every value of the configured quorum, and the
calls it has made are `Create` and the `DiscoverPeers` tries: the transport's
`Join` is never called. -/
theorem joinCluster_empty_discovery (env : EngineEnv) (g : Engine) (log log1 : List ECall)
    (mlist : Memberlist)
    (hcreate : env.Create log g.mconfig = .ok mlist)
    (hdiscover : discoverWithRetry env (retrierTries env g.maxJoinAttempts - 1)
        (log ++ [.create g.mconfig]) = (.ok [], log1)) :
    (g.joinCluster env log).ret = none ∧
    (∃ n, (g.joinCluster env log).log
      = log ++ ECall.create g.mconfig :: List.replicate (n + 1) ECall.providerDiscoverPeers) ∧
    (∀ ml peers, ECall.join ml peers ∉ (g.joinCluster env log).log.drop log.length) := by
  have hret : g.joinCluster env log = ⟨none, { g with mlist := some mlist }, log1⟩ := by
    simp [Engine.joinCluster, hcreate, hdiscover]
  obtain ⟨n, hn⟩ := discoverWithRetry_log env (retrierTries env g.maxJoinAttempts - 1)
    (log ++ [.create g.mconfig])
  rw [hdiscover] at hn
  have hlog : log1 = log ++ ECall.create g.mconfig ::
      List.replicate (n + 1) ECall.providerDiscoverPeers := by
    rw [show log1 = ((Except.ok [] : Except EError (List String)), log1).2 from rfl, hn,
      List.append_assoc]
    rfl
  rw [hret]
  refine ⟨rfl, ⟨n, hlog⟩, ?_⟩
  intro ml peers hmem
  simp only [hlog, List.drop_left, List.mem_cons, List.mem_replicate] at hmem
  rcases hmem with h | ⟨_, h⟩ <;> cases h

/-- Witness of C15: the engine with a quorum of 3 and a provider that
discovers nothing. -/
theorem joinCluster_empty_discovery_witness :
    (quorumThree.joinCluster (calm []) []).ret = none ∧
    (quorumThree.joinCluster (calm []) []).log
      = [.create quorumThree.mconfig, .providerDiscoverPeers] :=
  ⟨(joinCluster_empty_discovery (calm []) quorumThree []
      [.create quorumThree.mconfig, .providerDiscoverPeers] ⟨0⟩ rfl (by rfl)).1,
   by decide⟩

/-- C16 (code defect): the engine with a minimum peers quorum of 3 discovers
one peer, fewer than the quorum, yet `joinCluster` calls `Join` on it and
returns nil instead of `ErrClusterQuorum`; the engine with the default quorum
of 1 that discovers two peers, more than the quorum, gets `ErrClusterQuorum`
without a `Join`. -/
theorem joinCluster_below_quorum_joins :
    quorumThree.minimumPeersQuorum = 3 ∧
    (quorumThree.joinCluster (calm ["192.168.1.2:8081"]) []).ret = none ∧
    (quorumThree.joinCluster (calm ["192.168.1.2:8081"]) []).log
      = [.create quorumThree.mconfig, .providerDiscoverPeers,
          .join ⟨0⟩ ["192.168.1.2:8081"]] ∧
    (quorumDefault.joinCluster (calm ["192.168.1.2:8081", "192.168.1.3:8081"]) []).ret
      = some .ErrClusterQuorum := by
  decide

/-- C17: in `joinCluster`, when `memberlist.Create` succeeds and the retried
discovery ends with a non-empty peer list, `ErrClusterQuorum` is returned if
and only if the number of discovered peers is strictly greater than the
configured minimum peers quorum; in that case `Join` is not called, and
otherwise `Join` is called on the discovered peers. The quorum of an engine
built without options is 1, and an engine with a quorum of 1 returns
`ErrClusterQuorum` whenever two or more peers are discovered. -/
theorem joinCluster_quorum_iff (env : EngineEnv) (g : Engine) (log log1 : List ECall)
    (mlist : Memberlist) (peers : List String) (host : Peer)
    (hcreate : env.Create log g.mconfig = .ok mlist)
    (hdiscover : discoverWithRetry env (retrierTries env g.maxJoinAttempts - 1)
        (log ++ [.create g.mconfig]) = (.ok peers, log1))
    (hpeers : peers ≠ []) :
    ((g.joinCluster env log).ret = some .ErrClusterQuorum
      ↔ g.minimumPeersQuorum < peers.length) ∧
    (g.minimumPeersQuorum < peers.length →
      ∀ ml ps, ECall.join ml ps ∉ (g.joinCluster env log).log.drop log.length) ∧
    (¬ g.minimumPeersQuorum < peers.length →
      ECall.join mlist peers ∈ (g.joinCluster env log).log.drop log.length) ∧
    (NewEngine host []).minimumPeersQuorum = 1 ∧
    (g.minimumPeersQuorum = 1 → 2 ≤ peers.length →
      (g.joinCluster env log).ret = some .ErrClusterQuorum) := by
  have hlen : peers.length > 0 := List.length_pos.mpr hpeers
  obtain ⟨n, hn⟩ := discoverWithRetry_log env (retrierTries env g.maxJoinAttempts - 1)
    (log ++ [.create g.mconfig])
  rw [hdiscover] at hn
  have hlog : log1 = log ++ ECall.create g.mconfig ::
      List.replicate (n + 1) ECall.providerDiscoverPeers := by
    rw [show log1 = ((Except.ok peers : Except EError (List String)), log1).2 from rfl, hn,
      List.append_assoc]
    rfl
  have habove : g.minimumPeersQuorum < peers.length →
      g.joinCluster env log = ⟨some .ErrClusterQuorum, { g with mlist := some mlist }, log1⟩ := by
    intro h
    simp [Engine.joinCluster, hcreate, hdiscover, hlen, h]
  have hbelow : ¬ g.minimumPeersQuorum < peers.length →
      g.joinCluster env log
        = ⟨(joinWithRetry env mlist peers (retrierTries env g.maxJoinAttempts - 1) log1).1,
            { g with mlist := some mlist },
            (joinWithRetry env mlist peers (retrierTries env g.maxJoinAttempts - 1) log1).2⟩ := by
    intro h
    simp [Engine.joinCluster, hcreate, hdiscover, hlen, h]
  obtain ⟨hnot, m, hm⟩ := joinWithRetry_spec env mlist peers
    (retrierTries env g.maxJoinAttempts - 1) log1
  refine ⟨⟨?_, fun h => by rw [habove h]⟩, ?_, ?_, rfl, ?_⟩
  · intro hret
    by_contra h
    rw [hbelow h] at hret
    exact hnot hret
  · intro h ml ps hmem
    rw [habove h] at hmem
    simp only [hlog, List.drop_left, List.mem_cons, List.mem_replicate] at hmem
    rcases hmem with h | ⟨_, h⟩ <;> cases h
  · intro h
    rw [hbelow h]
    dsimp only
    rw [hm, hlog, List.append_assoc, List.drop_left]
    simp [List.replicate_succ]
  · intro h1 h2
    rw [habove (by omega)]

/-- Witness of C17: the engine with the default quorum discovers two peers. -/
theorem joinCluster_quorum_iff_witness :
    ((quorumDefault.joinCluster (calm ["192.168.1.2:8081", "192.168.1.3:8081"]) []).ret
        = some .ErrClusterQuorum
      ↔ quorumDefault.minimumPeersQuorum
          < ["192.168.1.2:8081", "192.168.1.3:8081"].length) ∧
    quorumDefault.minimumPeersQuorum < ["192.168.1.2:8081", "192.168.1.3:8081"].length :=
  ⟨(joinCluster_quorum_iff (calm ["192.168.1.2:8081", "192.168.1.3:8081"]) quorumDefault []
      [.create quorumDefault.mconfig, .providerDiscoverPeers] ⟨0⟩
      ["192.168.1.2:8081", "192.168.1.3:8081"] exampleHost rfl (by rfl) (by decide)).1,
   by decide⟩

/-- C18 (code defect): `NewEngine` never allocates `started`, so for every
engine it returns, whatever the options, `Stop` before `Start` dereferences a
nil `*atomic.Bool` in `g.started.Load()` and panics instead of returning nil. -/
theorem engine_stop_before_start_panics (env : EngineEnv) (host : Peer)
    (opts : List EngineOption) (log : List ECall) :
    (NewEngine host opts).started = none ∧
    (NewEngine host opts).Stop env log = ⟨.panicked, NewEngine host opts, log⟩ := by
  have h := NewEngine_started host opts
  refine ⟨h, ?_⟩
  simp [Engine.Stop, h]

/-- C19 (code defect): for every engine returned by `NewEngine`, `Start` never
returns nil. On `exampleHost` with collaborators whose every step succeeds,
`Start` runs `Initialize`, `Register` and `joinCluster`, and then panics in
`g.started.Store(true)` on the nil `started`; the engine is not marked
started. -/
theorem engine_start_never_returns_nil (env : EngineEnv) (host : Peer)
    (opts : List EngineOption) (log : List ECall) :
    ((NewEngine host opts).Start env log).ret ≠ .nil ∧
    ((NewEngine exampleHost []).Start (calm []) []).ret = .panicked ∧
    ((NewEngine exampleHost []).Start (calm []) []).log
      = [.providerInitialize, .providerRegister,
          .create quorumDefault.mconfig, .providerDiscoverPeers] ∧
    ((NewEngine exampleHost []).Start (calm []) []).g.started = none := by
  refine ⟨?_, by decide, by decide, by decide⟩
  have h := NewEngine_started host opts
  unfold Engine.Start
  cases env.getHostPort (NewEngine host opts).hostNode.Address with
  | error e => simp
  | ok hp =>
    obtain ⟨h1, h2⟩ := hp
    dsimp only
    cases env.marshalPeer (NewEngine host opts).hostNode with
    | error e => simp
    | ok meta =>
      dsimp only
      split
      · simp
      · simp
      · have hs := joinCluster_started env ((NewEngine host opts).configure h1 (some meta))
          (log ++ [ECall.providerInitialize, ECall.providerRegister])
        have hc : ((NewEngine host opts).configure h1 (some meta)).started = none := h
        rw [hc] at hs
        simp [hs]

/-- In mode `ReturnFirst` the loop of `Chain.Error` returns the first error
that is not nil, and nil when there is none. -/
theorem chain_loop_returnFirst {ε : Type} (errs : List (Option ε)) :
    errorschain.Chain.loop true errs []
      = ((errs.filterMap id).head?).elim .nil .first := by
  induction errs with
  | nil => rfl
  | cons err rest ih =>
    cases err with
    | none => simpa [errorschain.Chain.loop] using ih
    | some e => simp [errorschain.Chain.loop]

/-- The chain built in mode `ReturnFirst` by adding the errors of a list in
order holds exactly these errors. -/
theorem chain_foldl_errs {ε : Type} (errs : List (Option ε)) :
    ∀ c : errorschain.Chain ε,
    (errs.foldl errorschain.Chain.AddError c).errs = c.errs ++ errs ∧
    (errs.foldl errorschain.Chain.AddError c).returnFirst = c.returnFirst := by
  induction errs with
  | nil => intro c; simp
  | cons err rest ih =>
    intro c
    obtain ⟨h1, h2⟩ := ih (c.AddError err)
    rw [List.foldl_cons, h1, h2]
    simp [errorschain.Chain.AddError]

/-- C20: a chain in mode `ReturnFirst` returns the first non-nil error in
insertion order, and nil when all are nil. When the host address resolves and
the delegate is built, `Start` returns the error of the earliest failing step
among provider `Initialize`, provider `Register` and `joinCluster`. On a
started engine whose stop signal is still open, `Stop` returns the error of
the earliest failing step among transport `Leave`, provider `Deregister`,
provider `Close` and transport `Shutdown`. -/
theorem engine_returns_first_error (env : EngineEnv) (g : Engine) (log : List ECall)
    (host : String) (port : Int) (meta : String) (mlist : Memberlist) :
    (∀ errs : List (Option EError),
      (∀ e, (errs.filterMap id).head? = some e →
        (errs.foldl errorschain.Chain.AddError (errorschain.New true)).Error = .first e) ∧
      ((∀ err ∈ errs, err = none) →
        (errs.foldl errorschain.Chain.AddError (errorschain.New true)).Error = .nil)) ∧
    (env.getHostPort g.hostNode.Address = .ok (host, port) →
      env.marshalPeer g.hostNode = .ok meta →
      ∀ e, ([(env.Initialize log).map EError.provider,
              (env.Register (log ++ [.providerInitialize])).map EError.provider,
              ((g.configure host (some meta)).joinCluster env
                (log ++ [.providerInitialize, .providerRegister])).ret].filterMap id).head?
            = some e →
        (g.Start env log).ret = .err e) ∧
    (g.started = some true → g.stopSigClosed = false → g.mlist = some mlist →
      ∀ e, ([(env.Leave (log ++ [.closeStopSig]) mlist g.shutdownTimeout).map EError.transport,
              (env.Deregister (log ++ [.closeStopSig, .leave mlist g.shutdownTimeout])).map
                EError.provider,
              (env.Close (log ++ [.closeStopSig, .leave mlist g.shutdownTimeout,
                .providerDeregister])).map EError.provider,
              (env.Shutdown (log ++ [.closeStopSig, .leave mlist g.shutdownTimeout,
                .providerDeregister, .providerClose]) mlist).map EError.transport].filterMap
              id).head?
            = some e →
        (g.Stop env log).ret = .err e) := by
  refine ⟨?_, ?_, ?_⟩
  · intro errs
    obtain ⟨h1, h2⟩ := chain_foldl_errs errs (errorschain.New true)
    have h : (errs.foldl errorschain.Chain.AddError (errorschain.New true)).Error
        = ((errs.filterMap id).head?).elim .nil .first := by
      unfold errorschain.Chain.Error
      rw [h1, h2]
      exact chain_loop_returnFirst errs
    constructor
    · intro e he
      rw [h, he]
      rfl
    · intro hall
      have hnil : errs.filterMap id = [] := by
        apply List.filterMap_eq_nil_iff.mpr
        intro err herr
        rw [hall err herr]
        rfl
      rw [h, hnil]
      rfl
  · intro hhost hmeta e he
    have hchain := chain_loop_returnFirst
      [(env.Initialize log).map EError.provider,
        (env.Register (log ++ [.providerInitialize])).map EError.provider,
        ((g.configure host (some meta)).joinCluster env
          (log ++ [.providerInitialize, .providerRegister])).ret]
    rw [he] at hchain
    simp only [Engine.Start, hhost, hmeta, errorschain.Chain.Error, errorschain.New,
      errorschain.Chain.AddError, List.nil_append, List.cons_append, List.singleton_append,
      List.append_assoc]
    rw [hchain]
    rfl
  · intro hstarted hopen hmlist e he
    have hchain := chain_loop_returnFirst
      [(env.Leave (log ++ [.closeStopSig]) mlist g.shutdownTimeout).map EError.transport,
        (env.Deregister (log ++ [.closeStopSig, .leave mlist g.shutdownTimeout])).map
          EError.provider,
        (env.Close (log ++ [.closeStopSig, .leave mlist g.shutdownTimeout,
          .providerDeregister])).map EError.provider,
        (env.Shutdown (log ++ [.closeStopSig, .leave mlist g.shutdownTimeout,
          .providerDeregister, .providerClose]) mlist).map EError.transport]
    rw [he] at hchain
    simp only [Engine.Stop, hstarted, hopen, hmlist, errorschain.Chain.Error, errorschain.New,
      errorschain.Chain.AddError, List.nil_append, List.cons_append, List.singleton_append,
      List.append_assoc, Bool.false_eq_true, if_false]
    rw [hchain]
    rfl

/-- Witness of C20: with the collaborators `stormy`, `Register` and `Join`
fail in `Start`, which returns the error of `Register`; and only `Close`
fails in `Stop` on the started engine, which returns the error of `Close`. -/
theorem engine_returns_first_error_witness :
    ((NewEngine exampleHost []).Start (stormy ["192.168.1.2:8081"]) []).ret
      = .err (.provider .ErrAlreadyRegistered) ∧
    (quorumDefault.joinCluster (stormy ["192.168.1.2:8081"])
      [.providerInitialize, .providerRegister]).ret = some (.transport "no known peers") ∧
    (startedEngine.Stop (stormy []) []).ret = .err (.provider (.nats ⟨7⟩)) ∧
    ([some (EError.transport "a"), none, some EError.context].foldl
      errorschain.Chain.AddError (errorschain.New true)).Error = .first (.transport "a") :=
  have h := engine_returns_first_error (stormy ["192.168.1.2:8081"]) (NewEngine exampleHost [])
    [] "192.168.1.1" 8080 "192.168.1.1:8080" ⟨2⟩
  have hs := engine_returns_first_error (stormy []) startedEngine
    [] "192.168.1.1" 8080 "192.168.1.1:8080" ⟨2⟩
  ⟨h.2.1 (by rfl) (by rfl) (.provider .ErrAlreadyRegistered) (by decide),
   by decide,
   hs.2.2 (by rfl) (by rfl) (by rfl) (.provider (.nats ⟨7⟩)) (by decide),
   (h.1 [some (EError.transport "a"), none, some EError.context]).1 (.transport "a") (by rfl)⟩

end EngineLifecycle

/-! ## Round trip through the JSON wire form -/

section JsonRoundTrip

open discovery discovery.json

/-- A hexadecimal digit decodes to its value. -/
theorem hexVal_hexDigit (d : Nat) (h : d < 16) : hexVal (hexDigit d) = some d := by
  interval_cases d <;> rfl

/-- The escape of a code unit decodes to the code unit. -/
theorem hex4_escapeU (n : Nat) (h : n < 65536) :
    hex4 (hexDigit (n / 4096 % 16)) (hexDigit (n / 256 % 16)) (hexDigit (n / 16 % 16))
      (hexDigit (n % 16)) = some n := by
  have h1 := hexVal_hexDigit (n / 4096 % 16) (Nat.mod_lt _ (by decide))
  have h2 := hexVal_hexDigit (n / 256 % 16) (Nat.mod_lt _ (by decide))
  have h3 := hexVal_hexDigit (n / 16 % 16) (Nat.mod_lt _ (by decide))
  have h4 := hexVal_hexDigit (n % 16) (Nat.mod_lt _ (by decide))
  simp only [hex4, h1, h2, h3, h4, Option.some.injEq]
  omega

/-- The decoder reads the escape `\uXXXX` of a character that is no
surrogate back as that character. -/
theorem unquote_escapeU (c : Char) (rest : List Char) (h : c.toNat < 0xD800) :
    unquote (escapeU c.toNat ++ rest) = consChar c (unquote rest) := by
  have hn : c.toNat < 65536 := by omega
  have hsur : ¬ (0xD800 ≤ c.toNat ∧ c.toNat < 0xE000) := by omega
  simp [escapeU, unquote, hex4_escapeU c.toNat hn, hsur, Char.ofNat_toNat]

/-- A character written as it is, which is neither a quote, a backslash nor a
control character, is read back as it is. -/
theorem unquote_literal (c : Char) (rest : List Char) (h1 : c ≠ '"') (h2 : c ≠ '\\')
    (h3 : ¬ c.toNat < 0x20) :
    unquote (c :: rest) = consChar c (unquote rest) := by
  rw [unquote.eq_def]
  simp [h1, h2, h3]

/-- The decoder on a two-character escape other than `\u`. -/
theorem unquote_short_escape (e : Char) (rest : List Char) (h : e ≠ 'u') :
    unquote ('\\' :: e :: rest)
      = if e = '"' ∨ e = '\\' ∨ e = '/' then consChar e (unquote rest)
        else if e = 'b' then consChar (Char.ofNat 0x08) (unquote rest)
        else if e = 'f' then consChar (Char.ofNat 0x0C) (unquote rest)
        else if e = 'n' then consChar '\n' (unquote rest)
        else if e = 'r' then consChar '\r' (unquote rest)
        else if e = 't' then consChar '\t' (unquote rest)
        else none := by
  rw [unquote.eq_def]
  simp [h]

/-- The decoder reads back what the encoder writes for a valid rune. -/
theorem unquote_encodeSegment (c : Char) (rest : List Char) :
    unquote (encodeSegment (.rune c) ++ rest) = consChar c (unquote rest) := by
  simp only [encodeSegment]
  by_cases hascii : c.toNat < 0x80
  · simp only [hascii, if_true]
    by_cases hsafe : htmlSafe c = true
    · simp only [hsafe, if_true, List.singleton_append]
      simp only [htmlSafe, Bool.and_eq_true, decide_eq_true_eq, bne_iff_ne, ne_eq] at hsafe
      exact unquote_literal c rest hsafe.1.1.1.1.2 hsafe.1.1.1.2 (by omega)
    · simp only [hsafe, Bool.false_eq_true, if_false]
      by_cases hb : c = '\\'
      · rw [if_pos hb, hb]
        simp only [List.cons_append, List.nil_append]
        rw [unquote_short_escape _ _ (by decide)]
        simp
      · by_cases hq : c = '"'
        · rw [if_neg hb, if_pos hq, hq]
          simp only [List.cons_append, List.nil_append]
          rw [unquote_short_escape _ _ (by decide)]
          simp
        · by_cases h8 : c.toNat = 0x08
          · have hc : c = Char.ofNat 0x08 := by rw [← h8, Char.ofNat_toNat]
            rw [if_neg hb, if_neg hq, if_pos h8, hc]
            simp only [List.cons_append, List.nil_append]
            rw [unquote_short_escape _ _ (by decide)]
            simp
          · by_cases h12 : c.toNat = 0x0C
            · have hc : c = Char.ofNat 0x0C := by rw [← h12, Char.ofNat_toNat]
              rw [if_neg hb, if_neg hq, if_neg h8, if_pos h12, hc]
              simp only [List.cons_append, List.nil_append]
              rw [unquote_short_escape _ _ (by decide)]
              simp
            · by_cases hn : c = '\n'
              · rw [if_neg hb, if_neg hq, if_neg h8, if_neg h12, if_pos hn, hn]
                simp only [List.cons_append, List.nil_append]
                rw [unquote_short_escape _ _ (by decide)]
                simp
              · by_cases hr : c = '\r'
                · rw [if_neg hb, if_neg hq, if_neg h8, if_neg h12, if_neg hn, if_pos hr, hr]
                  simp only [List.cons_append, List.nil_append]
                  rw [unquote_short_escape _ _ (by decide)]
                  simp
                · by_cases ht : c = '\t'
                  · rw [if_neg hb, if_neg hq, if_neg h8, if_neg h12, if_neg hn, if_neg hr,
                      if_pos ht, ht]
                    simp only [List.cons_append, List.nil_append]
                    rw [unquote_short_escape _ _ (by decide)]
                    simp
                  · rw [if_neg hb, if_neg hq, if_neg h8, if_neg h12, if_neg hn, if_neg hr,
                      if_neg ht]
                    exact unquote_escapeU c rest (by omega)
  · simp only [hascii, if_false]
    by_cases hls : c.toNat = 0x2028 ∨ c.toNat = 0x2029
    · simp only [hls, if_true]
      exact unquote_escapeU c rest (by omega)
    · simp only [hls, if_false, List.singleton_append]
      refine unquote_literal c rest ?_ ?_ (by omega)
      · rintro rfl
        exact hascii (by decide)
      · rintro rfl
        exact hascii (by decide)

/-- The decoder reads back the body of an encoded valid string, up to the
closing quote. -/
theorem unquote_encodeBody (s : List Char) (rest : List Char) :
    unquote (encodeBody (s.map .rune) ++ '"' :: rest) = some (s, rest) := by
  induction s with
  | nil =>
    rw [unquote.eq_def]
    simp [encodeBody]
  | cons c s ih =>
    simp only [List.map_cons, encodeBody, List.append_assoc]
    rw [unquote_encodeSegment, ih]
    rfl

/-- The digits written in front of an accumulator. -/
theorem toDigitsCore_append (fuel : Nat) :
    ∀ (n : Nat) (ds : List Char),
    Nat.toDigitsCore 10 fuel n ds = Nat.toDigitsCore 10 fuel n [] ++ ds := by
  induction fuel with
  | zero => intro n ds; simp [Nat.toDigitsCore]
  | succ fuel ih =>
    intro n ds
    simp only [Nat.toDigitsCore]
    split
    · simp
    · rw [ih (n / 10) (Nat.digitChar (n % 10) :: ds), ih (n / 10) [Nat.digitChar (n % 10)]]
      simp

/-- With enough fuel the digits do not depend on the fuel. -/
theorem toDigitsCore_fuel (f1 : Nat) :
    ∀ (f2 n : Nat) (ds : List Char), n < f1 → n < f2 →
    Nat.toDigitsCore 10 f1 n ds = Nat.toDigitsCore 10 f2 n ds := by
  induction f1 with
  | zero => intro f2 n ds h; omega
  | succ f1 ih =>
    intro f2 n ds h1 h2
    cases f2 with
    | zero => omega
    | succ f2 =>
      simp only [Nat.toDigitsCore]
      split
      · rfl
      · next hne =>
        have hlt : n / 10 < n := Nat.div_lt_self (by omega) (by decide)
        exact ih f2 (n / 10) _ (by omega) (by omega)

/-- The decimal digits of a number below ten. -/
theorem toDigits_lt (n : Nat) (h : n < 10) : Nat.toDigits 10 n = [Nat.digitChar n] := by
  have h0 : n / 10 = 0 := Nat.div_eq_of_lt h
  have hm : n % 10 = n := Nat.mod_eq_of_lt h
  simp [Nat.toDigits, Nat.toDigitsCore, h0, hm]

/-- The decimal digits of a number from ten on: the digits of the tenth, and
the last digit. -/
theorem toDigits_ge (n : Nat) (h : 10 ≤ n) :
    Nat.toDigits 10 n = Nat.toDigits 10 (n / 10) ++ [Nat.digitChar (n % 10)] := by
  have h0 : n / 10 ≠ 0 := by
    have : 1 ≤ n / 10 := (Nat.one_le_div_iff (by decide)).mpr h
    omega
  have hlt : n / 10 < n := Nat.div_lt_self (by omega) (by decide)
  have step : Nat.toDigitsCore 10 (n + 1) n []
      = Nat.toDigitsCore 10 n (n / 10) [Nat.digitChar (n % 10)] := by
    simp [Nat.toDigitsCore, h0]
  show Nat.toDigitsCore 10 (n + 1) n []
    = Nat.toDigitsCore 10 (n / 10 + 1) (n / 10) [] ++ [Nat.digitChar (n % 10)]
  rw [step, toDigitsCore_append, toDigitsCore_fuel n (n / 10 + 1) (n / 10) [] hlt (by omega)]

/-- The decimal digit characters. -/
theorem digitChar_spec (d : Nat) (h : d < 10) :
    ('0' ≤ Nat.digitChar d ∧ Nat.digitChar d ≤ '9') ∧
    (Nat.digitChar d).toNat - '0'.toNat = d ∧
    (Nat.digitChar d = '0' → d = 0) := by
  interval_cases d <;> decide

/-- The digit reader on two pieces of text. -/
theorem parseDigits_append (xs : List Char) :
    ∀ (acc : Nat) (ys : List Char),
    validation.parseDigits acc (xs ++ ys)
      = (validation.parseDigits acc xs).bind fun a => validation.parseDigits a ys := by
  induction xs with
  | nil => intro acc ys; simp [validation.parseDigits]
  | cons x xs ih =>
    intro acc ys
    simp only [List.cons_append, validation.parseDigits]
    split
    · exact ih _ ys
    · rfl

/-- The decimal digits of a number: they are digits, they are read back as
the number, and the first one is `0` only for the number zero. -/
theorem toDigits_spec (n : Nat) :
    (∀ c ∈ Nat.toDigits 10 n, isDigit c = true) ∧
    validation.parseDigits 0 (Nat.toDigits 10 n) = some n ∧
    (∃ c rest, Nat.toDigits 10 n = c :: rest ∧ (c = '0' → n = 0 ∧ rest = [])) := by
  induction n using Nat.strong_induction_on with
  | _ n ih =>
    by_cases h : n < 10
    · obtain ⟨hd, hv, hz⟩ := digitChar_spec n h
      rw [toDigits_lt n h]
      refine ⟨?_, ?_, Nat.digitChar n, [], rfl, fun hc => ⟨hz hc, rfl⟩⟩
      · intro c hc
        rw [List.mem_singleton.mp hc]
        simpa [isDigit] using hd
      · simp only [validation.parseDigits, hd, and_self, if_true, hv, Nat.zero_mul,
          Nat.zero_add]
    · have hge : 10 ≤ n := by omega
      have hlt : n / 10 < n := Nat.div_lt_self (by omega) (by decide)
      obtain ⟨ih1, ih2, c, rest, ih3, ih4⟩ := ih (n / 10) hlt
      obtain ⟨hd, hv, _⟩ := digitChar_spec (n % 10) (Nat.mod_lt _ (by decide))
      rw [toDigits_ge n hge]
      refine ⟨?_, ?_, c, rest ++ [Nat.digitChar (n % 10)], by rw [ih3]; rfl, ?_⟩
      · intro x hx
        rcases List.mem_append.mp hx with hx | hx
        · exact ih1 x hx
        · rw [List.mem_singleton.mp hx]
          simpa [isDigit] using hd
      · rw [parseDigits_append, ih2]
        simp only [Option.some_bind, validation.parseDigits, hd, and_self, if_true, hv]
        congr 1
        omega
      · intro hc
        have := (ih4 hc).1
        have : 1 ≤ n / 10 := (Nat.one_le_div_iff (by decide)).mpr hge
        omega

/-- The digits of a number followed by a comma or a brace are split off by
the digit scanner. -/
theorem scan_toDigits (m : Nat) (rest : List Char) (hrest : endsNumber rest) :
    (Nat.toDigits 10 m ++ rest).takeWhile isDigit = Nat.toDigits 10 m ∧
    (Nat.toDigits 10 m ++ rest).dropWhile isDigit = rest := by
  obtain ⟨hd, _, _⟩ := toDigits_spec m
  obtain ⟨tail, h | h⟩ := hrest
  · subst h
    rw [List.takeWhile_append_of_pos hd, List.dropWhile_append_of_pos hd]
    simp [List.takeWhile, List.dropWhile, isDigit]
  · subst h
    rw [List.takeWhile_append_of_pos hd, List.dropWhile_append_of_pos hd]
    simp [List.takeWhile, List.dropWhile, isDigit]

/-- The integer reader reads back the decimal form of a 64-bit integer that
is followed by a comma or a closing brace. -/
theorem parseInt_Itoa (n : Int) (rest : List Char) (hlo : -(2 ^ 63 : Int) ≤ n)
    (hhi : n ≤ (2 ^ 63 : Int) - 1) (hrest : endsNumber rest) :
    parseInt ((Itoa n).data ++ rest) = some (n, rest) := by
  have hhead : rest.head? ≠ some '.' ∧ rest.head? ≠ some 'e' ∧ rest.head? ≠ some 'E' := by
    obtain ⟨tail, h | h⟩ := hrest <;> subst h <;> simp
  cases n with
  | ofNat m =>
    obtain ⟨hd, hv, c, ds, hc, hz⟩ := toDigits_spec m
    obtain ⟨ht, hdrop⟩ := scan_toDigits m rest hrest
    have hdata : (Itoa (Int.ofNat m)).data = Nat.toDigits 10 m := rfl
    have hcd : isDigit c = true := hd c (by rw [hc]; exact List.mem_cons_self _ _)
    have hminus : c ≠ '-' := by
      rintro rfl
      exact absurd hcd (by decide)
    have hzero : ¬ ((Nat.toDigits 10 m).head? = some '0' ∧ (Nat.toDigits 10 m).length > 1) := by
      rintro ⟨h1, h2⟩
      rw [hc] at h1 h2
      have hc0 : c = '0' := by simpa using h1
      rw [(hz hc0).2] at h2
      simp at h2
    have hne : Nat.toDigits 10 m ≠ [] := by rw [hc]; simp
    have hm : ¬ ((m : Int) < -(2 ^ 63 : Int) ∨ (2 ^ 63 : Int) - 1 < (m : Int)) := by
      have : (Int.ofNat m) = (m : Int) := rfl
      omega
    rw [hdata]
    unfold parseInt
    rw [hc, List.cons_append]
    simp only [hminus, if_false]
    rw [← List.cons_append, ← hc, ht, hdrop]
    simp only [hne, hzero, hhead.1, hhead.2.1, hhead.2.2, or_self, if_false, hv,
      Bool.false_eq_true, hm]
    rfl
  | negSucc m =>
    obtain ⟨hd, hv, c, ds, hc, hz⟩ := toDigits_spec (m + 1)
    obtain ⟨ht, hdrop⟩ := scan_toDigits (m + 1) rest hrest
    have hdata : (Itoa (Int.negSucc m)).data = '-' :: Nat.toDigits 10 (m + 1) := rfl
    have hzero : ¬ ((Nat.toDigits 10 (m + 1)).head? = some '0' ∧
        (Nat.toDigits 10 (m + 1)).length > 1) := by
      rintro ⟨h1, h2⟩
      rw [hc] at h1 h2
      have hc0 : c = '0' := by simpa using h1
      have := (hz hc0).1
      omega
    have hne : Nat.toDigits 10 (m + 1) ≠ [] := by rw [hc]; simp
    have hm : ¬ (-((m + 1 : Nat) : Int) < -(2 ^ 63 : Int) ∨
        (2 ^ 63 : Int) - 1 < -((m + 1 : Nat) : Int)) := by
      have : Int.negSucc m = -((m + 1 : Nat) : Int) := rfl
      omega
    rw [hdata]
    unfold parseInt
    simp only [List.cons_append, if_true, ht, hdrop, hne, hzero, hhead.1, hhead.2.1,
      hhead.2.2, or_self, if_false, hv, hm]
    rfl

/-- The value reader reads back an encoded valid string. -/
theorem parseValue_string (s rest : List Char) :
    parseValue (encodeString (s.map .rune) ++ rest) = some (.str s, rest) := by
  simp only [encodeString, List.cons_append, List.append_assoc, List.singleton_append,
    parseValue, if_true, unquote_encodeBody, List.nil_append]

/-- The value reader reads back the decimal form of a 64-bit integer. -/
theorem parseValue_int (n : Int) (rest : List Char) (hlo : -(2 ^ 63 : Int) ≤ n)
    (hhi : n ≤ (2 ^ 63 : Int) - 1) (hrest : endsNumber rest) :
    parseValue ((Itoa n).data ++ rest) = some (.int n, rest) := by
  have hint := parseInt_Itoa n rest hlo hhi hrest
  have hhead : ∃ c tail, (Itoa n).data = c :: tail ∧ c ≠ '"' ∧ c ≠ 't' ∧ c ≠ 'f' := by
    cases n with
    | ofNat m =>
      obtain ⟨hd, _, c, ds, hc, _⟩ := toDigits_spec m
      have hcd : isDigit c = true := hd c (by rw [hc]; exact List.mem_cons_self _ _)
      refine ⟨c, ds, hc, ?_, ?_, ?_⟩ <;>
      · rintro rfl
        exact absurd hcd (by decide)
    | negSucc m => exact ⟨'-', Nat.toDigits 10 (m + 1), rfl, by decide, by decide, by decide⟩
  obtain ⟨c, tail, hc, h1, h2, h3⟩ := hhead
  rw [hc] at hint ⊢
  simp only [List.cons_append] at hint ⊢
  simp only [parseValue, h1, h2, h3, if_false, hint]

/-- The member reader on a member that is followed by a comma. -/
theorem parseMembers_more (fuel : Nat) (key valueText more : List Char) (v : Value)
    (hv : parseValue (valueText ++ ',' :: more) = some (v, ',' :: more)) :
    parseMembers (fuel + 1)
        ('"' :: (encodeBody (key.map .rune) ++ '"' :: ':' :: (valueText ++ ',' :: more)))
      = match parseMembers fuel more with
        | none => none
        | some members => some ((key, v) :: members) := by
  simp only [parseMembers, unquote_encodeBody, hv]

/-- The member reader on the last member, which is followed by the closing
brace. -/
theorem parseMembers_last (fuel : Nat) (key valueText : List Char) (v : Value)
    (hv : parseValue (valueText ++ ['}']) = some (v, ['}'])) :
    parseMembers (fuel + 1)
        ('"' :: (encodeBody (key.map .rune) ++ '"' :: ':' :: (valueText ++ ['}'])))
      = some [(key, v)] := by
  simp only [parseMembers, unquote_encodeBody, hv]

/-- The text that `jsonMarshal` writes, member by member. -/
theorem jsonMarshal_data (m : nats.RawMessage) :
    (nats.jsonMarshal m).data
      = '{' :: '"' :: (encodeBody ("host".data.map .rune) ++ '"' :: ':' ::
          (encodeString m.Host ++ ',' :: '"' :: (encodeBody ("port".data.map .rune) ++
            '"' :: ':' :: ((Itoa m.Port).data ++ ',' :: '"' ::
              (encodeBody ("name".data.map .rune) ++ '"' :: ':' ::
                (encodeString m.Name ++ ',' :: '"' :: (encodeBody ("type".data.map .rune) ++
                  '"' :: ':' :: ((Itoa m.Type_).data ++ ['}'])))))))) := by
  simp [nats.jsonMarshal, encodeBody, encodeSegment, htmlSafe]

/-- The object reader on a text that starts with a member. -/
theorem parseObject_member (t : List Char) :
    parseObject ('{' :: '"' :: t) = parseMembers (t.length + 1) ('"' :: t) := by
  simp [parseObject]

/-- The wire form of a `Message` whose strings are valid UTF-8 and whose
integers fit 64 bits decodes to the same `Message`. -/
theorem jsonUnmarshal_jsonMarshal (m : nats.Message)
    (hport : -(2 ^ 63 : Int) ≤ m.Port ∧ m.Port ≤ (2 ^ 63 : Int) - 1)
    (htype : -(2 ^ 63 : Int) ≤ m.Type_ ∧ m.Type_ ≤ (2 ^ 63 : Int) - 1) :
    nats.jsonUnmarshal (nats.jsonMarshal m.raw) = some m := by
  unfold nats.jsonUnmarshal
  rw [jsonMarshal_data, parseObject_member]
  simp only [nats.Message.raw, GoString.ofString]
  generalize hfuel : (encodeBody ("host".data.map Segment.rune) ++ '"' :: ':' ::
    (encodeString (m.Host.data.map Segment.rune) ++ ',' :: '"' ::
      (encodeBody ("port".data.map Segment.rune) ++
      '"' :: ':' :: ((Itoa m.Port).data ++ ',' :: '"' ::
        (encodeBody ("name".data.map Segment.rune) ++ '"' :: ':' ::
          (encodeString (m.Name.data.map Segment.rune) ++ ',' :: '"' ::
            (encodeBody ("type".data.map Segment.rune) ++
              '"' :: ':' :: ((Itoa m.Type_).data ++ ['}'])))))))).length = fuel
  have h3 : 3 ≤ fuel := by
    rw [← hfuel]
    simp only [List.length_append, List.length_cons]
    omega
  obtain ⟨k, rfl⟩ : ∃ k, fuel = k + 3 := ⟨fuel - 3, by omega⟩
  rw [parseMembers_more (k + 3) _ _ _ _
      (parseValue_string m.Host.data _),
    parseMembers_more (k + 2) _ _ _ _
      (parseValue_int m.Port _ hport.1 hport.2 ⟨_, Or.inl rfl⟩),
    parseMembers_more (k + 1) _ _ _ _
      (parseValue_string m.Name.data _),
    parseMembers_last k _ _ _
      (parseValue_int m.Type_ _ htype.1 htype.2 ⟨[], Or.inr rfl⟩)]
  simp [nats.setMembers, nats.setMember]

/-- The value reader reads back an encoded boolean. -/
theorem parseValue_bool (b : Bool) (rest : List Char) :
    parseValue ((if b then "true".data else "false".data) ++ rest) = some (.bool b, rest) := by
  cases b <;> simp [parseValue]

/-- The text that `jsonMarshalPeer` writes, member by member. -/
theorem jsonMarshalPeer_data (p : discoverygo.RawPeer) :
    (discoverygo.jsonMarshalPeer p).data
      = '{' :: '"' :: (encodeBody ("Address".data.map .rune) ++ '"' :: ':' ::
          (encodeString p.Address ++ ',' :: '"' :: (encodeBody ("IsSelf".data.map .rune) ++
            '"' :: ':' :: ((if p.IsSelf then "true".data else "false".data) ++ ',' :: '"' ::
              (encodeBody ("DiscoveryPort".data.map .rune) ++ '"' :: ':' ::
                ((Itoa p.DiscoveryPort).data ++ ['}'])))))) := by
  simp [discoverygo.jsonMarshalPeer, encodeBody, encodeSegment, htmlSafe]

/-- The wire form of a `Peer` whose address is valid UTF-8 and whose port
fits 64 bits decodes to the same `Peer`. -/
theorem jsonUnmarshalPeer_jsonMarshalPeer (p : discoverygo.Peer)
    (hport : -(2 ^ 63 : Int) ≤ p.DiscoveryPort ∧ p.DiscoveryPort ≤ (2 ^ 63 : Int) - 1) :
    discoverygo.jsonUnmarshalPeer (discoverygo.jsonMarshalPeer p.raw) = some p := by
  unfold discoverygo.jsonUnmarshalPeer
  rw [jsonMarshalPeer_data, parseObject_member]
  simp only [discoverygo.Peer.raw, GoString.ofString]
  generalize hfuel : (encodeBody ("Address".data.map Segment.rune) ++ '"' :: ':' ::
    (encodeString (p.Address.data.map Segment.rune) ++ ',' :: '"' ::
      (encodeBody ("IsSelf".data.map Segment.rune) ++
      '"' :: ':' :: ((if p.IsSelf then "true".data else "false".data) ++ ',' :: '"' ::
        (encodeBody ("DiscoveryPort".data.map Segment.rune) ++ '"' :: ':' ::
          ((Itoa p.DiscoveryPort).data ++ ['}'])))))).length = fuel
  have h2 : 2 ≤ fuel := by
    rw [← hfuel]
    simp only [List.length_append, List.length_cons]
    omega
  obtain ⟨k, rfl⟩ : ∃ k, fuel = k + 2 := ⟨fuel - 2, by omega⟩
  rw [parseMembers_more (k + 2) _ _ _ _
      (parseValue_string p.Address.data _),
    parseMembers_more (k + 1) _ _ _ _
      (parseValue_bool p.IsSelf _),
    parseMembers_last k _ _ _
      (parseValue_int p.DiscoveryPort _ hport.1 hport.2 ⟨[], Or.inr rfl⟩)]
  simp [discoverygo.setPeerMembers, discoverygo.setPeerMember]

/-- C13, as stated, fails: a Message whose host is the single byte 0xFF, which
is not valid UTF-8, is encoded with the escape of U+FFFD in place of the byte,
and decoding yields the host U+FFFD, which is not the original host. -/
theorem nats_message_invalid_utf8_lost :
    nats.jsonMarshal ⟨[.invalid 0xFF], 9001, GoString.ofString "node", nats.Request⟩
      = "\x7b\"host\":\"\\ufffd\",\"port\":9001,\"name\":\"node\",\"type\":2\x7d" ∧
    nats.jsonUnmarshal
        (nats.jsonMarshal ⟨[.invalid 0xFF], 9001, GoString.ofString "node", nats.Request⟩)
      = some ⟨String.mk [Char.ofNat 0xFFFD], 9001, "node", nats.Request⟩ ∧
    (⟨String.mk [Char.ofNat 0xFFFD], 9001, "node", nats.Request⟩ : nats.Message).raw
      ≠ ⟨[.invalid 0xFF], 9001, GoString.ofString "node", nats.Request⟩ := by
  refine ⟨by decide, by decide, by decide⟩

/-- C13, amended: for every Message whose host and name are valid UTF-8 (any
such strings, any port and any kind that a Go `int` holds, among them
Register, Deregister, Request and Response), encoding it to its JSON wire
form and decoding that form yields a Message with exactly the same host,
port, name and kind. -/
theorem nats_message_roundtrip (m : nats.Message)
    (hport : -(2 ^ 63 : Int) ≤ m.Port ∧ m.Port ≤ (2 ^ 63 : Int) - 1)
    (htype : -(2 ^ 63 : Int) ≤ m.Type_ ∧ m.Type_ ≤ (2 ^ 63 : Int) - 1) :
    nats.jsonUnmarshal (nats.jsonMarshal m.raw) = some m :=
  jsonUnmarshal_jsonMarshal m hport htype

/-- Witness of C13 amended: the Request of node A. -/
theorem nats_message_roundtrip_witness :
    nats.jsonUnmarshal (nats.jsonMarshal (nats.selfMessage nats.nodeA nats.Request).raw)
      = some (nats.selfMessage nats.nodeA nats.Request) :=
  nats_message_roundtrip (nats.selfMessage nats.nodeA nats.Request) (by decide) (by decide)

/-- C14, as stated, fails: a Peer whose address starts with the byte 0xC0,
which is not valid UTF-8, is encoded with the escape of U+FFFD in place of
the byte, and decoding yields an address that starts with U+FFFD. -/
theorem peer_invalid_utf8_lost :
    discoverygo.jsonUnmarshalPeer
        (discoverygo.jsonMarshalPeer ⟨[.invalid 0xC0, .rune ':', .rune '1'], false, 8081⟩)
      = some ⟨String.mk [Char.ofNat 0xFFFD, ':', '1'], false, 8081⟩ ∧
    (⟨String.mk [Char.ofNat 0xFFFD, ':', '1'], false, 8081⟩ : discoverygo.Peer).raw
      ≠ ⟨[.invalid 0xC0, .rune ':', .rune '1'], false, 8081⟩ := by
  refine ⟨by decide, by decide⟩

/-- C14, amended: for every Peer whose address is valid UTF-8 (either value of
the is-self flag, any discovery port that a Go `int` holds), encoding it as
the delegate does and decoding it as `Peers` and `eventsListener` do yields a
Peer with exactly the same address, is-self flag and discovery port. -/
theorem peer_roundtrip (p : discoverygo.Peer)
    (hport : -(2 ^ 63 : Int) ≤ p.DiscoveryPort ∧ p.DiscoveryPort ≤ (2 ^ 63 : Int) - 1) :
    discoverygo.jsonUnmarshalPeer (discoverygo.jsonMarshalPeer p.raw) = some p :=
  jsonUnmarshalPeer_jsonMarshalPeer p hport

/-- Witness of C14 amended: the host node of the example. -/
theorem peer_roundtrip_witness :
    discoverygo.jsonUnmarshalPeer (discoverygo.jsonMarshalPeer discoverygo.exampleHost.raw)
      = some discoverygo.exampleHost :=
  peer_roundtrip discoverygo.exampleHost (by decide)

end JsonRoundTrip

/-! ## The steps of the chains of `Start` and `Stop` -/

section EngineChainSteps

open discovery discoverygo

/-- The method `joinCluster` first calls `memberlist.Create` with the
configuration of the engine. -/
theorem joinCluster_log_create (env : EngineEnv) (g : Engine) (log : List ECall) :
    ∃ rest, (g.joinCluster env log).log = log ++ [ECall.create g.mconfig] ++ rest := by
  unfold Engine.joinCluster
  cases env.Create log g.mconfig with
  | error e => exact ⟨[], by simp⟩
  | ok mlist =>
    dsimp only
    obtain ⟨n, hn⟩ := discoverWithRetry_log env (retrierTries env g.maxJoinAttempts - 1)
      (log ++ [ECall.create g.mconfig])
    rcases hd : discoverWithRetry env (retrierTries env g.maxJoinAttempts - 1)
      (log ++ [ECall.create g.mconfig]) with ⟨r, log1⟩
    rw [hd] at hn
    dsimp only at hn
    cases r with
    | error e => exact ⟨_, hn⟩
    | ok peers =>
      dsimp only
      split_ifs
      · exact ⟨_, hn⟩
      · obtain ⟨_, k, hk⟩ := joinWithRetry_spec env mlist peers
          (retrierTries env g.maxJoinAttempts - 1) log1
        refine ⟨List.replicate (n + 1) ECall.providerDiscoverPeers ++
          List.replicate (k + 1) (ECall.join mlist peers), ?_⟩
        show (joinWithRetry env mlist peers (retrierTries env g.maxJoinAttempts - 1) log1).2 = _
        rw [hk, hn]
        simp only [List.append_assoc]
      · exact ⟨_, hn⟩

/-- When `memberlist.Create` succeeds, `joinCluster` goes on to `DiscoverPeers`
of the provider; when it fails, `joinCluster` returns there. -/
theorem joinCluster_log_discover (env : EngineEnv) (g : Engine) (log : List ECall) :
    (∀ mlist, env.Create log g.mconfig = .ok mlist →
      ∃ rest, (g.joinCluster env log).log
        = log ++ [ECall.create g.mconfig, ECall.providerDiscoverPeers] ++ rest) ∧
    (∀ err, env.Create log g.mconfig = .error err →
      (g.joinCluster env log).log = log ++ [ECall.create g.mconfig]) := by
  constructor
  · intro mlist hcreate
    unfold Engine.joinCluster
    rw [hcreate]
    dsimp only
    obtain ⟨n, hn⟩ := discoverWithRetry_log env (retrierTries env g.maxJoinAttempts - 1)
      (log ++ [ECall.create g.mconfig])
    rcases hd : discoverWithRetry env (retrierTries env g.maxJoinAttempts - 1)
      (log ++ [ECall.create g.mconfig]) with ⟨r, log1⟩
    rw [hd] at hn
    dsimp only at hn
    have hn1 : log1 = log ++ [ECall.create g.mconfig, ECall.providerDiscoverPeers] ++
        List.replicate n ECall.providerDiscoverPeers := by
      rw [hn, List.replicate_succ]
      simp
    cases r with
    | error e => exact ⟨_, hn1⟩
    | ok peers =>
      dsimp only
      split_ifs
      · exact ⟨_, hn1⟩
      · obtain ⟨_, k, hk⟩ := joinWithRetry_spec env mlist peers
          (retrierTries env g.maxJoinAttempts - 1) log1
        refine ⟨List.replicate n ECall.providerDiscoverPeers ++
          List.replicate (k + 1) (ECall.join mlist peers), ?_⟩
        show (joinWithRetry env mlist peers (retrierTries env g.maxJoinAttempts - 1) log1).2 = _
        rw [hk, hn1]
        simp only [List.append_assoc]
      · exact ⟨_, hn1⟩
  · intro err hcreate
    unfold Engine.joinCluster
    rw [hcreate]

/-- When the host address resolves, the delegate is built and a step of the
chain fails, the calls that `Start` has made are `Initialize` and `Register`
of the provider and then those of `joinCluster`. -/
theorem start_log_on_error (env : EngineEnv) (g : Engine) (log : List ECall)
    (host : String) (port : Int) (meta : String) (e : Err)
    (hhost : env.getHostPort g.hostNode.Address = .ok (host, port))
    (hmeta : env.marshalPeer g.hostNode = .ok meta)
    (hinit : env.Initialize log = some e) :
    (g.Start env log).ret = .err (.provider e) ∧
    (g.Start env log).log = ((g.configure host (some meta)).joinCluster env
      (log ++ [ECall.providerInitialize, ECall.providerRegister])).log := by
  constructor <;>
    simp only [Engine.Start, hhost, hmeta, hinit, errorschain.Chain.Error, errorschain.New,
      errorschain.Chain.AddError, List.nil_append, List.cons_append, Option.map_some',
      errorschain.Chain.loop] <;> rfl

/-- C21, as stated, fails. On the engine that `NewEngine` builds for the
example host, with the collaborators `faulty`, `Initialize` of the provider
fails and `Start` returns its error, yet `Register` of the provider and
`joinCluster` (`memberlist.Create`, then `DiscoverPeers`) have been invoked.
On a started engine (the `started` flag set and true), `Leave` fails in `Stop`,
which returns its error, yet `Deregister`, `Close` and `Shutdown` have been
invoked. -/
theorem engine_failed_step_skips_nothing :
    ((NewEngine exampleHost []).Start (faulty []) []).ret
      = .err (.provider .ErrAlreadyInitialized) ∧
    ((NewEngine exampleHost []).Start (faulty []) []).log
      = [.providerInitialize, .providerRegister, .create quorumDefault.mconfig,
          .providerDiscoverPeers] ∧
    (startedEngine.Stop (faulty []) []).ret = .err (.transport "leave timed out") ∧
    (startedEngine.Stop (faulty []) []).log
      = [.closeStopSig, .leave ⟨2⟩ (3 * nats.Second), .providerDeregister, .providerClose,
          .shutdown ⟨2⟩] := by
  decide

/-- C21, amended: no step of the chains of `Start` and `Stop` is skipped after
a failure. In `Start`, once the host address resolves and the delegate is
built, when `Initialize` of the provider fails, `Start` returns that error and
has called `Initialize`, `Register` and, in `joinCluster`, `memberlist.Create`
in this order; when `Create` succeeds `joinCluster` has gone on to call
`DiscoverPeers`, and when `Create` fails these three calls are all. In `Stop`
on a started engine (the `started` flag set and true, the stop signal still
open, the transport present), when `Leave` fails, `Stop` returns that error
and has called `Leave`, `Deregister`, `Close` and `Shutdown`, in this order,
and nothing else after closing the stop signal. -/
theorem engine_chain_runs_every_step (env : EngineEnv) (g : Engine) (log : List ECall) :
    (∀ (host : String) (port : Int) (meta : String) (e : Err),
      env.getHostPort g.hostNode.Address = .ok (host, port) →
      env.marshalPeer g.hostNode = .ok meta →
      env.Initialize log = some e →
      (g.Start env log).ret = .err (.provider e) ∧
      (∀ mlist, env.Create (log ++ [.providerInitialize, .providerRegister])
          (g.configure host (some meta)).mconfig = .ok mlist →
        ∃ rest, (g.Start env log).log = log ++ [ECall.providerInitialize,
          ECall.providerRegister, ECall.create (g.configure host (some meta)).mconfig,
          ECall.providerDiscoverPeers] ++ rest) ∧
      (∀ err, env.Create (log ++ [.providerInitialize, .providerRegister])
          (g.configure host (some meta)).mconfig = .error err →
        (g.Start env log).log = log ++ [ECall.providerInitialize, ECall.providerRegister,
          ECall.create (g.configure host (some meta)).mconfig])) ∧
    (∀ (mlist : Memberlist) (e : String),
      g.started = some true → g.stopSigClosed = false → g.mlist = some mlist →
      env.Leave (log ++ [.closeStopSig]) mlist g.shutdownTimeout = some e →
      (g.Stop env log).ret = .err (.transport e) ∧
      (g.Stop env log).log = log ++ [ECall.closeStopSig, ECall.leave mlist g.shutdownTimeout,
        ECall.providerDeregister, ECall.providerClose, ECall.shutdown mlist]) := by
  constructor
  · intro host port meta e hhost hmeta hinit
    obtain ⟨hret, hlog⟩ := start_log_on_error env g log host port meta e hhost hmeta hinit
    obtain ⟨hok, herr⟩ := joinCluster_log_discover env (g.configure host (some meta))
      (log ++ [ECall.providerInitialize, ECall.providerRegister])
    refine ⟨hret, ?_, ?_⟩
    · intro mlist hcreate
      obtain ⟨rest, hrest⟩ := hok mlist hcreate
      exact ⟨rest, by rw [hlog, hrest]; simp⟩
    · intro err hcreate
      rw [hlog, herr err hcreate]
      simp
  · intro mlist e hstarted hopen hmlist hleave
    constructor
    · simp only [Engine.Stop, hstarted, hopen, hmlist, hleave, errorschain.Chain.Error,
        errorschain.New, errorschain.Chain.AddError, List.nil_append, List.cons_append,
        Bool.false_eq_true, if_false, Option.map_some', errorschain.Chain.loop]
      rfl
    · simp only [Engine.Stop, hstarted, hopen, hmlist, Bool.false_eq_true, if_false,
        List.append_assoc, List.cons_append, List.nil_append]

/-- Witness of C21: the collaborators `faulty` on the engine that `NewEngine`
builds for the example host, where `Create` succeeds after the failed
`Initialize`, and on the started engine. -/
theorem engine_chain_runs_every_step_witness :
    ((NewEngine exampleHost []).Start (faulty []) []).ret
      = .err (.provider .ErrAlreadyInitialized) ∧
    (∃ rest, ((NewEngine exampleHost []).Start (faulty []) []).log
      = [] ++ [ECall.providerInitialize, ECall.providerRegister,
          ECall.create ((NewEngine exampleHost []).configure "192.168.1.1"
            (some "192.168.1.1:8080")).mconfig,
          ECall.providerDiscoverPeers] ++ rest) ∧
    (startedEngine.Stop (faulty []) []).log
      = [.closeStopSig, .leave ⟨2⟩ (3 * nats.Second), .providerDeregister, .providerClose,
          .shutdown ⟨2⟩] :=
  have h := engine_chain_runs_every_step (faulty []) (NewEngine exampleHost []) []
  have hs := engine_chain_runs_every_step (faulty []) startedEngine []
  have h1 := h.1 "192.168.1.1" 8080 "192.168.1.1:8080" .ErrAlreadyInitialized (by rfl) (by rfl)
    (by rfl)
  ⟨h1.1, h1.2.1 ⟨2⟩ (by rfl),
   (hs.2 ⟨2⟩ "leave timed out" (by rfl) (by rfl) (by rfl) (by rfl)).2⟩

end EngineChainSteps

/-! ## `Peers` and the peer sets pushed to the consumer -/

section EnginePeers

open discovery discoverygo

/-- When no metadata fails to decode, the loop of `Peers` appends, in order,
the decoded peers that are not flagged self. -/
theorem peersLoop_ok (unmarshal : Unmarshal) (members : List Node) :
    ∀ peers : List Peer,
    (∀ member ∈ members, ∀ e, unmarshal member.Meta ≠ .error e) →
    peersLoop unmarshal members peers
      = (peers ++ members.filterMap (fun member =>
          ((unmarshal member.Meta).toOption.join).filter (fun p => !p.IsSelf)), none) := by
  induction members with
  | nil => intro peers _; simp [peersLoop]
  | cons member rest ih =>
    intro peers hall
    have hrest : ∀ x ∈ rest, ∀ e, unmarshal x.Meta ≠ .error e :=
      fun x hx => hall x (List.mem_cons_of_mem _ hx)
    have hm := hall member (List.mem_cons_self _ _)
    unfold peersLoop
    cases hu : unmarshal member.Meta with
    | error e => exact absurd hu (hm e)
    | ok o =>
      cases o with
      | none =>
        simp only [ih peers hrest, List.filterMap_cons, hu, Except.toOption, Option.join,
          Option.filter]
        rfl
      | some peer =>
        cases hself : peer.IsSelf with
        | true =>
          simp [ih peers hrest, List.filterMap_cons, hu, Except.toOption, Option.join,
            Option.filter, hself]
        | false =>
          simp [ih (peers ++ [peer]) hrest, List.filterMap_cons, hu, Except.toOption,
            Option.join, Option.filter, hself]

/-- The loop of `Peers` returns the error of the first member whose metadata
fails to decode, and no peers. -/
theorem peersLoop_error (unmarshal : Unmarshal) (pre : List Node) (member : Node)
    (post : List Node) (e : JsonError) :
    ∀ peers : List Peer,
    (∀ x ∈ pre, ∀ e, unmarshal x.Meta ≠ .error e) →
    unmarshal member.Meta = .error e →
    peersLoop unmarshal (pre ++ member :: post) peers = ([], some e) := by
  induction pre with
  | nil =>
    intro peers _ hm
    simp [peersLoop, hm]
  | cons x rest ih =>
    intro peers hall hm
    have hrest : ∀ y ∈ rest, ∀ e, unmarshal y.Meta ≠ .error e :=
      fun y hy => hall y (List.mem_cons_of_mem _ hy)
    have hx := hall x (List.mem_cons_self _ _)
    rw [List.cons_append, peersLoop]
    cases hu : unmarshal x.Meta with
    | error e1 => exact absurd hu (hx e1)
    | ok o =>
      cases o with
      | none => exact ih peers hrest hm
      | some peer =>
        dsimp only
        split_ifs
        · exact ih _ hrest hm
        · exact ih _ hrest hm

/-- No peer that the loop of `Peers` returns is flagged self. -/
theorem peersLoop_notSelf (unmarshal : Unmarshal) (members : List Node) :
    ∀ peers : List Peer, (∀ p ∈ peers, p.IsSelf = false) →
    ∀ p ∈ (peersLoop unmarshal members peers).1, p.IsSelf = false := by
  induction members with
  | nil => intro peers h; simpa [peersLoop] using h
  | cons member rest ih =>
    intro peers h
    rw [peersLoop]
    cases hu : unmarshal member.Meta with
    | error e => simp
    | ok o =>
      cases o with
      | none => exact ih peers h
      | some peer =>
        dsimp only
        cases hself : peer.IsSelf with
        | true => simpa using ih peers h
        | false =>
          have h1 : ∀ p ∈ peers ++ [peer], p.IsSelf = false := by
            intro p hp
            rcases List.mem_append.mp hp with hp | hp
            · exact h p hp
            · rw [List.mem_singleton.mp hp]; exact hself
          simpa using ih (peers ++ [peer]) h1

/-- C22: on an engine whose membership transport exists, `Peers` returns, in
the order of the member list, exactly the decoded peer of every member whose
metadata decodes to a peer that is not flagged self, when no metadata fails to
decode; no returned peer is flagged self; and when the metadata of a member
fails to decode, `Peers` returns the error (of the first such member) and no
peers. -/
theorem engine_peers_snapshot (unmarshal : Unmarshal) (members : List Node) (g : Engine)
    (mlist : Memberlist) (hmlist : g.mlist = some mlist) :
    ((∀ member ∈ members, ∀ e, unmarshal member.Meta ≠ .error e) →
      g.Peers unmarshal members
        = some (members.filterMap (fun member =>
            ((unmarshal member.Meta).toOption.join).filter (fun p => !p.IsSelf)), none)) ∧
    (∀ r, g.Peers unmarshal members = some r → ∀ p ∈ r.1, p.IsSelf = false) ∧
    (∀ (pre : List Node) (member : Node) (post : List Node) (e : JsonError),
      members = pre ++ member :: post →
      (∀ x ∈ pre, ∀ e, unmarshal x.Meta ≠ .error e) →
      unmarshal member.Meta = .error e →
      g.Peers unmarshal members = some ([], some e)) := by
  refine ⟨?_, ?_, ?_⟩
  · intro hall
    simp only [Engine.Peers, hmlist]
    rw [peersLoop_ok unmarshal members [] hall, List.nil_append]
  · intro r hr p hp
    simp only [Engine.Peers, hmlist, Option.some.injEq] at hr
    subst hr
    exact peersLoop_notSelf unmarshal members [] (by simp) p hp
  · intro pre member post e hmem hpre hm
    simp only [Engine.Peers, hmlist]
    rw [hmem, peersLoop_error unmarshal pre member post e [] hpre hm]

/-- Witness of C22: the example cluster (host, B, C) gives the peers B and C,
and a member with malformed metadata gives the error and no peers. -/
theorem engine_peers_snapshot_witness :
    startedEngine.Peers tableUnmarshal exampleMembers = some ([peerB, peerC], none) ∧
    startedEngine.Peers tableUnmarshal [⟨"B"⟩, ⟨"?"⟩, ⟨"C"⟩] = some ([], some ⟨3⟩) :=
  have h := engine_peers_snapshot tableUnmarshal exampleMembers startedEngine ⟨2⟩ (by rfl)
  have he := engine_peers_snapshot tableUnmarshal [⟨"B"⟩, ⟨"?"⟩, ⟨"C"⟩] startedEngine ⟨2⟩
    (by rfl)
  ⟨(h.1 (by simp [exampleMembers, tableUnmarshal])).trans (by decide),
   he.2.2 [⟨"B"⟩] ⟨"?"⟩ [⟨"C"⟩] ⟨3⟩ (by rfl) (by simp [tableUnmarshal]) (by rfl)⟩

/-- Membership in the set after `Add`. -/
theorem mem_setAdd (set : List Info) (x y : Info) :
    y ∈ setAdd set x ↔ y ∈ set ∨ y = x := by
  unfold setAdd
  split_ifs with h
  · constructor
    · exact Or.inl
    · rintro (h1 | h1)
      · exact h1
      · rw [h1]; exact h
  · simp

/-- Membership in the set after `Remove`. -/
theorem mem_setRemove (set : List Info) (x y : Info) :
    y ∈ setRemove set x ↔ y ∈ set ∧ y ≠ x := by
  simp [setRemove]

/-- The set built before the `switch` holds the host node flagged self and
the current peers, and nothing else. -/
theorem mem_peersSet (g : Engine) (currentPeers : List Peer) (x : Info) :
    x ∈ peersSet g currentPeers
      ↔ x = { Address := g.hostNode.Address, IsSelf := true } ∨
        x ∈ currentPeers.map Peer.info := by
  have h : ∀ (peers : List Peer) (set : List Info),
      x ∈ peers.foldl (fun set xpeer => setAdd set xpeer.info) set
        ↔ x ∈ set ∨ x ∈ peers.map Peer.info := by
    intro peers
    induction peers with
    | nil => intro set; simp
    | cons p rest ih =>
      intro set
      rw [List.foldl_cons, ih, mem_setAdd, List.map_cons, List.mem_cons, or_assoc]
  unfold peersSet
  rw [h, mem_setAdd]
  simp

/-- C23: for an event handled by `eventsListener` on an engine whose
membership transport exists, with `snapshot` the peers that `Peers` returns at
that time. If the metadata of the node decodes to a peer `P` not flagged self:
on `NodeJoin` the set pushed to the consumer holds exactly the host node
flagged self, the peers of the snapshot and `P`; on `NodeLeave` it holds
exactly the host node flagged self and the peers of the snapshot, without `P`;
on `NodeUpdate` nothing is pushed. If the metadata does not decode, or `P` is
flagged self, nothing is pushed. -/
theorem eventsListener_event_pushes (unmarshal : Unmarshal) (members : List Node) (g : Engine)
    (event : NodeEvent) (snapshot : List Peer) (err : Option JsonError)
    (hpeers : g.Peers unmarshal members = some (snapshot, err)) :
    (∀ P : Peer, unmarshal event.Node.Meta = .ok (some P) → P.IsSelf = false →
      (event.Event = .NodeJoin →
        ∃ set, g.handleEvent unmarshal members event = .pushed set ∧
          ∀ x, x ∈ set ↔ (x = { Address := g.hostNode.Address, IsSelf := true } ∨
            x ∈ snapshot.map Peer.info ∨ x = P.info)) ∧
      (event.Event = .NodeLeave →
        ∃ set, g.handleEvent unmarshal members event = .pushed set ∧
          ∀ x, x ∈ set ↔ ((x = { Address := g.hostNode.Address, IsSelf := true } ∨
            x ∈ snapshot.map Peer.info) ∧ x ≠ P.info)) ∧
      (event.Event = .NodeUpdate → g.handleEvent unmarshal members event = .skipped)) ∧
    ((∃ e, unmarshal event.Node.Meta = .error e) →
      g.handleEvent unmarshal members event = .skipped) ∧
    (∀ P : Peer, unmarshal event.Node.Meta = .ok (some P) → P.IsSelf = true →
      g.handleEvent unmarshal members event = .skipped) := by
  refine ⟨?_, ?_, ?_⟩
  · intro P hP hself
    refine ⟨?_, ?_, ?_⟩
    · intro hev
      refine ⟨setAdd (peersSet g snapshot) P.info, ?_, ?_⟩
      · simp [Engine.handleEvent, hP, hself, hpeers, hev]
      · intro x
        rw [mem_setAdd, mem_peersSet, or_assoc]
    · intro hev
      refine ⟨setRemove (peersSet g snapshot) P.info, ?_, ?_⟩
      · simp [Engine.handleEvent, hP, hself, hpeers, hev]
      · intro x
        rw [mem_setRemove, mem_peersSet]
    · intro hev
      simp [Engine.handleEvent, hP, hself, hpeers, hev]
  · rintro ⟨e, he⟩
    simp [Engine.handleEvent, he]
  · intro P hP hself
    simp [Engine.handleEvent, hP, hself]

/-- Witness of C23: in the example cluster (host, B), the node C joins and the
set pushed is host, B, C; then C leaves the cluster (host, B, C) and the set
pushed is host, B. -/
theorem eventsListener_event_pushes_witness :
    (∃ set, startedEngine.handleEvent tableUnmarshal [⟨"self"⟩, ⟨"B"⟩] ⟨.NodeJoin, ⟨"C"⟩⟩
        = .pushed set ∧
      ∀ x, x ∈ set ↔ (x = { Address := startedEngine.hostNode.Address, IsSelf := true } ∨
        x ∈ [peerB].map Peer.info ∨ x = peerC.info)) ∧
    startedEngine.handleEvent tableUnmarshal exampleMembers ⟨.NodeLeave, ⟨"C"⟩⟩
      = .pushed [⟨"192.168.1.1:8080", true⟩, ⟨"192.168.1.2:8080", false⟩] :=
  have h := eventsListener_event_pushes tableUnmarshal [⟨"self"⟩, ⟨"B"⟩] startedEngine
    ⟨.NodeJoin, ⟨"C"⟩⟩ [peerB] none (by decide)
  ⟨(h.1 peerC (by rfl) (by rfl)).1 (by rfl), by decide⟩

/-- Every set that one event makes the listener push holds the host node
flagged self, and no other entry flagged self. -/
theorem handleEvent_pushed_self (unmarshal : Unmarshal) (members : List Node) (g : Engine)
    (event : NodeEvent) (set : List Info)
    (h : g.handleEvent unmarshal members event = .pushed set) :
    { Address := g.hostNode.Address, IsSelf := true } ∈ set ∧
    ∀ x ∈ set, x.IsSelf = true → x = { Address := g.hostNode.Address, IsSelf := true } := by
  unfold Engine.handleEvent at h
  cases hu : unmarshal event.Node.Meta with
  | error e => simp [hu] at h
  | ok o =>
    cases o with
    | none => simp [hu] at h
    | some P =>
      cases hself : P.IsSelf with
      | true => simp [hu, hself] at h
      | false =>
        cases hp : g.Peers unmarshal members with
        | none => simp [hu, hself, hp] at h
        | some r =>
          obtain ⟨snapshot, err⟩ := r
          have hsnap : ∀ p ∈ snapshot, p.IsSelf = false :=
            fun p hp1 => by
              unfold Engine.Peers at hp
              cases hm : g.mlist with
              | none => simp [hm] at hp
              | some mlist =>
                simp only [hm, Option.some.injEq] at hp
                have := peersLoop_notSelf unmarshal members [] (by simp) p
                rw [hp] at this
                exact this hp1
          have hinfo : ∀ x ∈ snapshot.map Peer.info, x.IsSelf = false := by
            intro x hx
            obtain ⟨p, hp1, rfl⟩ := List.mem_map.mp hx
            exact hsnap p hp1
          have hPinfo : P.info.IsSelf = false := hself
          cases hev : event.Event with
          | NodeUpdate => simp [hu, hself, hp, hev] at h
          | NodeJoin =>
            simp only [hu, hself, hp, hev, Bool.false_eq_true, if_false,
              Handled.pushed.injEq] at h
            subst h
            constructor
            · rw [mem_setAdd, mem_peersSet]
              exact Or.inl (Or.inl rfl)
            · intro x hx hxself
              rw [mem_setAdd, mem_peersSet] at hx
              rcases hx with (hx | hx) | hx
              · exact hx
              · rw [hinfo x hx] at hxself; exact absurd hxself (by decide)
              · rw [hx, hPinfo] at hxself; exact absurd hxself (by decide)
          | NodeLeave =>
            simp only [hu, hself, hp, hev, Bool.false_eq_true, if_false,
              Handled.pushed.injEq] at h
            subst h
            constructor
            · rw [mem_setRemove, mem_peersSet]
              refine ⟨Or.inl rfl, ?_⟩
              intro hcontra
              have : P.info.IsSelf = true := by rw [← hcontra]
              rw [hPinfo] at this
              exact absurd this (by decide)
            · intro x hx hxself
              rw [mem_setRemove, mem_peersSet] at hx
              rcases hx.1 with hx1 | hx1
              · exact hx1
              · rw [hinfo x hx1] at hxself; exact absurd hxself (by decide)

/-- C24, as stated, fails: in the example cluster the node C joins, and the
one set that the listener passes to `SetPeers` holds the entry of the host
node's own address, with the is-self flag true. -/
theorem eventsListener_pushes_host_entry :
    (startedEngine.eventsListener tableUnmarshal
      [.event ⟨.NodeJoin, ⟨"C"⟩⟩ [⟨"self"⟩, ⟨"B"⟩], .stop] []).2
      = [[⟨"192.168.1.1:8080", true⟩, ⟨"192.168.1.2:8080", false⟩,
          ⟨"192.168.1.3:8080", false⟩]] ∧
    ¬ (∀ set ∈ (startedEngine.eventsListener tableUnmarshal
        [.event ⟨.NodeJoin, ⟨"C"⟩⟩ [⟨"self"⟩, ⟨"B"⟩], .stop] []).2,
      ∀ x ∈ set, x.Address ≠ startedEngine.hostNode.Address ∧ x.IsSelf = false) := by
  decide

/-- C24, amended: every set that `eventsListener` passes to the consumer's
`SetPeers` holds the entry of the host node's own address flagged self, and
that is its only entry whose is-self flag is true. -/
theorem eventsListener_sets_flag_host_only (unmarshal : Unmarshal) (g : Engine)
    (selects : List Select) :
    ∀ set ∈ (g.eventsListener unmarshal selects []).2,
      { Address := g.hostNode.Address, IsSelf := true } ∈ set ∧
      ∀ x ∈ set, x.IsSelf = true → x = { Address := g.hostNode.Address, IsSelf := true } := by
  have h : ∀ (selects : List Select) (pushes : List (List Info)),
      (∀ set ∈ pushes, { Address := g.hostNode.Address, IsSelf := true } ∈ set ∧
        ∀ x ∈ set, x.IsSelf = true → x = { Address := g.hostNode.Address, IsSelf := true }) →
      ∀ set ∈ (g.eventsListener unmarshal selects pushes).2,
        { Address := g.hostNode.Address, IsSelf := true } ∈ set ∧
        ∀ x ∈ set, x.IsSelf = true →
          x = { Address := g.hostNode.Address, IsSelf := true } := by
    intro selects
    induction selects with
    | nil => intro pushes hp; simpa [Engine.eventsListener] using hp
    | cons sel rest ih =>
      intro pushes hp
      cases sel with
      | stop => simpa [Engine.eventsListener] using hp
      | event event members =>
        rw [Engine.eventsListener]
        cases hh : g.handleEvent unmarshal members event with
        | skipped => exact ih pushes hp
        | panicked => simpa using hp
        | pushed peers =>
          apply ih
          intro set hset
          rcases List.mem_append.mp hset with hset | hset
          · exact hp set hset
          · rw [List.mem_singleton.mp hset]
            exact handleEvent_pushed_self unmarshal members g event peers hh
  exact h selects [] (by simp)

/-- Witness of C24: the set pushed when C joins the example cluster holds the
host entry flagged self, and no other entry flagged self. -/
theorem eventsListener_sets_flag_host_only_witness :
    ({ Address := "192.168.1.1:8080", IsSelf := true } : Info)
      ∈ [⟨"192.168.1.1:8080", true⟩, ⟨"192.168.1.2:8080", false⟩,
          ⟨"192.168.1.3:8080", false⟩] ∧
    ∀ x ∈ ([⟨"192.168.1.1:8080", true⟩, ⟨"192.168.1.2:8080", false⟩,
        ⟨"192.168.1.3:8080", false⟩] : List Info),
      x.IsSelf = true → x = { Address := "192.168.1.1:8080", IsSelf := true } :=
  eventsListener_sets_flag_host_only tableUnmarshal startedEngine
    [.event ⟨.NodeJoin, ⟨"C"⟩⟩ [⟨"self"⟩, ⟨"B"⟩], .stop]
    [⟨"192.168.1.1:8080", true⟩, ⟨"192.168.1.2:8080", false⟩, ⟨"192.168.1.3:8080", false⟩]
    (by decide)

end EnginePeers

/-! ## The directory providers and the nats configuration -/

section Providers

open discovery

/-- No sequence of calls changes the static provider. -/
theorem static_after (methods : List static.Method) :
    ∀ d : static.Discovery, d.after methods = d := by
  induction methods with
  | nil => intro d; rfl
  | cons method rest ih =>
    intro d
    have h : (d.call method).1 = d := by cases method <;> rfl
    show static.Discovery.after (d.call method).1 rest = d
    rw [h, ih]

/-- C25: for every static configuration with host list `H` and every sequence
of calls of lifecycle methods and of `DiscoverPeers` made before, the provider
is still the one that was constructed, no further call changes it, and
`DiscoverPeers` returns exactly `H`, in order, with a nil error. -/
theorem static_discoverPeers_returns_hosts (config : static.Config)
    (methods : List static.Method) :
    ((static.NewDiscovery config).after methods).DiscoverPeers = (config.Hosts, .nil) ∧
    (static.NewDiscovery config).after methods = static.NewDiscovery config ∧
    (∀ method, (((static.NewDiscovery config).after methods).call method).1
      = static.NewDiscovery config) ∧
    (((static.NewDiscovery config).after methods).call .DiscoverPeers).2
      = (config.Hosts, .nil) := by
  rw [static_after]
  refine ⟨rfl, rfl, ?_, rfl⟩
  intro method
  cases method <;> rfl

/-- C26 fails on the code: `Initialize` of the dnssd provider and of the
kubernetes provider never sets `initialized` (only `Register` does), so on a
freshly constructed provider the second `Initialize` in a row returns what
the validation of the configuration returns, which is never
`ErrAlreadyInitialized`, and nil for the configurations of the tests. -/
theorem directory_initialize_twice_not_rejected :
    (∀ config : dnssd.Config,
      ((dnssd.NewDiscovery config).Initialize.1.Initialize).2
        = Ret.ofValidation config.Validate ∧
      ((dnssd.NewDiscovery config).Initialize.1.Initialize).2
        ≠ .err .ErrAlreadyInitialized) ∧
    (∀ config : kubernetes.Config,
      ((kubernetes.NewDiscovery config).Initialize.1.Initialize).2
        = Ret.ofValidation config.Validate ∧
      ((kubernetes.NewDiscovery config).Initialize.1.Initialize).2
        ≠ .err .ErrAlreadyInitialized) ∧
    ((dnssd.NewDiscovery ⟨"google.com", none⟩).Initialize.1.Initialize).2 = .nil ∧
    ((kubernetes.NewDiscovery
      ⟨"test", "discovery-port", "port", [("app.kubernetes.io/name", "test")]⟩).Initialize.1
        |>.Initialize).2 = .nil := by
  refine ⟨?_, ?_, by decide, by decide⟩
  · intro config
    have h : ((dnssd.NewDiscovery config).Initialize.1.Initialize).2
        = Ret.ofValidation config.Validate := rfl
    rw [h]
    refine ⟨rfl, ?_⟩
    cases config.Validate <;> simp [Ret.ofValidation]
  · intro config
    have h : ((kubernetes.NewDiscovery config).Initialize.1.Initialize).2
        = Ret.ofValidation config.Validate := rfl
    rw [h]
    refine ⟨rfl, ?_⟩
    cases config.Validate <;> simp [Ret.ofValidation]

/-- C27 fails on the code: `ServerAddrValidator.Validate` only tests the
prefix `nats` before it takes element 1 of the split on `nats://`. For the
server `nats:127.0.0.1:4222` the split has one element and the validator
panics, and so does `Config.Validate`; and the server `natsXnats://h:1`,
which is not in the format `nats://host:port`, is accepted. -/
theorem serverAddr_validator_panics :
    (validation.Validator.serverAddr "nats:127.0.0.1:4222").Validate = .panicked ∧
    nats.Config.Validate { nats.nodeA with Server := "nats:127.0.0.1:4222" } = .panicked ∧
    ((nats.NewDiscovery { nats.nodeA with Server := "nats:127.0.0.1:4222" }).Initialize
      nats.reachableBus []).ret = .panicked ∧
    (validation.Validator.serverAddr "natsXnats://h:1").Validate = .ok ∧
    nats.Config.Validate { nats.nodeA with Server := "natsXnats://h:1" } = .nil := by
  decide

/-- What `Initialize` of the nats provider writes into the configuration when
it succeeds: a `Timeout` and a `ReconnectWait` that are not positive become 1s
and 2s, a `MaxJoinAttempts` of 0 becomes 5, every other value is kept;
`Timeout` and `ReconnectWait` are then positive, `MaxJoinAttempts` is not 0. -/
theorem nats_initialize_effective_settings (env : nats.Env) (d : nats.Discovery)
    (log : List nats.Call) (hinit : d.initialized = false) (hvalid : d.config.Validate = .nil) :
    (d.Initialize env log).ret = .nil ∧
    (d.Initialize env log).d.config.Timeout
      = (if d.config.Timeout ≤ 0 then nats.Second else d.config.Timeout) ∧
    (d.Initialize env log).d.config.MaxJoinAttempts
      = (if d.config.MaxJoinAttempts = 0 then 5 else d.config.MaxJoinAttempts) ∧
    (d.Initialize env log).d.config.ReconnectWait
      = (if d.config.ReconnectWait ≤ 0 then 2 * nats.Second else d.config.ReconnectWait) ∧
    0 < (d.Initialize env log).d.config.Timeout ∧
    0 < (d.Initialize env log).d.config.ReconnectWait ∧
    (d.Initialize env log).d.config.MaxJoinAttempts ≠ 0 := by
  have hc : (d.Initialize env log).d.config = nats.applyDefaults d.config := by
    simp [nats.Discovery.Initialize, hinit, hvalid]
  have hr : (d.Initialize env log).ret = .nil := by
    simp [nats.Discovery.Initialize, hinit, hvalid]
  rw [hc]
  refine ⟨hr, ?_, ?_, ?_, ?_, ?_, ?_⟩ <;>
    simp only [nats.applyDefaults, nats.Second] <;> split_ifs <;> simp_all

/-- C28 fails on the code: `Initialize` replaces `MaxJoinAttempts` only when
it is 0, while `Timeout` and `ReconnectWait` are replaced when they are not
positive. With `MaxJoinAttempts` -1 in the configuration of node A,
`Initialize` succeeds and the setting is still -1. -/
theorem nats_initialize_keeps_negative_attempts :
    ((nats.NewDiscovery { nats.nodeA with MaxJoinAttempts := -1 }).Initialize
      nats.reachableBus []).ret = .nil ∧
    ((nats.NewDiscovery { nats.nodeA with MaxJoinAttempts := -1 }).Initialize
      nats.reachableBus []).d.config.MaxJoinAttempts = -1 ∧
    ((nats.NewDiscovery { nats.nodeA with MaxJoinAttempts := -1 }).Initialize
      nats.reachableBus []).d.config.Timeout = nats.Second ∧
    ((nats.NewDiscovery { nats.nodeA with MaxJoinAttempts := -1 }).Initialize
      nats.reachableBus []).d.config.ReconnectWait = 2 * nats.Second := by
  decide

/-- Membership in the address set after `Add`. -/
theorem mem_addAddress (addresses : List String) (a b : String) :
    b ∈ kubernetes.addAddress addresses a ↔ b ∈ addresses ∨ b = a := by
  unfold kubernetes.addAddress
  split_ifs with h
  · constructor
    · exact Or.inl
    · rintro (h1 | h1)
      · exact h1
      · rw [h1]; exact h
  · simp

/-- The address set stays without repetition after `Add`. -/
theorem nodup_addAddress (addresses : List String) (a : String) (h : addresses.Nodup) :
    (kubernetes.addAddress addresses a).Nodup := by
  unfold kubernetes.addAddress
  split_ifs with hmem
  · exact h
  · exact List.Nodup.append h (List.nodup_singleton a) (by simpa using hmem)

/-- The loop over the ports of one container adds the address of each port
named `DiscoveryPortName`, and nothing else. -/
theorem ports_foldl_spec (config : kubernetes.Config) (ip : String)
    (ports : List kubernetes.ContainerPort) :
    ∀ acc : List String, acc.Nodup →
    (ports.foldl (fun acc port =>
        if !([config.DiscoveryPortName, config.PortName].contains port.Name) then acc
        else if port.Name = config.DiscoveryPortName then
          kubernetes.addAddress acc (JoinHostPort ip (Itoa port.ContainerPort))
        else acc) acc).Nodup ∧
    ∀ a, a ∈ ports.foldl (fun acc port =>
        if !([config.DiscoveryPortName, config.PortName].contains port.Name) then acc
        else if port.Name = config.DiscoveryPortName then
          kubernetes.addAddress acc (JoinHostPort ip (Itoa port.ContainerPort))
        else acc) acc
      ↔ a ∈ acc ∨ ∃ port ∈ ports, port.Name = config.DiscoveryPortName ∧
          a = JoinHostPort ip (Itoa port.ContainerPort) := by
  induction ports with
  | nil => intro acc h; simp [h]
  | cons port rest ih =>
    intro acc h
    rw [List.foldl_cons]
    by_cases hname : port.Name = config.DiscoveryPortName
    · have hstep : (if !([config.DiscoveryPortName, config.PortName].contains port.Name) then acc
          else if port.Name = config.DiscoveryPortName then
            kubernetes.addAddress acc (JoinHostPort ip (Itoa port.ContainerPort))
          else acc)
          = kubernetes.addAddress acc (JoinHostPort ip (Itoa port.ContainerPort)) := by
        simp [hname]
      rw [hstep]
      obtain ⟨h1, h2⟩ := ih _ (nodup_addAddress acc _ h)
      refine ⟨h1, fun a => ?_⟩
      rw [h2, mem_addAddress]
      simp only [List.mem_cons, exists_eq_or_imp, hname, true_and]
      tauto
    · have hstep : (if !([config.DiscoveryPortName, config.PortName].contains port.Name) then acc
          else if port.Name = config.DiscoveryPortName then
            kubernetes.addAddress acc (JoinHostPort ip (Itoa port.ContainerPort))
          else acc) = acc := by
        simp [hname]
      rw [hstep]
      obtain ⟨h1, h2⟩ := ih _ h
      refine ⟨h1, fun a => ?_⟩
      rw [h2]
      simp only [List.mem_cons, exists_eq_or_imp, hname, false_and, false_or]

/-- The loops over the containers and the ports of one accepted pod. -/
theorem podAddresses_spec (config : kubernetes.Config) (pod : kubernetes.Pod) :
    ∀ acc : List String, acc.Nodup →
    (kubernetes.podAddresses config pod acc).Nodup ∧
    ∀ a, a ∈ kubernetes.podAddresses config pod acc
      ↔ a ∈ acc ∨ ∃ container ∈ pod.Containers, ∃ port ∈ container.Ports,
          port.Name = config.DiscoveryPortName ∧
          a = JoinHostPort pod.PodIP (Itoa port.ContainerPort) := by
  unfold kubernetes.podAddresses
  generalize pod.Containers = containers
  induction containers with
  | nil => intro acc h; simp [h]
  | cons container rest ih =>
    intro acc h
    rw [List.foldl_cons]
    obtain ⟨h1, h2⟩ := ports_foldl_spec config pod.PodIP container.Ports acc h
    obtain ⟨h3, h4⟩ := ih _ h1
    refine ⟨h3, fun a => ?_⟩
    rw [h4, h2, or_assoc]
    simp only [List.mem_cons, exists_eq_or_imp]

/-- The body of `MainLoop` adds the addresses of a pod exactly when the pod
is running and has no Ready condition with a status other than True. -/
theorem mainLoopStep_spec (config : kubernetes.Config) (pod : kubernetes.Pod)
    (acc : List String) (h : acc.Nodup) :
    (kubernetes.mainLoopStep config acc pod).Nodup ∧
    ∀ a, a ∈ kubernetes.mainLoopStep config acc pod
      ↔ a ∈ acc ∨ (pod.Phase = kubernetes.PodRunning ∧
          (∀ condition ∈ pod.Conditions, condition.Type_ = kubernetes.PodReady →
            condition.Status = kubernetes.ConditionTrue) ∧
          ∃ container ∈ pod.Containers, ∃ port ∈ container.Ports,
            port.Name = config.DiscoveryPortName ∧
            a = JoinHostPort pod.PodIP (Itoa port.ContainerPort)) := by
  unfold kubernetes.mainLoopStep
  by_cases hphase : pod.Phase = kubernetes.PodRunning
  · by_cases hready : ∀ condition ∈ pod.Conditions,
        condition.Type_ = kubernetes.PodReady → condition.Status = kubernetes.ConditionTrue
    · have hany : (pod.Conditions.any (fun condition =>
          condition.Type_ = kubernetes.PodReady && condition.Status ≠ kubernetes.ConditionTrue))
          = false := by
        rw [List.any_eq_false]
        intro condition hc
        have := hready condition hc
        by_cases ht : condition.Type_ = kubernetes.PodReady
        · simp [ht, this ht]
        · simp [ht]
      rw [if_neg (by simpa using hphase), hany]
      obtain ⟨h1, h2⟩ := podAddresses_spec config pod acc h
      refine ⟨by simpa using h1, fun a => ?_⟩
      simp only [Bool.false_eq_true, if_false]
      rw [h2]
      simp only [hphase, true_and]
      constructor
      · rintro (h3 | h3)
        · exact Or.inl h3
        · exact Or.inr ⟨hready, h3⟩
      · rintro (h3 | ⟨_, h3⟩)
        · exact Or.inl h3
        · exact Or.inr h3
    · have hany : (pod.Conditions.any (fun condition =>
          condition.Type_ = kubernetes.PodReady && condition.Status ≠ kubernetes.ConditionTrue))
          = true := by
        rw [List.any_eq_true]
        push_neg at hready
        obtain ⟨condition, hc, ht, hs⟩ := hready
        exact ⟨condition, hc, by simp [ht, hs]⟩
      rw [if_neg (by simpa using hphase), hany]
      refine ⟨by simpa using h, fun a => ?_⟩
      simp only [if_true]
      constructor
      · exact Or.inl
      · rintro (h3 | ⟨_, h3, _⟩)
        · exact h3
        · exact absurd h3 hready
  · rw [if_pos (by simpa using hphase)]
    refine ⟨h, fun a => ?_⟩
    constructor
    · exact Or.inl
    · rintro (h3 | ⟨h3, _⟩)
      · exact h3
      · exact absurd h3 hphase

/-- The loop `MainLoop` over the pods. -/
theorem mainLoop_spec (config : kubernetes.Config) (pods : List kubernetes.Pod) :
    ∀ acc : List String, acc.Nodup →
    (pods.foldl (kubernetes.mainLoopStep config) acc).Nodup ∧
    ∀ a, a ∈ pods.foldl (kubernetes.mainLoopStep config) acc
      ↔ a ∈ acc ∨ ∃ pod ∈ pods, pod.Phase = kubernetes.PodRunning ∧
          (∀ condition ∈ pod.Conditions, condition.Type_ = kubernetes.PodReady →
            condition.Status = kubernetes.ConditionTrue) ∧
          ∃ container ∈ pod.Containers, ∃ port ∈ container.Ports,
            port.Name = config.DiscoveryPortName ∧
            a = JoinHostPort pod.PodIP (Itoa port.ContainerPort) := by
  induction pods with
  | nil => intro acc h; simp [h]
  | cons pod rest ih =>
    intro acc h
    rw [List.foldl_cons]
    obtain ⟨h1, h2⟩ := mainLoopStep_spec config pod acc h
    obtain ⟨h3, h4⟩ := ih _ h1
    refine ⟨h3, fun a => ?_⟩
    rw [h4, h2, or_assoc]
    simp only [List.mem_cons, exists_eq_or_imp]

/-- C29: on an initialized kubernetes provider with a client, when the cluster
API answers the pod list `pods`, `DiscoverPeers` returns a nil error and a
list without duplicates that holds exactly the addresses
`JoinHostPort(podIP, containerPort)` of the container ports named
`DiscoveryPortName` of the pods that are in phase Running and have no Ready
condition with a status other than True (no Ready condition at all is fine).
A port with another name, such as `PortName`, contributes no address: when no
port is named `DiscoveryPortName`, nothing is returned. -/
theorem kubernetes_discoverPeers_addresses (d : kubernetes.Discovery)
    (client : kubernetes.Client) (pods : List kubernetes.Pod)
    (hinit : d.initialized = true) (hclient : d.client = some client)
    (hlist : client.List d.config.Namespace d.config.PodLabels = .ok pods) :
    d.DiscoverPeers.2 = .nil ∧
    d.DiscoverPeers.1.Nodup ∧
    (∀ a, a ∈ d.DiscoverPeers.1
      ↔ ∃ pod ∈ pods, pod.Phase = kubernetes.PodRunning ∧
          (∀ condition ∈ pod.Conditions, condition.Type_ = kubernetes.PodReady →
            condition.Status = kubernetes.ConditionTrue) ∧
          ∃ container ∈ pod.Containers, ∃ port ∈ container.Ports,
            port.Name = d.config.DiscoveryPortName ∧
            a = JoinHostPort pod.PodIP (Itoa port.ContainerPort)) ∧
    ((∀ pod ∈ pods, ∀ container ∈ pod.Containers, ∀ port ∈ container.Ports,
        port.Name ≠ d.config.DiscoveryPortName) → d.DiscoverPeers.1 = []) := by
  have hd : d.DiscoverPeers = (pods.foldl (kubernetes.mainLoopStep d.config) [], .nil) := by
    simp [kubernetes.Discovery.DiscoverPeers, hinit, hclient, hlist]
  obtain ⟨h1, h2⟩ := mainLoop_spec d.config pods [] List.nodup_nil
  rw [hd]
  refine ⟨rfl, h1, fun a => ?_, ?_⟩
  · rw [h2]
    simp
  · intro hnone
    apply List.eq_nil_iff_forall_not_mem.mpr
    intro a ha
    rw [h2] at ha
    rcases ha with ha | ⟨pod, hpod, _, _, container, hcont, port, hport, hname, _⟩
    · simp at ha
    · exact hnone pod hpod container hcont port hport hname

/-- Witness of C29: the provider of the test `With DiscoverPeers`, with three
more pods: the two ready pods and the running pod without condition give
their discovery addresses. -/
theorem kubernetes_discoverPeers_addresses_witness :
    kubernetes.testProvider.DiscoverPeers.2 = .nil ∧
    kubernetes.testProvider.DiscoverPeers.1.Nodup ∧
    kubernetes.testProvider.DiscoverPeers.1
      = ["10.0.0.23:3379", "10.0.0.24:3379", "10.0.0.27:3379"] :=
  have h := kubernetes_discoverPeers_addresses kubernetes.testProvider
    ⟨fun _ _ => .ok kubernetes.testPods⟩ kubernetes.testPods (by rfl) (by rfl) (by rfl)
  ⟨h.1, h.2.1, by decide⟩

end Providers

/-! ## The validation chain -/

section ValidationChain

open discovery validation

/-- With `failFast`, the loop of `Validate` returns the error of the first
validator that fails, whatever follows it, and leaves the violations alone. -/
theorem run_failFast_first (v : Validator) (post : List Validator) (e : VError)
    (violations : List VError) (hv : v.Validate = .fail e) :
    ∀ pre : List Validator, (∀ p ∈ pre, p.Validate = .ok) →
    Chain.run true (pre ++ v :: post) violations = (.fail [e], violations) := by
  intro pre
  induction pre with
  | nil => intro _; simp [Chain.run, hv]
  | cons p rest ih =>
    intro hall
    have hp := hall p (List.mem_cons_self _ _)
    rw [List.cons_append, Chain.run, hp]
    exact ih (fun x hx => hall x (List.mem_cons_of_mem _ hx))

/-- In both modes, when every validator passes, the loop of `Validate` returns
the violations it started with. -/
theorem run_all_pass (failFast : Bool) (validators : List Validator)
    (violations : List VError) (hall : ∀ v ∈ validators, v.Validate = .ok) :
    Chain.run failFast validators violations
      = (if violations = [] then .ok else .fail violations, violations) := by
  induction validators with
  | nil => simp [Chain.run]
  | cons v rest ih =>
    rw [Chain.run, hall v (List.mem_cons_self _ _)]
    exact ih (fun x hx => hall x (List.mem_cons_of_mem _ hx))

/-- Without `failFast`, when no validator panics, the loop of `Validate` runs
through all validators and appends every failure, in order. -/
theorem run_allErrors (validators : List Validator) :
    ∀ violations : List VError, (∀ v ∈ validators, v.Validate ≠ .panicked) →
    Chain.run false validators violations
      = (if violations ++ validators.filterMap (fun v => v.Validate.error) = [] then .ok
          else .fail (violations ++ validators.filterMap (fun v => v.Validate.error)),
         violations ++ validators.filterMap (fun v => v.Validate.error)) := by
  induction validators with
  | nil => intro violations _; simp [Chain.run]
  | cons v rest ih =>
    intro violations hall
    have hrest : ∀ x ∈ rest, x.Validate ≠ .panicked :=
      fun x hx => hall x (List.mem_cons_of_mem _ hx)
    have hv := hall v (List.mem_cons_self _ _)
    rw [Chain.run]
    cases hr : v.Validate with
    | panicked => exact absurd hr hv
    | ok => simp [ih violations hrest, List.filterMap_cons, hr, VRet.error]
    | fail e =>
      simp [ih (violations ++ [e]) hrest, List.filterMap_cons, hr, VRet.error]

/-- C30: for a chain as built by `New` and the `Add` methods (no violations
recorded yet). Built with `FailFast`: `Validate` returns the error of the
first validator, in insertion order, that fails, whatever the validators
after it would do (none of them is run), and records no violations; it
returns nil when all pass. Built with `AllErrors` or without option, with
validators that return: `Validate` records and returns the failures of all
validators in insertion order, their messages joined by `; `, and returns nil
when all pass. -/
theorem chain_validate_modes (c : Chain) (library : AddrCause → String)
    (hfresh : c.violations = []) :
    (c.failFast = true →
      (∀ (pre : List Validator) (v : Validator) (post : List Validator) (e : VError),
        c.validators = pre ++ v :: post → (∀ p ∈ pre, p.Validate = .ok) →
        v.Validate = .fail e →
        c.Validate = (.fail [e], c) ∧
        c.Validate.1.Error library = some (e.Error library)) ∧
      ((∀ v ∈ c.validators, v.Validate = .ok) → c.Validate = (.ok, c))) ∧
    (c.failFast = false → (∀ v ∈ c.validators, v.Validate ≠ .panicked) →
      c.Validate.2.violations = c.validators.filterMap (fun v => v.Validate.error) ∧
      (c.validators.filterMap (fun v => v.Validate.error) ≠ [] →
        c.Validate.1 = .fail (c.validators.filterMap (fun v => v.Validate.error)) ∧
        c.Validate.1.Error library = some ("; ".intercalate
          ((c.validators.filterMap (fun v => v.Validate.error)).map (VError.Error library)))) ∧
      ((∀ v ∈ c.validators, v.Validate = .ok) → c.Validate.1 = .ok)) := by
  obtain ⟨failFast, validators, violations⟩ := c
  simp only at hfresh
  subst hfresh
  refine ⟨?_, ?_⟩
  · intro hff
    simp only at hff
    subst hff
    refine ⟨?_, ?_⟩
    · intro pre v post e hvs hpre hv
      simp only at hvs
      subst hvs
      have h := run_failFast_first v post e [] hv pre hpre
      have hval : Chain.Validate ⟨true, pre ++ v :: post, []⟩
          = (.fail [e], ⟨true, pre ++ v :: post, []⟩) := by
        simp only [Chain.Validate, h]
      rw [hval]
      exact ⟨rfl, rfl⟩
    · intro hall
      have h := run_all_pass true validators [] hall
      simp only [Chain.Validate, h]
      rfl
  · intro hff hnp
    simp only at hff hnp
    subst hff
    have h := run_allErrors validators [] hnp
    simp only [List.nil_append] at h
    have hval : Chain.Validate ⟨false, validators, []⟩
        = (if validators.filterMap (fun v => v.Validate.error) = [] then .ok
            else .fail (validators.filterMap (fun v => v.Validate.error)),
           ⟨false, validators, validators.filterMap (fun v => v.Validate.error)⟩) := by
      simp only [Chain.Validate, h]
    rw [hval]
    refine ⟨rfl, ?_, ?_⟩
    · intro hne
      dsimp only
      rw [if_neg hne]
      exact ⟨rfl, rfl⟩
    · intro hall
      have hnil : validators.filterMap (fun v => v.Validate.error) = [] := by
        apply List.filterMap_eq_nil_iff.mpr
        intro v hv
        rw [hall v hv]
        rfl
      dsimp only
      rw [if_pos hnil]

/-- Witness of C30: the chains of the test `TestValidate`, an empty string
followed by a false assertion. With `FailFast` the result is the first error
and its message; with `AllErrors` both, with the message
`the [field] is required; this is false`. -/
theorem chain_validate_modes_witness :
    (((New true).AddValidator (.emptyString "field" "")).AddAssertion false
      "this is false").Validate.1 = .fail [.required "field"] ∧
    ((((New false).AddValidator (.emptyString "field" "")).AddAssertion false
      "this is false").Validate.1.Error (fun _ => "")
        = some "the [field] is required; this is false") :=
  have h1 := chain_validate_modes
    (((New true).AddValidator (.emptyString "field" "")).AddAssertion false "this is false")
    (fun _ => "") (by rfl)
  have h2 := chain_validate_modes
    (((New false).AddValidator (.emptyString "field" "")).AddAssertion false "this is false")
    (fun _ => "") (by rfl)
  ⟨congrArg Prod.fst ((h1.1 (by rfl)).1 [] (.emptyString "field" "")
      [.boolean false "this is false"] (.required "field") (by rfl) (by simp) (by rfl)).1,
   ((h2.2 (by rfl) (by decide)).2.1 (by decide)).2.trans (by decide)⟩

end ValidationChain
